import Mathlib

/-!
# router-production: call routing and DID leasing

A shallow embedding of the Go packages `internal/models`, `internal/database`,
`internal/provider` and `internal/router`, followed by theorems about them.

Modelling conventions

* The MySQL database is a value of type `DB`: three tables, each a list of rows in
  table order.  A query is a function of the `DB`; an `Exec` statement is a function
  from `DB` to `DB`.  SQL string comparison is modelled as string equality.  The
  audit columns `created_at` / `updated_at` are not modelled.
* `NOW()` and `time.Now()` are one clock, read from `Env.now` (seconds, `Int`).
* Unspecified choices are read from `Env`: the row picked by `ORDER BY RAND()` and
  the iteration order of a Go map.
* An `Exec` may fail as a whole (connection loss, ...); then it changes nothing and
  returns `Error.execError`.  A `Query` or `QueryRow(...).Scan` may fail as well, with
  `Error.queryError`; the `Scan` of a single row of `restoreActiveCalls` may fail on
  its own.  Which statements fail is read from `Env` for the router and from the
  argument `fails` for the manager.
* Go maps are association lists with at most one entry per key.
* Column `call_records.status` holds one of the five `CallState` constants, the only
  values the code writes.
-/

set_option linter.dupNamespace false

namespace RouterProduction

/-! ## Package `models` -/

/-- The Go type `models.CallState` with its five constants. -/
inductive CallState
  | ACTIVE
  | FORWARDED
  | RETURNED
  | COMPLETED
  | FAILED
  deriving DecidableEq, Repr

/-- The Go struct `models.Provider`, also a row of table `providers`. -/
structure Provider where
  ID : Int
  Name : String
  Host : String
  Port : Int
  Username : String
  Password : String
  Realm : String
  Transport : String
  Codecs : List String
  MaxChannels : Int
  Active : Bool
  Country : String
  deriving DecidableEq, Repr

/-- The Go struct `models.DID`, also a row of table `dids`; `Destination` is a
nullable column. -/
structure DID where
  ID : Int
  DID : String
  ProviderID : Int
  ProviderName : String
  InUse : Bool
  Destination : Option String
  Country : String
  deriving DecidableEq, Repr

/-- The Go struct `models.CallRecord`, also a row of table `call_records`; `EndTime`
is a nullable column (a nil pointer in Go). -/
structure CallRecord where
  ID : Int
  CallID : String
  OriginalANI : String
  OriginalDNIS : String
  AssignedDID : String
  ProviderID : Int
  ProviderName : String
  Status : CallState
  StartTime : Int
  EndTime : Option Int
  Duration : Int
  RecordingPath : String
  deriving DecidableEq, Repr

/-- The Go struct `models.CallResponse`. -/
structure CallResponse where
  Status : String
  DIDAssigned : String
  NextHop : String
  ANIToSend : String
  DNISToSend : String
  ProviderName : String
  TrunkName : String
  deriving DecidableEq, Repr

/-! ## Errors, environment, maps -/

/-- Errors returned by the manager and the router.  `noAvailableDIDs cause` is
`fmt.Errorf("no available DIDs: %w", cause)`, `noActiveCall did` is
`fmt.Errorf("no active call for DID %s", did)`, `sqlNoRows` is `sql.ErrNoRows`,
`execError` is the error of a failed `Exec`, `queryError` is any other error of a
`Query`, `QueryRow` or `Scan` (a lost connection, a lock wait timeout, a column that
does not convert), and `nilDereference` stands for the run-time panic of dereferencing
a nil `*CallRecord`. -/
inductive Error
  | sqlNoRows
  | execError
  | queryError
  | noAvailableDIDs (cause : Error)
  | noActiveCall (did : String)
  | nilDereference
  deriving DecidableEq, Repr

/-- Everything an operation reads from outside the modelled state. -/
structure Env where
  /-- Current time in seconds. -/
  now : Int
  /-- Where the iteration over the `providers` map of the manager starts. -/
  mapOrder : Nat
  /-- Choice of `ORDER BY RAND()` in the provider-scoped lease query. -/
  rand1 : Nat
  /-- Choice of `ORDER BY RAND()` in the any-provider lease query. -/
  rand2 : Nat
  /-- The `UPDATE dids` of `markDIDInUse` fails. -/
  markFails : Bool
  /-- The `INSERT INTO call_records` of `storeCallRecord` fails. -/
  storeFails : Bool
  /-- The `UPDATE call_records` of `updateCallStatus` fails. -/
  updateFails : Bool
  /-- The first `UPDATE` of `cleanupStaleCalls` fails. -/
  sweepFails : Bool
  /-- The second `UPDATE` of `cleanupStaleCalls` fails. -/
  releaseFails : Bool
  /-- The provider-scoped lease query of `GetAvailableDID` fails. -/
  leaseFails : Bool
  /-- The any-provider lease query of `GetAvailableDID` fails. -/
  retryFails : Bool
  /-- The query of `ProcessIncomingCall` that resolves the provider fails. -/
  resolveFails : Bool
  /-- The query of `getCallRecordByDID` fails. -/
  lookupFails : Bool
  /-- The query of `restoreActiveCalls` fails. -/
  restoreFails : Bool
  /-- Positions of the rows of the restoring query whose `Scan` fails. -/
  scanFails : List Nat
  deriving DecidableEq, Repr

/-- An environment at time `now` in which every statement is answered, every `Scan`
succeeds and every unspecified choice is the first candidate. -/
def Env.reliable (now : Int) : Env :=
  ⟨now, 0, 0, 0, false, false, false, false, false, false, false, false, false, false, []⟩

/-- A Go map with string keys. -/
abbrev GoMap (V : Type) := List (String × V)

/-- The Go expression `v, ok := m[k]`. -/
def GoMap.lookup {V : Type} : GoMap V → String → Option V
  | [], _ => none
  | (k', v) :: rest, k => if k' = k then some v else GoMap.lookup rest k

/-- The Go statement `m[k] = v`. -/
def GoMap.store {V : Type} : GoMap V → String → V → GoMap V
  | [], k, v => [(k, v)]
  | (k', v') :: rest, k, v =>
    if k' = k then (k, v) :: rest else (k', v') :: GoMap.store rest k v

/-! ## Package `database` -/

/-- The three tables created by `DB.CreateTables` that the router and the manager use. -/
structure DB where
  providers : List Provider
  dids : List DID
  call_records : List CallRecord
  deriving DecidableEq, Repr

/-- The unique keys of the schema: `providers.id` (primary key), `providers.name`
(UNIQUE) and `call_records.call_id` (UNIQUE).  Column `dids.did` carries no unique
key. -/
def DB.UniqueKeys (db : DB) : Prop :=
  (db.providers.map (fun p => p.ID)).Nodup ∧
  (db.providers.map (fun p => p.Name)).Nodup ∧
  (db.call_records.map (fun c => c.CallID)).Nodup

instance (db : DB) : Decidable db.UniqueKeys := by
  unfold DB.UniqueKeys; infer_instance

/-! ## Package `provider` -/

/-- The in-memory part of the Go struct `provider.Manager`. -/
structure Manager where
  providers : GoMap Provider
  providerDIDs : GoMap (List String)
  deriving DecidableEq, Repr

/-- Rows of the lease query of `GetAvailableDID`:
`SELECT d.did FROM dids d JOIN providers p ON d.provider_id = p.id
 WHERE d.in_use = 0 [AND p.name = ?] AND p.active = 1`,
the condition on `p.name` being present exactly when `providerName` is not empty. -/
def leaseRows (db : DB) (providerName : String) : List String :=
  db.dids.flatMap fun d =>
    (db.providers.filter fun p =>
      decide (d.ProviderID = p.ID) && !d.InUse &&
        (decide (providerName = "") || decide (p.Name = providerName)) && p.Active).map
      fun _ => d.DID

/-- The Go method `Manager.GetAvailableDID`: one row of the lease query, picked by
`ORDER BY RAND() LIMIT 1`.  Any error of `QueryRow(...).Scan` is wrapped: that of a
query that fails (`fails`), and `sql.ErrNoRows` when there is no row.  The method
issues no other statement. -/
def Manager.GetAvailableDID (db : DB) (rand : Nat) (fails : Bool) (providerName : String) :
    Except Error String :=
  if fails then .error (.noAvailableDIDs .queryError)
  else
    let rows := leaseRows db providerName
    match rows[rand % rows.length]? with
    | some did => .ok did
    | none => .error (.noAvailableDIDs .sqlNoRows)

/-- The Go method `Manager.ListProviders`: the values of the `providers` map, the
iteration starting at an unspecified entry. -/
def Manager.ListProviders (m : Manager) (mapOrder : Nat) : List Provider :=
  (m.providers.rotate mapOrder).map Prod.snd

/-- The Go method `Manager.GetProvider`. -/
def Manager.GetProvider (m : Manager) (name : String) : Option Provider :=
  GoMap.lookup m.providers name

/-! ## Package `router` -/

/-- The Go struct `router.Router`; `db` and `providerManager` stand for the database
and the manager the two pointer fields refer to. -/
structure Router where
  db : DB
  providerManager : Manager
  activeCallsMap : GoMap CallRecord
  didToCallMap : GoMap String
  recordingPath : String
  routingRules : GoMap String
  deriving DecidableEq, Repr

/-- The Go predicate `unicode.IsSpace`. -/
def isSpace (c : Char) : Bool :=
  c = '\t' || c = '\n' || c = '\x0b' || c = '\x0c' || c = '\r' || c = ' ' ||
  c = '\u0085' || c = '\u00a0' || c = '\u1680' ||
  (decide ('\u2000'.val ≤ c.val) && decide (c.val ≤ '\u200a'.val)) ||
  c = '\u2028' || c = '\u2029' || c = '\u202f' || c = '\u205f' || c = '\u3000'

/-- The Go function `strings.TrimSpace`. -/
def TrimSpace (s : String) : String :=
  ⟨((s.data.dropWhile isSpace).reverse.dropWhile isSpace).reverse⟩

/-- The SQL condition `status IN ('ACTIVE', 'FORWARDED', 'RETURNED')`. -/
def CallState.nonTerminal : CallState → Bool
  | .ACTIVE => true
  | .FORWARDED => true
  | .RETURNED => true
  | .COMPLETED => false
  | .FAILED => false

/-- The SQL condition `? IN ('COMPLETED', 'FAILED')`. -/
def CallState.terminal : CallState → Bool
  | .COMPLETED => true
  | .FAILED => true
  | _ => false

/-- The Go method `Router.selectProvider`: the name of the first listed provider, the
empty string when there is none. -/
def Router.selectProvider (r : Router) (mapOrder : Nat) (_dnis : String) : String :=
  match r.providerManager.ListProviders mapOrder with
  | [] => ""
  | p :: _ => p.Name

/-- Rows of the query of `ProcessIncomingCall` that resolves the provider of a DID:
`SELECT p.id, p.name FROM providers p JOIN dids d ON d.provider_id = p.id
 WHERE d.did = ?`. -/
def providerRows (db : DB) (did : String) : List (Int × String) :=
  db.providers.flatMap fun p =>
    (db.dids.filter fun d => decide (d.ProviderID = p.ID) && decide (d.DID = did)).map
      fun _ => (p.ID, p.Name)

/-- The rows of `dids` after
`UPDATE dids SET in_use = 1, destination = ? WHERE did = ?`. -/
def markedDIDs (dids : List DID) (did destination : String) : List DID :=
  dids.map fun d =>
    if d.DID = did then { d with InUse := true, Destination := some destination } else d

/-- The Go method `Router.markDIDInUse`. -/
def Router.markDIDInUse (db : DB) (fails : Bool) (did destination : String) :
    Except Error DB :=
  if fails then .error .execError
  else .ok { db with dids := markedDIDs db.dids did destination }

/-- The value an AUTO_INCREMENT column gets on insert. -/
def nextID (ids : List Int) : Int := ids.foldl max 0 + 1

/-- The rows of `call_records` after `INSERT INTO call_records (call_id, original_ani,
original_dnis, assigned_did, provider_id, provider_name, status, start_time,
recording_path) VALUES (...) ON DUPLICATE KEY UPDATE status = VALUES(status),
provider_id = VALUES(provider_id), provider_name = VALUES(provider_name)`; the unique
key is `call_id`. -/
def upsertedCalls (records : List CallRecord) (record : CallRecord) : List CallRecord :=
  if records.any (fun c => decide (c.CallID = record.CallID)) then
    records.map fun c =>
      if c.CallID = record.CallID then
        { c with Status := record.Status, ProviderID := record.ProviderID,
                 ProviderName := record.ProviderName }
      else c
  else
    records ++
      [{ record with ID := nextID (records.map fun c => c.ID),
                     EndTime := none, Duration := 0 }]

/-- The Go method `Router.storeCallRecord`. -/
def Router.storeCallRecord (db : DB) (fails : Bool) (record : CallRecord) :
    Except Error DB :=
  if fails then .error .execError
  else .ok { db with call_records := upsertedCalls db.call_records record }

/-- The rows of `call_records` after `UPDATE call_records SET status = ?,
end_time = CASE WHEN ? IN ('COMPLETED', 'FAILED') THEN NOW() ELSE end_time END,
duration = CASE WHEN ? IN ('COMPLETED', 'FAILED')
  THEN TIMESTAMPDIFF(SECOND, start_time, NOW()) ELSE duration END
WHERE call_id = ?`. -/
def restatedCalls (records : List CallRecord) (now : Int) (callID : String)
    (status : CallState) : List CallRecord :=
  records.map fun c =>
    if c.CallID = callID then
      { c with Status := status,
               EndTime := if status.terminal then some now else c.EndTime,
               Duration := if status.terminal then now - c.StartTime else c.Duration }
    else c

/-- The Go method `Router.updateCallStatus`. -/
def Router.updateCallStatus (db : DB) (fails : Bool) (now : Int) (callID : String)
    (status : CallState) : Except Error DB :=
  if fails then .error .execError
  else .ok { db with call_records := restatedCalls db.call_records now callID status }

/-- The SQL condition `status IN ('ACTIVE', 'FORWARDED', 'RETURNED')
AND start_time > DATE_SUB(NOW(), INTERVAL 10 MINUTE)`. -/
def CallRecord.live (now : Int) (c : CallRecord) : Bool :=
  c.Status.nonTerminal && decide (c.StartTime > now - 600)

/-- A `Scan` of the nine selected columns into a zero-valued `CallRecord`: the fields
`ID`, `EndTime` and `Duration` keep their zero values. -/
def scanCallRecord (c : CallRecord) : CallRecord :=
  { c with ID := 0, EndTime := none, Duration := 0 }

/-- The clause `ORDER BY start_time DESC LIMIT 1`: a row of greatest `start_time`. -/
def latestCall : List CallRecord → Option CallRecord
  | [] => none
  | c :: rest =>
    match latestCall rest with
    | none => some c
    | some b => if b.StartTime > c.StartTime then some b else some c

/-- The Go method `Router.getCallRecordByDID`: the most recent live call record with
`assigned_did = ?`; the error of `QueryRow(...).Scan` is returned, that of a query
that fails (`fails`) or `sql.ErrNoRows`. -/
def Router.getCallRecordByDID (db : DB) (now : Int) (fails : Bool) (did : String) :
    Except Error CallRecord :=
  if fails then .error .queryError
  else
    match latestCall (db.call_records.filter fun c =>
        decide (c.AssignedDID = did) && c.live now) with
    | some c => .ok (scanCallRecord c)
    | none => .error .sqlNoRows

/-- The rows of the restoring query that `restoreActiveCalls` enters into the maps:
the live call records, without those whose `Scan` fails. -/
def restoredRows (db : DB) (now : Int) (scanFails : List Nat) : List CallRecord :=
  (((db.call_records.filter fun c => c.live now).enum.filter
    fun row => !scanFails.contains row.1).map Prod.snd)

/-- The Go method `Router.restoreActiveCalls`: when the restoring query fails the
method returns at once; otherwise every live call record whose `Scan` succeeds is
entered into both maps, in the order the rows come back. -/
def Router.restoreActiveCalls (r : Router) (env : Env) : Router :=
  if env.restoreFails then r
  else
    (restoredRows r.db env.now env.scanFails).foldl
      (fun r c =>
        let record := scanCallRecord c
        { r with activeCallsMap := GoMap.store r.activeCallsMap record.CallID record,
                 didToCallMap := GoMap.store r.didToCallMap record.AssignedDID record.CallID })
      r

/-- The Go function `NewRouter`, without the start of the cleanup goroutine. -/
def NewRouter (db : DB) (pm : Manager) (env : Env) : Router :=
  Router.restoreActiveCalls
    { db := db, providerManager := pm, activeCallsMap := [], didToCallMap := [],
      recordingPath := "/var/spool/asterisk/recordings", routingRules := [] } env

/-- The lease of `ProcessIncomingCall`: `GetAvailableDID(providerName)` and, on any
error of it, `GetAvailableDID("")`, whose error is wrapped. -/
def Router.leaseDID (r : Router) (env : Env) (dnis : String) : Except Error String :=
  match Manager.GetAvailableDID r.db env.rand1 env.leaseFails
      (r.selectProvider env.mapOrder dnis) with
  | .ok did => .ok did
  | .error _ =>
    match Manager.GetAvailableDID r.db env.rand2 env.retryFails "" with
    | .ok did => .ok did
    | .error err => .error (.noAvailableDIDs err)

/-- The scan of the resolving query in `ProcessIncomingCall`: `providerID` and
`actualProviderName` are read from the first row.  The error of the `Scan` is not
looked at: when the query fails (`fails`) or has no row, both keep their zero
values. -/
def Router.resolveProvider (db : DB) (fails : Bool) (did : String) : Int × String :=
  if fails then (0, "")
  else
    match (providerRows db did).head? with
    | some row => row
    | none => (0, "")

/-- The call record `ProcessIncomingCall` creates. -/
def Router.newCallRecord (r : Router) (env : Env) (callID ani dnis did : String) :
    CallRecord :=
  { ID := 0, CallID := callID, OriginalANI := ani, OriginalDNIS := dnis,
    AssignedDID := did, ProviderID := (Router.resolveProvider r.db env.resolveFails did).1,
    ProviderName := (Router.resolveProvider r.db env.resolveFails did).2, Status := .ACTIVE,
    StartTime := env.now, EndTime := none, Duration := 0,
    RecordingPath := r.recordingPath ++ "/" ++ callID ++ ".wav" }

/-- The response `ProcessIncomingCall` builds. -/
def Router.incomingResponse (dnis did actualProviderName : String) : CallResponse :=
  { Status := "success", DIDAssigned := did,
    NextHop := "trunk-" ++ actualProviderName,
    ANIToSend := dnis, DNISToSend := did,
    ProviderName := actualProviderName,
    TrunkName := "trunk-" ++ actualProviderName }

/-- The Go method `Router.ProcessIncomingCall`: lease, resolve the provider (the error
of the `Scan` is dropped), mark the DID, enter the record into both maps, store it
(the error of `storeCallRecord` is dropped), respond.  The provider fetched with
`GetProvider` after the resolving query is not used by the method and is left out. -/
def Router.ProcessIncomingCall (r : Router) (env : Env) (callID ani dnis : String) :
    Except Error CallResponse × Router :=
  match r.leaseDID env dnis with
  | .error e => (.error e, r)
  | .ok did =>
    match Router.markDIDInUse r.db env.markFails did dnis with
    | .error e => (.error e, r)
    | .ok db1 =>
      let record := r.newCallRecord env callID ani dnis did
      let db2 :=
        match Router.storeCallRecord db1 env.storeFails record with
        | .ok db2 => db2
        | .error _ => db1
      (.ok (Router.incomingResponse dnis did
          (Router.resolveProvider r.db env.resolveFails did).2),
       { r with db := db2,
                activeCallsMap := GoMap.store r.activeCallsMap callID record,
                didToCallMap := GoMap.store r.didToCallMap did callID })

/-- The lookup of `ProcessReturnCall`: the call id mapped to `did` in `didToCallMap`,
else the call found by `getCallRecordByDID`, which is then entered into both maps;
`did` is already trimmed. -/
def Router.findCallByDID (r : Router) (env : Env) (did : String) :
    Except Error (String × Router) :=
  match GoMap.lookup r.didToCallMap did with
  | some callID => .ok (callID, r)
  | none =>
    match Router.getCallRecordByDID r.db env.now env.lookupFails did with
    | .error _ => .error (.noActiveCall did)
    | .ok record =>
      .ok (record.CallID,
        { r with activeCallsMap := GoMap.store r.activeCallsMap record.CallID record,
                 didToCallMap := GoMap.store r.didToCallMap did record.CallID })

/-- The response `ProcessReturnCall` builds from the record of the call. -/
def Router.returnResponse (record : CallRecord) : CallResponse :=
  { Status := "success", DIDAssigned := "", NextHop := "trunk-s4",
    ANIToSend := record.OriginalANI, DNISToSend := record.OriginalDNIS,
    ProviderName := "", TrunkName := "" }

/-- The Go method `Router.ProcessReturnCall`.  The record is read from
`activeCallsMap` before the status update (whose error is dropped) and dereferenced
after it; `ani2` is trimmed and logged only. -/
def Router.ProcessReturnCall (r : Router) (env : Env) (_ani2 did : String) :
    Except Error CallResponse × Router :=
  match r.findCallByDID env (TrimSpace did) with
  | .error e => (.error e, r)
  | .ok (callID, r1) =>
    let db2 :=
      match Router.updateCallStatus r1.db env.updateFails env.now callID .RETURNED with
      | .ok db2 => db2
      | .error _ => r1.db
    match GoMap.lookup r1.activeCallsMap callID with
    | none => (.error .nilDereference, { r1 with db := db2 })
    | some record => (.ok (Router.returnResponse record), { r1 with db := db2 })

/-- The SQL condition of the sweep: `status IN ('ACTIVE', 'FORWARDED')
AND start_time < DATE_SUB(NOW(), INTERVAL 10 MINUTE)`. -/
def CallRecord.stale (now : Int) (c : CallRecord) : Bool :=
  (decide (c.Status = .ACTIVE) || decide (c.Status = .FORWARDED)) &&
    decide (c.StartTime < now - 600)

/-- The SQL condition of the release: `cr.status = 'FAILED'
AND cr.end_time > DATE_SUB(NOW(), INTERVAL 1 MINUTE)`, false for a NULL `end_time`. -/
def CallRecord.justFailed (now : Int) (c : CallRecord) : Bool :=
  decide (c.Status = .FAILED) &&
    match c.EndTime with
    | some e => decide (e > now - 60)
    | none => false

/-- The rows of `call_records` after `UPDATE call_records SET status = 'FAILED',
end_time = NOW() WHERE status IN ('ACTIVE', 'FORWARDED')
AND start_time < DATE_SUB(NOW(), INTERVAL 10 MINUTE)`. -/
def sweptCalls (records : List CallRecord) (now : Int) : List CallRecord :=
  records.map fun c =>
    if c.stale now then { c with Status := .FAILED, EndTime := some now } else c

/-- The rows of `dids` after `UPDATE dids d INNER JOIN call_records cr
ON d.did = cr.assigned_did SET d.in_use = 0, d.destination = NULL
WHERE cr.status = 'FAILED' AND cr.end_time > DATE_SUB(NOW(), INTERVAL 1 MINUTE)`. -/
def releasedDIDs (dids : List DID) (records : List CallRecord) (now : Int) : List DID :=
  dids.map fun d =>
    if records.any (fun cr => decide (d.DID = cr.AssignedDID) && cr.justFailed now) then
      { d with InUse := false, Destination := none }
    else d

/-- The Go method `Router.cleanupStaleCalls`: the sweep; then, if it affected at least
one row, the release, whose error is dropped.  Nothing happens when the sweep fails. -/
def Router.cleanupStaleCalls (r : Router) (env : Env) : Router :=
  if env.sweepFails then r
  else
    let rows := (r.db.call_records.filter fun c => c.stale env.now).length
    let swept := sweptCalls r.db.call_records env.now
    if rows > 0 then
      if env.releaseFails then { r with db := { r.db with call_records := swept } }
      else
        { r with db := { r.db with
            call_records := swept,
            dids := releasedDIDs r.db.dids swept env.now } }
    else { r with db := { r.db with call_records := swept } }

/-! ## Runs of several calls -/

deriving instance DecidableEq for Except

/-- One request to `ProcessIncomingCall`, with the environment its call runs in. -/
structure IncomingCall where
  env : Env
  callID : String
  ani : String
  dnis : String
  deriving DecidableEq, Repr

/-- Calls of `ProcessIncomingCall` made one after the other; the results in order
and the final router. -/
def Router.runIncoming (r : Router) :
    List IncomingCall → List (Except Error CallResponse) × Router
  | [] => ([], r)
  | c :: rest =>
    let step := r.ProcessIncomingCall c.env c.callID c.ani c.dnis
    let tail := Router.runIncoming step.2 rest
    (step.1 :: tail.1, tail.2)

/-- Calls of `GetAvailableDID` made one after the other, each given as the random
choice, whether its query fails, and the provider name.  The method only reads, so
every call sees `db`. -/
def Manager.leaseSequence (db : DB) (calls : List (Nat × Bool × String)) :
    List (Except Error String) :=
  calls.map fun c => Manager.GetAvailableDID db c.1 c.2.1 c.2.2

/-- A caller blocked on the mutex of `ProcessIncomingCall`. -/
structure Caller where
  callID : String
  ani : String
  dnis : String
  deriving DecidableEq, Repr

/-- One scheduling decision: which blocked caller gets the mutex next, and the
environment in which its critical section runs. -/
structure Turn where
  pick : Nat
  env : Env
  deriving DecidableEq, Repr

/-- Concurrent callers of `ProcessIncomingCall`.  The method holds `r.mu` from entry
to return, so an execution is a sequence of whole calls in the order the scheduler
grants the mutex.  Returns each served caller with its result, the final router and
the callers still blocked. -/
def Router.runConcurrent (r : Router) (blocked : List Caller) :
    List Turn → List (Caller × Except Error CallResponse) × Router × List Caller
  | [] => ([], r, blocked)
  | t :: ts =>
    match blocked[t.pick % blocked.length]? with
    | none => ([], r, blocked)
    | some c =>
      let step := r.ProcessIncomingCall t.env c.callID c.ani c.dnis
      let tail := Router.runConcurrent step.2
        (blocked.eraseIdx (t.pick % blocked.length)) ts
      ((c, step.1) :: tail.1, tail.2)

/-- Concurrent callers of `GetAvailableDID`, each blocked with its provider name.  The
method holds `m.mu` from entry to return and only reads, so an execution is a
sequence of whole calls on the same `db`; a turn is the caller picked, the random
choice of its query and whether the query fails. -/
def Manager.runConcurrent (db : DB) (blocked : List String) :
    List (Nat × Nat × Bool) → List (String × Except Error String) × List String
  | [] => ([], blocked)
  | t :: ts =>
    match blocked[t.1 % blocked.length]? with
    | none => ([], blocked)
    | some name =>
      let tail := Manager.runConcurrent db (blocked.eraseIdx (t.1 % blocked.length)) ts
      ((name, Manager.GetAvailableDID db t.2.1 t.2.2 name) :: tail.1, tail.2)

/-- The Go test `err == nil` on a result. -/
def succeeded {α : Type} : Except Error α → Bool
  | .ok _ => true
  | .error _ => false

/-! ## Properties -/

/-- Number of non-terminal call records with `assigned_did = did`. -/
def nonTerminalRefs (db : DB) (did : String) : Nat :=
  db.call_records.countP fun c => decide (c.AssignedDID = did) && c.Status.nonTerminal

/-- The DID-lease invariant as the testable property words it: a DID is in use exactly
when exactly one non-terminal call record references it. -/
def LeaseInvariant (db : DB) : Prop :=
  ∀ d ∈ db.dids, (d.InUse = true ↔ nonTerminalRefs db d.DID = 1)

instance (db : DB) : Decidable (LeaseInvariant db) := by
  unfold LeaseInvariant; infer_instance

/-- The DID-lease invariant as the data model words it: a DID in use has exactly one
non-terminal call record referencing it, a DID not in use has none. -/
def LeaseInvariantStrict (db : DB) : Prop :=
  ∀ d ∈ db.dids,
    (d.InUse = true → nonTerminalRefs db d.DID = 1) ∧
    (d.InUse = false → nonTerminalRefs db d.DID = 0)

instance (db : DB) : Decidable (LeaseInvariantStrict db) := by
  unfold LeaseInvariantStrict; infer_instance

/-- The lease pool holds the single unused DID `did`: the any-provider lease query
has rows, and all of them carry `did`. -/
def PoolOfOne (db : DB) (did : String) : Prop :=
  leaseRows db "" ≠ [] ∧ ∀ x ∈ leaseRows db "", x = did

instance (db : DB) (did : String) : Decidable (PoolOfOne db did) := by
  unfold PoolOfOne; infer_instance

/-- Position of a state in the sequence ACTIVE, FORWARDED, RETURNED, COMPLETED, with
FAILED last. -/
def CallState.rank : CallState → Nat
  | .ACTIVE => 0
  | .FORWARDED => 1
  | .RETURNED => 2
  | .COMPLETED => 3
  | .FAILED => 4

/-- The moves the state machine of the data model allows: staying, or leaving a
non-terminal state for a later state of the sequence or for FAILED. -/
def CallState.mayBecome (a b : CallState) : Bool :=
  decide (a = b) || (a.nonTerminal && decide (a.rank < b.rank))

/-- Every call record of `before` is still at its place in `after`, under the same
`call_id`, in a status its old status may become. -/
def StatusMonotone (before after : List CallRecord) : Bool :=
  decide (before.length ≤ after.length) &&
    (before.zip after).all fun cc =>
      decide (cc.2.CallID = cc.1.CallID) && cc.1.Status.mayBecome cc.2.Status

/-! ## Example states -/

/-- Provider `p1` of scenario A. -/
def exampleP1 : Provider :=
  ⟨1, "p1", "10.0.0.1", 5060, "", "", "", "udp", ["ulaw", "alaw"], 100, true, ""⟩

/-- A second active provider. -/
def exampleP2 : Provider :=
  ⟨2, "p2", "10.0.0.2", 5060, "", "", "", "udp", ["ulaw", "alaw"], 100, true, ""⟩

/-- The store of scenario A: provider `p1` with the one unused DID 15551230000. -/
def exampleDB : DB :=
  ⟨[exampleP1], [⟨1, "15551230000", 1, "p1", false, none, ""⟩], []⟩

/-- The manager loaded from `exampleDB`. -/
def exampleManager : Manager :=
  ⟨[("p1", exampleP1)], [("p1", ["15551230000"])]⟩

/-- The manager loaded from `exampleDB2`. -/
def exampleManager2 : Manager :=
  ⟨[("p1", exampleP1)], [("p1", ["15551230000", "15551230001"])]⟩

/-- The router constructed on `exampleDB` at time 0. -/
def exampleRouter : Router := NewRouter exampleDB exampleManager (Env.reliable 0)

/-- Provider `p1` with two unused DIDs. -/
def exampleDB2 : DB :=
  ⟨[exampleP1],
   [⟨1, "15551230000", 1, "p1", false, none, ""⟩,
    ⟨2, "15551230001", 1, "p1", false, none, ""⟩], []⟩

/-- The router constructed on `exampleDB2` at time 0. -/
def exampleRouter2 : Router := NewRouter exampleDB2 exampleManager2 (Env.reliable 0)

/-- A call with the numbers of scenario A, at time `now` with a reliable store. -/
def exampleCall (now : Int) (callID : String) : IncomingCall :=
  ⟨Env.reliable now, callID, "7135550000", "8005551234"⟩

/-- Some DID row is unused and belongs to an active provider, named `providerName`
when that is not empty. -/
def HasUnusedDID (db : DB) (providerName : String) : Prop :=
  ∃ d ∈ db.dids, ∃ p ∈ db.providers, d.ProviderID = p.ID ∧ d.InUse = false ∧
    p.Active = true ∧ (providerName ≠ "" → p.Name = providerName)

/-- The DID `did` has a row that is unused and belongs to an active provider, named
`providerName` when that is not empty. -/
def IsUnusedDID (db : DB) (providerName did : String) : Prop :=
  ∃ d ∈ db.dids, ∃ p ∈ db.providers, d.DID = did ∧ d.ProviderID = p.ID ∧
    d.InUse = false ∧ p.Active = true ∧ (providerName ≠ "" → p.Name = providerName)

/-- Provider `p1` without a free DID, provider `p2` with the free DID 15551230001. -/
def exampleDB3 : DB :=
  ⟨[exampleP1, exampleP2],
   [⟨1, "15551230000", 1, "p1", true, some "8005550000", ""⟩,
    ⟨2, "15551230001", 2, "p2", false, none, ""⟩], []⟩

/-- A router on `exampleDB3` whose manager lists `p1` first. -/
def exampleRouter3 : Router :=
  { db := exampleDB3,
    providerManager := ⟨[("p1", exampleP1), ("p2", exampleP2)], []⟩,
    activeCallsMap := [], didToCallMap := [],
    recordingPath := "/var/spool/asterisk/recordings", routingRules := [] }

/-- Like `exampleDB`, the DID carrying a leading blank. -/
def exampleDBBlank : DB :=
  ⟨[exampleP1], [⟨1, " 15551230000", 1, "p1", false, none, ""⟩], []⟩

/-- The router constructed on `exampleDBBlank` at time 0. -/
def exampleRouterBlank : Router :=
  NewRouter exampleDBBlank ⟨[("p1", exampleP1)], [("p1", [" 15551230000"])]⟩
    (Env.reliable 0)

/-- The router after scenario A. -/
def exampleRouterA : Router :=
  (exampleRouter.ProcessIncomingCall (Env.reliable 0) "call-1" "7135550000"
    "8005551234").2

/-- The router with two DIDs after the call of scenario A. -/
def exampleRouter2A : Router :=
  (exampleRouter2.ProcessIncomingCall (Env.reliable 0) "call-1" "7135550000"
    "8005551234").2

/-- The router after scenario A and a sweep at time 601, which fails the call. -/
def exampleRouterSwept : Router := exampleRouterA.cleanupStaleCalls (Env.reliable 601)

/-- The router with two DIDs after the call of scenario A and its return leg. -/
def exampleRouter2Returned : Router :=
  (exampleRouter2A.ProcessReturnCall (Env.reliable 5) "anything" "15551230000").2

/-- A run on two DIDs: "call-1" at time 390 and "call-3" at time 410 take the two
DIDs, the sweep at time 1000 fails "call-1" and frees its DID, and "call-2" at time
1010 is given that DID. -/
def exampleRouterReleased : Router :=
  ((((exampleRouter2.ProcessIncomingCall (Env.reliable 390) "call-1" "7135550001"
    "8005551234").2.ProcessIncomingCall (Env.reliable 410) "call-3" "7135550003"
    "8005551234").2.cleanupStaleCalls (Env.reliable 1000)).ProcessIncomingCall
    (Env.reliable 1010) "call-2" "7135550002" "8005551234").2

/-- A store in which the free DID 15551230000 is referenced by two ACTIVE calls. -/
def exampleRouterTwoRefs : Router :=
  { exampleRouter with
    db := { exampleDB with
      call_records :=
        [⟨1, "call-8", "7135550008", "8005551234", "15551230000", 1, "p1", .ACTIVE, 0,
          none, 0, ""⟩,
         ⟨2, "call-9", "7135550009", "8005551234", "15551230000", 1, "p1", .ACTIVE, 0,
          none, 0, ""⟩] } }

/-! ## Package `provider`: administration -/

/-- Errors returned by `AddProvider` and `AddDIDs`: `nameAndHostRequired` is
"provider name and host are required", `failedToAddProvider cause` and
`failedToAddDIDs cause` wrap the error of the failed `Exec`, and `providerNotFound
name` is `fmt.Errorf("provider %s not found", name)`. -/
inductive ProviderError
  | nameAndHostRequired
  | failedToAddProvider (cause : Error)
  | providerNotFound (name : String)
  | failedToAddDIDs (cause : Error)
  deriving DecidableEq, Repr

/-- The defaults `AddProvider` writes into the provider it is given: port 5060,
transport "udp", codecs ulaw and alaw, each only when the field has its zero value. -/
def withDefaults (p : Provider) : Provider :=
  { p with
    Port := if p.Port = 0 then 5060 else p.Port,
    Transport := if p.Transport = "" then "udp" else p.Transport,
    Codecs := if p.Codecs.length = 0 then ["ulaw", "alaw"] else p.Codecs }

/-- The rows of `providers` after `INSERT INTO providers (name, host, port, username,
password, realm, transport, codecs, max_channels, active, country) VALUES (...)
ON DUPLICATE KEY UPDATE host = VALUES(host), ..., country = VALUES(country)`; the
unique key is `name`.  A row with that name keeps its `id` and takes the other
columns; otherwise a row with the next `id` is added. -/
def upsertedProviders (rows : List Provider) (p : Provider) : List Provider :=
  if rows.any (fun q => decide (q.Name = p.Name)) then
    rows.map fun q => if q.Name = p.Name then { p with ID := q.ID } else q
  else
    rows ++ [{ p with ID := nextID (rows.map fun q => q.ID) }]

/-- The value of `result.LastInsertId()` after the upsert: the new `id` when a row was
inserted; `updatedID`, a value the server chooses, when a row was updated. -/
def lastInsertId (rows : List Provider) (p : Provider) (updatedID : Int) : Int :=
  if rows.any (fun q => decide (q.Name = p.Name)) then updatedID
  else nextID (rows.map fun q => q.ID)

/-- The Go method `Manager.AddProvider`, on the manager and the database its `db`
field points to: validation, defaults, upsert (`fails` says whether the `Exec`
fails), `p.ID` set from `LastInsertId`, entry in the `providers` map.  The result is
the error or nil, the manager and the database.  The generation of the Asterisk
configuration, whose error is only logged, is left out. -/
def Manager.AddProvider (m : Manager) (db : DB) (fails : Bool) (updatedID : Int)
    (p : Provider) : Except ProviderError Unit × Manager × DB :=
  if p.Name = "" ∨ p.Host = "" then (.error .nameAndHostRequired, m, db)
  else if fails then (.error (.failedToAddProvider .execError), m, db)
  else
    let stored : Provider :=
      { withDefaults p with ID := lastInsertId db.providers (withDefaults p) updatedID }
    (.ok (),
     { m with providers := GoMap.store m.providers stored.Name stored },
     { db with providers := upsertedProviders db.providers (withDefaults p) })

/-- The rows of `dids` after `INSERT INTO dids (did, provider_id, provider_name,
country) VALUES (?, ?, ?, ?), ... ON DUPLICATE KEY UPDATE ...`, one value tuple per
DID.  The only unique key of `dids` is the AUTO_INCREMENT `id`, which the statement
does not supply, so every tuple is inserted as a new row, with `in_use` FALSE and
`destination` NULL by default. -/
def insertedDIDs (rows : List DID) (provider : Provider) (country : String) :
    List String → List DID
  | [] => rows
  | did :: rest =>
    insertedDIDs
      (rows ++ [{ ID := nextID (rows.map fun d => d.ID), DID := did,
                  ProviderID := provider.ID, ProviderName := provider.Name,
                  InUse := false, Destination := none, Country := country }])
      provider country rest

/-- The Go method `Manager.AddDIDs`.  The `Exec` fails when `fails` is set, when
`dids` is empty (the statement then has no value tuple and does not parse), and when
the provider id is no `providers.id` (the foreign key of `dids.provider_id`). -/
def Manager.AddDIDs (m : Manager) (db : DB) (fails : Bool) (providerName : String)
    (dids : List String) (country : String) : Except ProviderError Unit × Manager × DB :=
  match GoMap.lookup m.providers providerName with
  | none => (.error (.providerNotFound providerName), m, db)
  | some provider =>
    if fails || dids.isEmpty || !(db.providers.any fun q => decide (q.ID = provider.ID)) then
      (.error (.failedToAddDIDs .execError), m, db)
    else
      let known := (GoMap.lookup m.providerDIDs providerName).getD []
      (.ok (),
       { m with providerDIDs := GoMap.store m.providerDIDs providerName (known ++ dids) },
       { db with dids := insertedDIDs db.dids provider country dids })

/-- The store after the run `exampleRouterReleased`, the sweep at time 1030, which
frees both DIDs, and "call-4" at time 1040, which is given the DID that "call-2"
still holds. -/
def exampleDBShared : DB :=
  ((exampleRouterReleased.cleanupStaleCalls (Env.reliable 1030)).ProcessIncomingCall
    (Env.reliable 1040) "call-4" "7135550004" "8005551234").2.db

/-- The environment at time 0 in which only the insert of `storeCallRecord` fails. -/
def exampleEnvStoreFails : Env :=
  ⟨0, 0, 0, 0, false, true, false, false, false, false, false, false, false, false, []⟩

/-- The environment at time 0 in which only the update of `markDIDInUse` fails. -/
def exampleEnvMarkFails : Env :=
  ⟨0, 0, 0, 0, true, false, false, false, false, false, false, false, false, false, []⟩

/-- A store with provider `p1` and no DID. -/
def exampleDBNoDIDs : DB := ⟨[exampleP1], [], []⟩

/-- The manager loaded from `exampleDBNoDIDs`. -/
def exampleManagerNoDIDs : Manager := ⟨[("p1", exampleP1)], [("p1", [])]⟩

/-- The manager and the store after `AddDIDs("p1", ["15551230000"], "US")`. -/
def exampleAddedOnce : Except ProviderError Unit × Manager × DB :=
  Manager.AddDIDs exampleManagerNoDIDs exampleDBNoDIDs false "p1" ["15551230000"] "US"

/-- The manager and the store after the same `AddDIDs` call is made a second time. -/
def exampleAddedTwice : Except ProviderError Unit × Manager × DB :=
  Manager.AddDIDs exampleAddedOnce.2.1 exampleAddedOnce.2.2 false "p1" ["15551230000"] "US"

/-- Providers `p1` and `p2`, each with one unused DID. -/
def exampleDB4 : DB :=
  ⟨[exampleP1, exampleP2],
   [⟨1, "15551230000", 1, "p1", false, none, ""⟩,
    ⟨2, "15551230001", 2, "p2", false, none, ""⟩], []⟩

/-- A router on `exampleDB4` whose manager holds `p1` and `p2`. -/
def exampleRouter4 : Router :=
  { db := exampleDB4,
    providerManager := ⟨[("p1", exampleP1), ("p2", exampleP2)], []⟩,
    activeCallsMap := [], didToCallMap := [],
    recordingPath := "/var/spool/asterisk/recordings", routingRules := [] }

/-- The environment at time 0 in which the iteration over the `providers` map starts
at its second entry. -/
def exampleEnvSecond : Env :=
  ⟨0, 1, 0, 0, false, false, false, false, false, false, false, false, false, false, []⟩

/-- The environment at time 0 in which only the any-provider lease query fails. -/
def exampleEnvRetryFails : Env :=
  ⟨0, 0, 0, 0, false, false, false, false, false, false, true, false, false, false, []⟩

/-- The environment at time 0 in which only the provider-scoped lease query fails. -/
def exampleEnvLeaseFails : Env :=
  ⟨0, 0, 0, 0, false, false, false, false, false, true, false, false, false, false, []⟩

/-- The environment at time 0 in which only the resolving query fails. -/
def exampleEnvResolveFails : Env :=
  ⟨0, 0, 0, 0, false, false, false, false, false, false, false, true, false, false, []⟩

/-- The environment at time 300 in which only the restoring query fails. -/
def exampleEnvRestoreFails : Env :=
  ⟨300, 0, 0, 0, false, false, false, false, false, false, false, false, false, true, []⟩

/-- The store of scenario A after the DID was leased to a call and the same DID was
added to `p1` a second time: two rows of 15551230000, the first in use. -/
def exampleDBTwoRows : DB :=
  ⟨[exampleP1],
   [⟨1, "15551230000", 1, "p1", true, some "8005551234", ""⟩,
    ⟨2, "15551230000", 1, "p1", false, none, ""⟩], []⟩

/-- Provider `p1`, switched off. -/
def exampleP1Inactive : Provider :=
  ⟨1, "p1", "10.0.0.1", 5060, "", "", "", "udp", ["ulaw", "alaw"], 100, false, ""⟩

/-- The DID 15551230000 added to the inactive provider `p1` and to the active provider
`p2`: two unused rows of the same DID. -/
def exampleDBTwoOwners : DB :=
  ⟨[exampleP1Inactive, exampleP2],
   [⟨1, "15551230000", 1, "p1", false, none, ""⟩,
    ⟨2, "15551230000", 2, "p2", false, none, ""⟩], []⟩

/-- A router on `exampleDBTwoOwners` whose manager holds `p1` and `p2`. -/
def exampleRouterTwoOwners : Router :=
  { db := exampleDBTwoOwners,
    providerManager := ⟨[("p1", exampleP1Inactive), ("p2", exampleP2)], []⟩,
    activeCallsMap := [], didToCallMap := [],
    recordingPath := "/var/spool/asterisk/recordings", routingRules := [] }

/-! ## Reachable routers -/

/-- One operation on a router: a restore, an incoming call, a return call, a sweep of
the cleanup goroutine, or a change of the database or of the manager made by other
code (the manager itself, the command line tool). -/
inductive Router.Step : Router → Router → Prop
  | restore (r : Router) (env : Env) : Router.Step r (r.restoreActiveCalls env)
  | incoming (r : Router) (env : Env) (callID ani dnis : String) :
    Router.Step r (r.ProcessIncomingCall env callID ani dnis).2
  | returned (r : Router) (env : Env) (ani2 did : String) :
    Router.Step r (r.ProcessReturnCall env ani2 did).2
  | sweep (r : Router) (env : Env) : Router.Step r (r.cleanupStaleCalls env)
  | outside (r : Router) (db : DB) (pm : Manager) :
    Router.Step r { r with db := db, providerManager := pm }

/-- The routers reachable from a newly constructed one. -/
inductive Router.Reachable : Router → Prop
  | new (db : DB) (pm : Manager) (env : Env) : Router.Reachable (NewRouter db pm env)
  | step {r r2 : Router} : Router.Reachable r → Router.Step r r2 → Router.Reachable r2

/-- Every call id that `didToCallMap` holds is a key of `activeCallsMap`. -/
def Router.Consistent (r : Router) : Prop :=
  ∀ did callID, GoMap.lookup r.didToCallMap did = some callID →
    ∃ record, GoMap.lookup r.activeCallsMap callID = some record

/-- No key of the map `m` is missing from the map `m2`. -/
def GoMap.KeysKept {V : Type} (m m2 : GoMap V) : Prop :=
  ∀ k, (GoMap.lookup m k).isSome = true → (GoMap.lookup m2 k).isSome = true

/-! ## Lemmas on the lease query -/

theorem mem_leaseRows {db : DB} {name x : String} :
    x ∈ leaseRows db name ↔
      ∃ d ∈ db.dids, ∃ p ∈ db.providers, d.DID = x ∧ d.ProviderID = p.ID ∧
        d.InUse = false ∧ (name = "" ∨ p.Name = name) ∧ p.Active = true := by
  unfold leaseRows
  simp only [List.mem_flatMap, List.mem_map, List.mem_filter, Bool.and_eq_true,
    Bool.or_eq_true, decide_eq_true_eq, Bool.not_eq_true']
  constructor
  · rintro ⟨d, hd, p, ⟨hp, ⟨⟨⟨h1, h2⟩, h3⟩, h4⟩⟩, rfl⟩
    exact ⟨d, hd, p, hp, rfl, h1, h2, h3, h4⟩
  · rintro ⟨d, hd, p, hp, rfl, h1, h2, h3, h4⟩
    exact ⟨d, hd, p, ⟨hp, ⟨⟨⟨h1, h2⟩, h3⟩, h4⟩⟩, rfl⟩

theorem getAvailableDID_ok_mem {db : DB} {rand : Nat} {fails : Bool} {name x : String}
    (h : Manager.GetAvailableDID db rand fails name = .ok x) : x ∈ leaseRows db name := by
  unfold Manager.GetAvailableDID at h
  split at h
  · cases h
  · simp only at h
    split at h
    · next did hdid =>
      injection h with h
      subst h
      exact List.getElem?_mem hdid
    · cases h

theorem getAvailableDID_ok_answered {db : DB} {rand : Nat} {fails : Bool} {name x : String}
    (h : Manager.GetAvailableDID db rand fails name = .ok x) : fails = false := by
  cases fails with
  | false => rfl
  | true => simp [Manager.GetAvailableDID] at h

theorem getAvailableDID_of_fails (db : DB) (rand : Nat) (name : String) :
    Manager.GetAvailableDID db rand true name = .error (.noAvailableDIDs .queryError) := by
  simp [Manager.GetAvailableDID]

theorem getAvailableDID_of_ne_nil {db : DB} (rand : Nat) {name : String}
    (h : leaseRows db name ≠ []) :
    ∃ x, Manager.GetAvailableDID db rand false name = .ok x := by
  unfold Manager.GetAvailableDID
  rw [if_neg (by decide)]
  have hlen : 0 < (leaseRows db name).length := List.length_pos.mpr h
  have hlt : rand % (leaseRows db name).length < (leaseRows db name).length :=
    Nat.mod_lt _ hlen
  simp only [List.getElem?_eq_getElem hlt]
  exact ⟨_, rfl⟩

theorem getAvailableDID_of_nil {db : DB} (rand : Nat) {name : String}
    (h : leaseRows db name = []) :
    Manager.GetAvailableDID db rand false name = .error (.noAvailableDIDs .sqlNoRows) := by
  unfold Manager.GetAvailableDID
  simp [h]

/-! ## Lemmas on `ProcessIncomingCall` -/

theorem leaseDID_ok_mem {r : Router} {env : Env} {dnis d : String}
    (h : r.leaseDID env dnis = .ok d) :
    d ∈ leaseRows r.db (r.selectProvider env.mapOrder dnis) ∨ d ∈ leaseRows r.db "" := by
  unfold Router.leaseDID at h
  split at h
  · next did h1 =>
    injection h with h
    subst h
    exact Or.inl (getAvailableDID_ok_mem h1)
  · split at h
    · next did h2 =>
      injection h with h
      subst h
      exact Or.inr (getAvailableDID_ok_mem h2)
    · cases h

theorem leaseRows_subset_any {db : DB} {name x : String} (h : x ∈ leaseRows db name) :
    x ∈ leaseRows db "" := by
  rw [mem_leaseRows] at h ⊢
  obtain ⟨d, hd, p, hp, h1, h2, h3, _, h5⟩ := h
  exact ⟨d, hd, p, hp, h1, h2, h3, Or.inl rfl, h5⟩

theorem leaseDID_ok_mem_any {r : Router} {env : Env} {dnis d : String}
    (h : r.leaseDID env dnis = .ok d) : d ∈ leaseRows r.db "" := by
  rcases leaseDID_ok_mem h with h | h
  · exact leaseRows_subset_any h
  · exact h

theorem leaseDID_of_nil {r : Router} (env : Env) (dnis : String)
    (h : leaseRows r.db "" = []) :
    r.leaseDID env dnis =
      .error (.noAvailableDIDs (.noAvailableDIDs
        (if env.retryFails then .queryError else .sqlNoRows))) := by
  have h1 : leaseRows r.db (r.selectProvider env.mapOrder dnis) = [] := by
    apply List.eq_nil_iff_forall_not_mem.mpr
    intro x hx
    have := leaseRows_subset_any hx
    rw [h] at this
    cases this
  unfold Router.leaseDID
  cases hl : env.leaseFails <;> cases hr : env.retryFails <;>
    simp [getAvailableDID_of_nil _ h1, getAvailableDID_of_nil _ h, getAvailableDID_of_fails]

/-- Both lease queries failing, the lease fails whatever the store holds. -/
theorem leaseDID_of_fails {r : Router} {env : Env} (dnis : String)
    (hl : env.leaseFails = true) (hr : env.retryFails = true) :
    r.leaseDID env dnis = .error (.noAvailableDIDs (.noAvailableDIDs .queryError)) := by
  unfold Router.leaseDID
  rw [hl, hr]
  simp [getAvailableDID_of_fails]

theorem leaseDID_of_ne_nil {r : Router} (env : Env) (dnis : String)
    (h : leaseRows r.db "" ≠ []) (hr : env.retryFails = false) :
    ∃ d, r.leaseDID env dnis = .ok d := by
  unfold Router.leaseDID
  split
  · exact ⟨_, rfl⟩
  · obtain ⟨x, hx⟩ := getAvailableDID_of_ne_nil env.rand2 h
    rw [hr, hx]
    exact ⟨_, rfl⟩

theorem processIncomingCall_of_lease_error {r : Router} {env : Env}
    {callID ani dnis : String} {e : Error} (h : r.leaseDID env dnis = .error e) :
    r.ProcessIncomingCall env callID ani dnis = (.error e, r) := by
  unfold Router.ProcessIncomingCall
  rw [h]

theorem processIncomingCall_of_mark_fails {r : Router} {env : Env}
    {callID ani dnis d : String} (h : r.leaseDID env dnis = .ok d)
    (hm : env.markFails = true) :
    r.ProcessIncomingCall env callID ani dnis = (.error .execError, r) := by
  unfold Router.ProcessIncomingCall
  rw [h]
  simp [Router.markDIDInUse, hm]

theorem processIncomingCall_of_lease_ok {r : Router} {env : Env}
    {callID ani dnis d : String} (h : r.leaseDID env dnis = .ok d)
    (hm : env.markFails = false) :
    r.ProcessIncomingCall env callID ani dnis =
      (.ok (Router.incomingResponse dnis d
          (Router.resolveProvider r.db env.resolveFails d).2),
       { r with
          db :=
            { r.db with
              dids := markedDIDs r.db.dids d dnis,
              call_records :=
                if env.storeFails then r.db.call_records
                else upsertedCalls r.db.call_records
                  (r.newCallRecord env callID ani dnis d) },
          activeCallsMap :=
            GoMap.store r.activeCallsMap callID (r.newCallRecord env callID ani dnis d),
          didToCallMap := GoMap.store r.didToCallMap d callID }) := by
  unfold Router.ProcessIncomingCall
  rw [h]
  cases hs : env.storeFails <;> simp [Router.markDIDInUse, Router.storeCallRecord, hm, hs]

/-- Inversion of a successful `ProcessIncomingCall`. -/
theorem processIncomingCall_ok_inv {r r' : Router} {env : Env}
    {callID ani dnis : String} {resp : CallResponse}
    (h : r.ProcessIncomingCall env callID ani dnis = (.ok resp, r')) :
    ∃ d, r.leaseDID env dnis = .ok d ∧ env.markFails = false := by
  cases hl : r.leaseDID env dnis with
  | error e =>
    rw [processIncomingCall_of_lease_error hl] at h
    cases h
  | ok d =>
    cases hm : env.markFails with
    | true =>
      rw [processIncomingCall_of_mark_fails hl hm] at h
      cases h
    | false => exact ⟨d, rfl, rfl⟩

theorem processIncomingCall_error_unchanged {r : Router} {env : Env}
    {callID ani dnis : String} {e : Error}
    (h : (r.ProcessIncomingCall env callID ani dnis).1 = .error e) :
    (r.ProcessIncomingCall env callID ani dnis).2 = r := by
  cases hl : r.leaseDID env dnis with
  | error e' => rw [processIncomingCall_of_lease_error hl]
  | ok d =>
    cases hm : env.markFails with
    | true => rw [processIncomingCall_of_mark_fails hl hm]
    | false =>
      rw [processIncomingCall_of_lease_ok hl hm] at h
      cases h

theorem mem_providerRows {db : DB} {did : String} {row : Int × String} :
    row ∈ providerRows db did ↔
      ∃ p ∈ db.providers, ∃ d ∈ db.dids, d.ProviderID = p.ID ∧ d.DID = did ∧
        row = (p.ID, p.Name) := by
  unfold providerRows
  simp only [List.mem_flatMap, List.mem_map, List.mem_filter, Bool.and_eq_true,
    decide_eq_true_eq]
  constructor
  · rintro ⟨p, hp, d, ⟨hd, h1, h2⟩, rfl⟩
    exact ⟨p, hp, d, hd, h1, h2, rfl⟩
  · rintro ⟨p, hp, d, hd, h1, h2, rfl⟩
    exact ⟨p, hp, d, ⟨hd, h1, h2⟩, rfl⟩

/-- A leased DID has a row in the resolving query, so the scan of an answered query
succeeds. -/
theorem resolveProvider_of_leased {db : DB} {did : String} (h : did ∈ leaseRows db "") :
    ∃ p ∈ db.providers, ∃ d ∈ db.dids, d.ProviderID = p.ID ∧ d.DID = did ∧
      Router.resolveProvider db false did = (p.ID, p.Name) := by
  obtain ⟨d, hd, p, hp, h1, h2, _, _, _⟩ := mem_leaseRows.mp h
  have hmem : (p.ID, p.Name) ∈ providerRows db did :=
    mem_providerRows.mpr ⟨p, hp, d, hd, h2, h1, rfl⟩
  unfold Router.resolveProvider
  rw [if_neg (by decide)]
  cases hrows : providerRows db did with
  | nil => rw [hrows] at hmem; cases hmem
  | cons row rest =>
    have hrow : row ∈ providerRows db did := by rw [hrows]; exact List.mem_cons_self _ _
    obtain ⟨q, hq, d', hd', h3, h4, h5⟩ := mem_providerRows.mp hrow
    exact ⟨q, hq, d', hd', h3, h4, by simpa using h5⟩

theorem provider_eq_of_id {db : DB} (hk : db.UniqueKeys) {p q : Provider}
    (hp : p ∈ db.providers) (hq : q ∈ db.providers) (h : p.ID = q.ID) : p = q :=
  List.inj_on_of_nodup_map hk.1 hp hq h

/-- The resolving query failing, the provider id and name keep their zero values. -/
theorem resolveProvider_of_fails (db : DB) (did : String) :
    Router.resolveProvider db true did = (0, "") := by
  simp [Router.resolveProvider]

/-! ## Lemmas on Go maps and on the call-record statements -/

theorem GoMap.lookup_store_self {V : Type} (m : GoMap V) (k : String) (v : V) :
    GoMap.lookup (GoMap.store m k v) k = some v := by
  induction m with
  | nil => simp [GoMap.store, GoMap.lookup]
  | cons kv rest ih =>
    obtain ⟨k', v'⟩ := kv
    by_cases hk : k' = k
    · simp [GoMap.store, GoMap.lookup, hk]
    · simp [GoMap.store, GoMap.lookup, hk, ih]

theorem GoMap.lookup_store_ne {V : Type} (m : GoMap V) {k k2 : String} (v : V)
    (h : k ≠ k2) : GoMap.lookup (GoMap.store m k v) k2 = GoMap.lookup m k2 := by
  induction m with
  | nil => simp [GoMap.store, GoMap.lookup, h]
  | cons kv rest ih =>
    obtain ⟨k', v'⟩ := kv
    by_cases hk : k' = k
    · subst hk
      simp [GoMap.store, GoMap.lookup, h]
    · by_cases hk2 : k' = k2
      · subst hk2
        simp [GoMap.store, GoMap.lookup, hk]
      · simp [GoMap.store, GoMap.lookup, hk, hk2, ih]

theorem upsertedCalls_of_any {records : List CallRecord} {record : CallRecord}
    (h : ∃ c ∈ records, c.CallID = record.CallID) :
    upsertedCalls records record =
      records.map fun c =>
        if c.CallID = record.CallID then
          { c with Status := record.Status, ProviderID := record.ProviderID,
                   ProviderName := record.ProviderName }
        else c := by
  obtain ⟨c, hc, hcid⟩ := h
  have hany : records.any (fun c => decide (c.CallID = record.CallID)) = true :=
    List.any_eq_true.mpr ⟨c, hc, by simpa using hcid⟩
  unfold upsertedCalls
  rw [if_pos hany]

theorem upsertedCalls_of_fresh {records : List CallRecord} {record : CallRecord}
    (h : ∀ c ∈ records, c.CallID ≠ record.CallID) :
    upsertedCalls records record =
      records ++ [{ record with ID := nextID (records.map fun c => c.ID),
                                EndTime := none, Duration := 0 }] := by
  have hany : ¬ records.any (fun c => decide (c.CallID = record.CallID)) = true := by
    intro hany
    obtain ⟨c, hc, hcid⟩ := List.any_eq_true.mp hany
    exact h c hc (by simpa using hcid)
  unfold upsertedCalls
  rw [if_neg hany]

theorem upsertedCalls_has (records : List CallRecord) (record : CallRecord) :
    ∃ c ∈ upsertedCalls records record, c.CallID = record.CallID := by
  by_cases h : ∃ c ∈ records, c.CallID = record.CallID
  · rw [upsertedCalls_of_any h]
    obtain ⟨c, hc, hcid⟩ := h
    refine ⟨_, List.mem_map.mpr ⟨c, hc, rfl⟩, ?_⟩
    simp [hcid]
  · have h' : ∀ c ∈ records, c.CallID ≠ record.CallID := fun c hc hcid => h ⟨c, hc, hcid⟩
    rw [upsertedCalls_of_fresh h']
    exact ⟨_, List.mem_append_right _ (List.mem_singleton.mpr rfl), rfl⟩

theorem restatedCalls_status {records : List CallRecord} {now : Int} {callID : String}
    {status : CallState} {c : CallRecord} (hc : c ∈ restatedCalls records now callID status)
    (hcid : c.CallID = callID) : c.Status = status := by
  obtain ⟨c0, _, rfl⟩ := List.mem_map.mp hc
  by_cases h0 : c0.CallID = callID
  · simp [h0]
  · simp only [h0, if_false] at hcid

theorem restatedCalls_has {records : List CallRecord} (now : Int) (callID : String)
    (status : CallState) {c : CallRecord} (hc : c ∈ records) :
    ∃ c2 ∈ restatedCalls records now callID status, c2.CallID = c.CallID := by
  refine ⟨_, List.mem_map.mpr ⟨c, hc, rfl⟩, ?_⟩
  by_cases h0 : c.CallID = callID <;> simp [h0]

/-! ## Lemmas on `ProcessReturnCall` -/

theorem processReturnCall_of_found {r r1 : Router} {env : Env} {ani2 did callID : String}
    {record : CallRecord}
    (hf : r.findCallByDID env (TrimSpace did) = .ok (callID, r1))
    (hrec : GoMap.lookup r1.activeCallsMap callID = some record) :
    r.ProcessReturnCall env ani2 did =
      (.ok (Router.returnResponse record),
       { r1 with db := { r1.db with
          call_records :=
            if env.updateFails then r1.db.call_records
            else restatedCalls r1.db.call_records env.now callID .RETURNED } }) := by
  unfold Router.ProcessReturnCall
  rw [hf]
  cases hu : env.updateFails <;> simp [Router.updateCallStatus, hrec, hu]

theorem processReturnCall_of_not_found {r : Router} {env : Env} {ani2 did : String}
    {e : Error} (hf : r.findCallByDID env (TrimSpace did) = .error e) :
    r.ProcessReturnCall env ani2 did = (.error e, r) := by
  unfold Router.ProcessReturnCall
  rw [hf]

theorem findCallByDID_of_hit {r : Router} {env : Env} {did callID : String}
    (h : GoMap.lookup r.didToCallMap did = some callID) :
    r.findCallByDID env did = .ok (callID, r) := by
  unfold Router.findCallByDID
  rw [h]

/-! ## Lemmas on `cleanupStaleCalls` -/

theorem cleanupStaleCalls_call_records (r : Router) (env : Env) :
    (r.cleanupStaleCalls env).db.call_records =
      if env.sweepFails then r.db.call_records else sweptCalls r.db.call_records env.now := by
  unfold Router.cleanupStaleCalls
  cases env.sweepFails <;> simp only [Bool.false_eq_true, if_true, if_false]
  split
  · split <;> rfl
  · rfl

theorem cleanupStaleCalls_dids (r : Router) (env : Env) :
    (r.cleanupStaleCalls env).db.dids =
      if env.sweepFails = false ∧ env.releaseFails = false ∧
          (∃ c ∈ r.db.call_records, c.stale env.now = true) then
        releasedDIDs r.db.dids (sweptCalls r.db.call_records env.now) env.now
      else r.db.dids := by
  unfold Router.cleanupStaleCalls
  cases hs : env.sweepFails
  · simp only [Bool.false_eq_true, if_false, true_and]
    by_cases hrows : (r.db.call_records.filter fun c => c.stale env.now).length > 0
    · have hex : ∃ c ∈ r.db.call_records, c.stale env.now = true := by
        obtain ⟨c, hc⟩ := List.exists_mem_of_length_pos hrows
        exact ⟨c, (List.mem_filter.mp hc).1, (List.mem_filter.mp hc).2⟩
      rw [if_pos hrows]
      cases hr : env.releaseFails
      · simp [hex]
      · simp
    · have hex : ¬ ∃ c ∈ r.db.call_records, c.stale env.now = true := by
        rintro ⟨c, hc, hst⟩
        apply hrows
        exact List.length_pos_of_mem (List.mem_filter.mpr ⟨hc, hst⟩)
      rw [if_neg hrows]
      simp [hex]
  · simp

theorem cleanupStaleCalls_providers (r : Router) (env : Env) :
    (r.cleanupStaleCalls env).db.providers = r.db.providers := by
  unfold Router.cleanupStaleCalls
  cases env.sweepFails <;> simp only [Bool.false_eq_true, if_true, if_false]
  split
  · split <;> rfl
  · rfl

/-! ## The store after `ProcessReturnCall` -/

theorem latestCall_mem {l : List CallRecord} {c : CallRecord} (h : latestCall l = some c) :
    c ∈ l := by
  induction l generalizing c with
  | nil => cases h
  | cons a rest ih =>
    unfold latestCall at h
    cases hr : latestCall rest with
    | none =>
      rw [hr] at h
      injection h with h
      subst h
      exact List.mem_cons_self _ _
    | some b =>
      rw [hr] at h
      simp only at h
      split at h
      · injection h with h
        subst h
        exact List.mem_cons_of_mem _ (ih hr)
      · injection h with h
        subst h
        exact List.mem_cons_self _ _

theorem latestCall_eq_none {l : List CallRecord} (h : latestCall l = none) : l = [] := by
  cases l with
  | nil => rfl
  | cons a rest =>
    unfold latestCall at h
    cases hr : latestCall rest with
    | none => rw [hr] at h; cases h
    | some b =>
      rw [hr] at h
      simp only at h
      split at h <;> cases h

/-- A record returned by `getCallRecordByDID` is the scan of a live row of the DID. -/
theorem getCallRecordByDID_ok {db : DB} {now : Int} {fails : Bool} {did : String}
    {record : CallRecord}
    (h : Router.getCallRecordByDID db now fails did = .ok record) :
    ∃ c ∈ db.call_records, record = scanCallRecord c ∧ c.AssignedDID = did ∧
      c.Status.nonTerminal = true ∧ c.StartTime > now - 600 := by
  unfold Router.getCallRecordByDID at h
  split at h
  · cases h
  · split at h
    · next c hc =>
      injection h with h
      have hmem := latestCall_mem hc
      simp only [List.mem_filter, CallRecord.live, Bool.and_eq_true, decide_eq_true_eq]
        at hmem
      exact ⟨c, hmem.1, h.symm, hmem.2.1, hmem.2.2.1, hmem.2.2.2⟩
    · cases h

/-- Without a live row of the DID `getCallRecordByDID` fails. -/
theorem getCallRecordByDID_error {db : DB} {now : Int} {fails : Bool} {did : String}
    (h : ∀ c ∈ db.call_records, c.AssignedDID = did → c.Status.nonTerminal = true →
      ¬ c.StartTime > now - 600) :
    Router.getCallRecordByDID db now fails did =
      .error (if fails then .queryError else .sqlNoRows) := by
  have hnil : (db.call_records.filter fun c =>
      decide (c.AssignedDID = did) && c.live now) = [] := by
    apply List.eq_nil_iff_forall_not_mem.mpr
    intro c hc
    simp only [List.mem_filter, CallRecord.live, Bool.and_eq_true, decide_eq_true_eq] at hc
    exact h c hc.1 hc.2.1 hc.2.2.1 hc.2.2.2
  unfold Router.getCallRecordByDID
  rw [hnil]
  cases fails <;> rfl

/-- The query failing, `getCallRecordByDID` fails whatever the store holds. -/
theorem getCallRecordByDID_of_fails (db : DB) (now : Int) (did : String) :
    Router.getCallRecordByDID db now true did = .error .queryError := by
  simp [Router.getCallRecordByDID]

/-- What `findCallByDID` finds: the call id mapped in memory, or the call id of a live
row of the DID; the database is not touched. -/
theorem findCallByDID_ok {r r1 : Router} {env : Env} {did callID : String}
    (h : r.findCallByDID env did = .ok (callID, r1)) :
    r1.db = r.db ∧
    (GoMap.lookup r.didToCallMap did = some callID ∨
      (GoMap.lookup r.didToCallMap did = none ∧
        ∃ c ∈ r.db.call_records, c.CallID = callID ∧ c.AssignedDID = did ∧
          c.Status.nonTerminal = true ∧ c.StartTime > env.now - 600)) := by
  unfold Router.findCallByDID at h
  split at h
  · next cid hcid =>
    injection h with h
    injection h with h1 h2
    subst h1 h2
    exact ⟨rfl, Or.inl hcid⟩
  · next hnone =>
    split at h
    · cases h
    · next record hrec =>
      injection h with h
      injection h with h1 h2
      subst h1 h2
      obtain ⟨c, hc, hscan, h3, h4, h5⟩ := getCallRecordByDID_ok hrec
      refine ⟨rfl, Or.inr ⟨hnone, c, hc, ?_, h3, h4, h5⟩⟩
      rw [hscan]
      rfl

theorem processReturnCall_db_of_found {r r1 : Router} {env : Env} {ani2 did callID : String}
    (hf : r.findCallByDID env (TrimSpace did) = .ok (callID, r1)) :
    (r.ProcessReturnCall env ani2 did).2.db =
      { r.db with
        call_records :=
          if env.updateFails then r.db.call_records
          else restatedCalls r.db.call_records env.now callID .RETURNED } := by
  have hdb := (findCallByDID_ok hf).1
  unfold Router.ProcessReturnCall
  rw [hf]
  simp only
  split <;> (cases hu : env.updateFails <;> simp [Router.updateCallStatus, hdb])

/-! ## Lemmas on the count of non-terminal references -/

theorem nonTerminalRefs_eq_of_map {db db2 : DB} {f : CallRecord → CallRecord} {did : String}
    (hrec : db2.call_records = db.call_records.map f)
    (h : ∀ c ∈ db.call_records, c.AssignedDID = did →
      (f c).AssignedDID = did ∧ (f c).Status.nonTerminal = c.Status.nonTerminal)
    (h2 : ∀ c ∈ db.call_records, c.AssignedDID ≠ did → (f c).AssignedDID ≠ did) :
    nonTerminalRefs db2 did = nonTerminalRefs db did := by
  unfold nonTerminalRefs
  rw [hrec, List.countP_map]
  apply List.countP_congr
  intro c hc
  by_cases hd : c.AssignedDID = did
  · obtain ⟨h3, h4⟩ := h c hc hd
    simp [h3, h4, hd]
  · have := h2 c hc hd
    simp [this, hd]

theorem nonTerminalRefs_append {db db2 : DB} {c : CallRecord} {did : String}
    (hrec : db2.call_records = db.call_records ++ [c]) :
    nonTerminalRefs db2 did =
      nonTerminalRefs db did +
        if c.AssignedDID = did ∧ c.Status.nonTerminal = true then 1 else 0 := by
  unfold nonTerminalRefs
  rw [hrec, List.countP_append, List.countP_singleton]
  simp

theorem countP_two {α : Type} {p q : α → Bool} {l : List α} {a b : α}
    (ha : a ∈ l) (hb : b ∈ l) (hpa : p a = true) (hpb : p b = true)
    (hqa : q a = true) (hqb : q b = false) : 2 ≤ l.countP p := by
  induction l with
  | nil => cases ha
  | cons x rest ih =>
    rw [List.countP_cons]
    rcases List.mem_cons.mp ha with hax | har
    · rcases List.mem_cons.mp hb with hbx | hbr
      · have hab : a = b := hax.trans hbx.symm
        rw [hab, hqb] at hqa
        cases hqa
      · have : 0 < rest.countP p := List.countP_pos_iff.mpr ⟨b, hbr, hpb⟩
        subst hax
        rw [if_pos hpa]
        omega
    · rcases List.mem_cons.mp hb with hbx | hbr
      · have : 0 < rest.countP p := List.countP_pos_iff.mpr ⟨a, har, hpa⟩
        subst hbx
        rw [if_pos hpb]
        omega
      · have := ih har hbr
        omega

/-! ## Lemmas on the pool after a lease was marked -/

/-- A row of the lease query after the mark of `did` was one before, for another DID. -/
theorem mem_leaseRows_marked {db : DB} {did dnis name x : String}
    {calls : List CallRecord}
    (h : x ∈ leaseRows
      { db with dids := markedDIDs db.dids did dnis, call_records := calls } name) :
    x ∈ leaseRows db name ∧ x ≠ did := by
  obtain ⟨row2, hrow2, p, hp, h1, h2, h3, h4, h5⟩ := mem_leaseRows.mp h
  obtain ⟨row, hrow, rfl⟩ := List.mem_map.mp hrow2
  by_cases hd : row.DID = did
  · rw [if_pos hd] at h3
    cases h3
  · rw [if_neg hd] at h1 h2 h3
    exact ⟨mem_leaseRows.mpr ⟨row, hrow, p, hp, h1, h2, h3, h4, h5⟩, fun hx => hd (h1.trans hx)⟩

/-- After a successful `ProcessIncomingCall` the leased DID is no row of any lease
query, and no new row has appeared. -/
theorem leaseRows_after_incoming {r r2 : Router} {env : Env} {callID ani dnis : String}
    {resp : CallResponse} (h : r.ProcessIncomingCall env callID ani dnis = (.ok resp, r2))
    {name x : String} (hx : x ∈ leaseRows r2.db name) :
    x ∈ leaseRows r.db name ∧ x ≠ resp.DIDAssigned := by
  obtain ⟨d, hl, hm⟩ := processIncomingCall_ok_inv h
  rw [processIncomingCall_of_lease_ok hl hm] at h
  injection h with h1 h2
  injection h1 with h1
  subst h1 h2
  exact mem_leaseRows_marked hx

/-- With a pool of one, a successful `ProcessIncomingCall` empties the pool. -/
theorem pool_empty_after_incoming {r r2 : Router} {env : Env} {callID ani dnis did : String}
    {resp : CallResponse} (hpool : PoolOfOne r.db did)
    (h : r.ProcessIncomingCall env callID ani dnis = (.ok resp, r2)) :
    resp.DIDAssigned = did ∧ leaseRows r2.db "" = [] := by
  have hd : resp.DIDAssigned = did := by
    obtain ⟨d, hl, hm⟩ := processIncomingCall_ok_inv h
    have hmem := leaseDID_ok_mem_any hl
    rw [processIncomingCall_of_lease_ok hl hm] at h
    injection h with h1 _
    injection h1 with h1
    subst h1
    exact hpool.2 d hmem
  refine ⟨hd, ?_⟩
  apply List.eq_nil_iff_forall_not_mem.mpr
  intro x hx
  obtain ⟨hx1, hx2⟩ := leaseRows_after_incoming h hx
  rw [hd] at hx2
  exact hx2 (hpool.2 x hx1)

/-- With an empty pool every call in a sequence fails and nothing changes. -/
theorem runIncoming_of_empty_pool {r : Router} (h : leaseRows r.db "" = [])
    (calls : List IncomingCall) :
    r.runIncoming calls =
      (calls.map fun c => .error (.noAvailableDIDs (.noAvailableDIDs
        (if c.env.retryFails then .queryError else .sqlNoRows))), r) := by
  induction calls with
  | nil => rfl
  | cons c rest ih =>
    unfold Router.runIncoming
    rw [processIncomingCall_of_lease_error (leaseDID_of_nil c.env c.dnis h)]
    simp only [ih, List.map_cons]

theorem cons_eraseIdx_perm {α : Type} {l : List α} {i : Nat} {a : α} (h : l[i]? = some a) :
    (a :: l.eraseIdx i).Perm l := by
  induction l generalizing i with
  | nil => simp at h
  | cons x rest ih =>
    cases i with
    | zero =>
      simp only [List.getElem?_cons_zero, Option.some.injEq] at h
      subst h
      exact List.Perm.refl _
    | succ j =>
      simp only [List.getElem?_cons_succ] at h
      simp only [List.eraseIdx_cons_succ]
      exact (List.Perm.swap x a _).trans ((ih h).cons x)

/-- With an empty pool every blocked caller that is served fails, and nothing changes. -/
theorem runConcurrent_of_empty_pool {r : Router} (h : leaseRows r.db "" = [])
    (turns : List Turn) (blocked : List Caller) (hlen : blocked.length ≤ turns.length) :
    (r.runConcurrent blocked turns).2.1 = r ∧
    (r.runConcurrent blocked turns).2.2 = [] ∧
    ((r.runConcurrent blocked turns).1.map Prod.fst).Perm blocked ∧
    ((∀ t ∈ turns, t.env.retryFails = false) →
      ∀ x ∈ (r.runConcurrent blocked turns).1,
        x.2 = .error (.noAvailableDIDs (.noAvailableDIDs .sqlNoRows))) := by
  induction turns generalizing blocked with
  | nil =>
    have : blocked = [] := List.length_eq_zero.mp (Nat.le_zero.mp hlen)
    subst this
    simp [Router.runConcurrent]
  | cons t ts ih =>
    unfold Router.runConcurrent
    cases hb : blocked[t.pick % blocked.length]? with
    | none =>
      have hnil : blocked = [] := by
        by_contra hne
        have hpos : 0 < blocked.length := List.length_pos.mpr hne
        have := List.getElem?_eq_none_iff.mp hb
        have := Nat.mod_lt t.pick hpos
        omega
      subst hnil
      simp
    | some c =>
      have hlt : t.pick % blocked.length < blocked.length :=
        (List.getElem?_eq_some_iff.mp hb).1
      have hlen2 : (blocked.eraseIdx (t.pick % blocked.length)).length ≤ ts.length := by
        rw [List.length_eraseIdx_of_lt hlt]
        simp only [List.length_cons] at hlen
        omega
      simp only
      rw [processIncomingCall_of_lease_error (leaseDID_of_nil t.env c.dnis h)]
      obtain ⟨h1, h2, h3, h4⟩ := ih (blocked.eraseIdx (t.pick % blocked.length)) hlen2
      refine ⟨h1, h2, ?_, ?_⟩
      · simp only [List.map_cons]
        exact (h3.cons c).trans (cons_eraseIdx_perm hb)
      · intro hans x hx
        rcases List.mem_cons.mp hx with hx | hx
        · rw [hx, hans t (List.mem_cons_self _ _)]
          rfl
        · exact h4 (fun t2 ht2 => hans t2 (List.mem_cons_of_mem _ ht2)) x hx

theorem runConcurrent_errors_of_empty_pool {r : Router} (h : leaseRows r.db "" = [])
    (turns : List Turn) (blocked : List Caller) :
    ∀ x ∈ (r.runConcurrent blocked turns).1, succeeded x.2 = false := by
  induction turns generalizing blocked with
  | nil => simp [Router.runConcurrent]
  | cons t ts ih =>
    unfold Router.runConcurrent
    cases hb : blocked[t.pick % blocked.length]? with
    | none => simp
    | some c =>
      simp only
      rw [processIncomingCall_of_lease_error (leaseDID_of_nil t.env c.dnis h)]
      intro x hx
      rcases List.mem_cons.mp hx with hx | hx
      · rw [hx]
        rfl
      · exact ih _ x hx

/-! ## Lemmas on `restoreActiveCalls` -/

theorem GoMap.lookup_foldl_store {α V : Type} (key : α → String) (val : α → V)
    (k : String) (v : V) (l : List α) :
    ∀ m0 : GoMap V, (∀ a ∈ l, key a = k → val a = v) →
      (GoMap.lookup m0 k = some v ∨ ∃ a ∈ l, key a = k) →
      GoMap.lookup (l.foldl (fun m a => GoMap.store m (key a) (val a)) m0) k = some v := by
  induction l with
  | nil =>
    intro m0 _ hex
    rcases hex with h | ⟨a, ha, _⟩
    · exact h
    · cases ha
  | cons x rest ih =>
    intro m0 hall hex
    simp only [List.foldl_cons]
    apply ih
    · intro a ha hk
      exact hall a (List.mem_cons_of_mem _ ha) hk
    · by_cases hx : key x = k
      · left
        rw [hx, ← hall x (List.mem_cons_self _ _) hx]
        exact GoMap.lookup_store_self _ _ _
      · rcases hex with h | ⟨a, ha, hk⟩
        · left
          rw [GoMap.lookup_store_ne _ _ hx]
          exact h
        · rcases List.mem_cons.mp ha with hax | har
          · rw [hax] at hk
            exact absurd hk hx
          · exact Or.inr ⟨a, har, hk⟩

theorem GoMap.lookup_foldl_store_none {α V : Type} (key : α → String) (val : α → V)
    (k : String) (l : List α) :
    ∀ m0 : GoMap V, (∀ a ∈ l, key a ≠ k) →
      GoMap.lookup (l.foldl (fun m a => GoMap.store m (key a) (val a)) m0) k =
        GoMap.lookup m0 k := by
  induction l with
  | nil => intro m0 _; rfl
  | cons x rest ih =>
    intro m0 hno
    simp only [List.foldl_cons]
    rw [ih _ (fun a ha => hno a (List.mem_cons_of_mem _ ha)),
      GoMap.lookup_store_ne _ _ (hno x (List.mem_cons_self _ _))]

/-- The restoring query failing, `restoreActiveCalls` changes nothing. -/
theorem restoreActiveCalls_of_fails (r : Router) {env : Env} (h : env.restoreFails = true) :
    r.restoreActiveCalls env = r := by
  unfold Router.restoreActiveCalls
  rw [if_pos h]

/-- The maps after an answered `restoreActiveCalls` are the old maps with the scanned
live rows stored in order; nothing else changes. -/
theorem restoreActiveCalls_eq (r : Router) {env : Env} (h : env.restoreFails = false) :
    r.restoreActiveCalls env =
      { r with
        activeCallsMap :=
          (restoredRows r.db env.now env.scanFails).foldl
            (fun m c => GoMap.store m (scanCallRecord c).CallID (scanCallRecord c))
            r.activeCallsMap,
        didToCallMap :=
          (restoredRows r.db env.now env.scanFails).foldl
            (fun m c => GoMap.store m (scanCallRecord c).AssignedDID
              (scanCallRecord c).CallID)
            r.didToCallMap } := by
  unfold Router.restoreActiveCalls
  rw [if_neg (by simp [h])]
  generalize restoredRows r.db env.now env.scanFails = l
  induction l generalizing r with
  | nil => rfl
  | cons x rest ih =>
    simp only [List.foldl_cons]
    rw [ih]

/-- The rows restored are live rows of the store. -/
theorem mem_restoredRows {db : DB} {now : Int} {scanFails : List Nat} {c : CallRecord}
    (h : c ∈ restoredRows db now scanFails) : c ∈ db.call_records ∧ c.live now = true := by
  unfold restoredRows at h
  obtain ⟨row, hrow, rfl⟩ := List.mem_map.mp h
  have hmem := (List.mem_filter.mp hrow).1
  obtain ⟨i, a⟩ := row
  have := List.mem_filter.mp (List.snd_mem_of_mem_enum hmem)
  exact ⟨this.1, this.2⟩

/-- Every `Scan` succeeding, the rows restored are the live rows of the store. -/
theorem restoredRows_nil (db : DB) (now : Int) :
    restoredRows db now [] = db.call_records.filter fun c => c.live now := by
  unfold restoredRows
  simp [List.enum_map_snd]

/-! ## Lemmas on the two maps of the router -/

theorem GoMap.keysKept_refl {V : Type} (m : GoMap V) : GoMap.KeysKept m m :=
  fun _ h => h

theorem GoMap.keysKept_trans {V : Type} {m m2 m3 : GoMap V} (h1 : GoMap.KeysKept m m2)
    (h2 : GoMap.KeysKept m2 m3) : GoMap.KeysKept m m3 :=
  fun k h => h2 k (h1 k h)

theorem GoMap.keysKept_store {V : Type} (m : GoMap V) (k : String) (v : V) :
    GoMap.KeysKept m (GoMap.store m k v) := by
  intro k2 h
  by_cases hk : k = k2
  · rw [← hk, GoMap.lookup_store_self]
    rfl
  · rw [GoMap.lookup_store_ne _ _ hk]
    exact h

/-- Storing a call in both maps keeps them consistent. -/
theorem consistent_store {active : GoMap CallRecord} {dids : GoMap String}
    (h : ∀ did callID, GoMap.lookup dids did = some callID →
      ∃ record, GoMap.lookup active callID = some record)
    (callID did : String) (record : CallRecord) :
    ∀ did2 callID2, GoMap.lookup (GoMap.store dids did callID) did2 = some callID2 →
      ∃ record2, GoMap.lookup (GoMap.store active callID record) callID2 = some record2 := by
  intro did2 callID2 h2
  have hkept := GoMap.keysKept_store active callID record
  by_cases hd : did = did2
  · rw [← hd, GoMap.lookup_store_self] at h2
    injection h2 with h2
    rw [← h2]
    exact ⟨record, GoMap.lookup_store_self _ _ _⟩
  · rw [GoMap.lookup_store_ne _ _ hd] at h2
    obtain ⟨record2, h3⟩ := h did2 callID2 h2
    have := hkept callID2 (by rw [h3]; rfl)
    exact Option.isSome_iff_exists.mp this

/-- The maps after `ProcessIncomingCall`: unchanged, or the call stored in both. -/
theorem processIncomingCall_maps (r : Router) (env : Env) (callID ani dnis : String) :
    ((r.ProcessIncomingCall env callID ani dnis).2.activeCallsMap = r.activeCallsMap ∧
      (r.ProcessIncomingCall env callID ani dnis).2.didToCallMap = r.didToCallMap) ∨
    ∃ did record,
      (r.ProcessIncomingCall env callID ani dnis).2.activeCallsMap =
        GoMap.store r.activeCallsMap callID record ∧
      (r.ProcessIncomingCall env callID ani dnis).2.didToCallMap =
        GoMap.store r.didToCallMap did callID := by
  cases hl : r.leaseDID env dnis with
  | error e =>
    rw [processIncomingCall_of_lease_error hl]
    exact Or.inl ⟨rfl, rfl⟩
  | ok d =>
    cases hm : env.markFails with
    | true =>
      rw [processIncomingCall_of_mark_fails hl hm]
      exact Or.inl ⟨rfl, rfl⟩
    | false =>
      rw [processIncomingCall_of_lease_ok hl hm]
      exact Or.inr ⟨_, _, rfl, rfl⟩

/-- The maps after `findCallByDID`: unchanged on a hit, the found call stored in both
on a miss, and in both cases the call id found is a key of `activeCallsMap` when the
maps were consistent. -/
theorem findCallByDID_maps {r r1 : Router} {env : Env} {did callID : String}
    (h : r.findCallByDID env did = .ok (callID, r1)) :
    ((r1.activeCallsMap = r.activeCallsMap ∧ r1.didToCallMap = r.didToCallMap ∧
        GoMap.lookup r.didToCallMap did = some callID) ∨
      ∃ record, r1.activeCallsMap = GoMap.store r.activeCallsMap callID record ∧
        r1.didToCallMap = GoMap.store r.didToCallMap did callID) := by
  unfold Router.findCallByDID at h
  split at h
  · next cid hcid =>
    injection h with h
    injection h with h1 h2
    subst h1 h2
    exact Or.inl ⟨rfl, rfl, hcid⟩
  · split at h
    · cases h
    · next record hrec =>
      injection h with h
      injection h with h1 h2
      subst h1 h2
      exact Or.inr ⟨record, rfl, rfl⟩

/-- The maps after `ProcessReturnCall` are those after its lookup. -/
theorem processReturnCall_maps_of_found {r r1 : Router} {env : Env}
    {ani2 did callID : String}
    (hf : r.findCallByDID env (TrimSpace did) = .ok (callID, r1)) :
    (r.ProcessReturnCall env ani2 did).2.activeCallsMap = r1.activeCallsMap ∧
    (r.ProcessReturnCall env ani2 did).2.didToCallMap = r1.didToCallMap ∧
    ((r.ProcessReturnCall env ani2 did).1 = .error .nilDereference ↔
      GoMap.lookup r1.activeCallsMap callID = none) := by
  unfold Router.ProcessReturnCall
  rw [hf]
  simp only
  cases hrec : GoMap.lookup r1.activeCallsMap callID with
  | none => exact ⟨rfl, rfl, by simp⟩
  | some record => exact ⟨rfl, rfl, by simp⟩

/-- The maps after `restoreActiveCalls`: consistency is kept and no key is lost. -/
theorem restoreActiveCalls_maps (r : Router) (env : Env) :
    (r.Consistent → (r.restoreActiveCalls env).Consistent) ∧
    GoMap.KeysKept r.activeCallsMap (r.restoreActiveCalls env).activeCallsMap ∧
    GoMap.KeysKept r.didToCallMap (r.restoreActiveCalls env).didToCallMap := by
  unfold Router.restoreActiveCalls
  split
  · exact ⟨fun h => h, GoMap.keysKept_refl _, GoMap.keysKept_refl _⟩
  · generalize restoredRows r.db env.now env.scanFails = l
    induction l generalizing r with
    | nil => exact ⟨fun h => h, GoMap.keysKept_refl _, GoMap.keysKept_refl _⟩
    | cons x rest ih =>
      simp only [List.foldl_cons]
      obtain ⟨h1, h2, h3⟩ := ih
        { r with
          activeCallsMap := GoMap.store r.activeCallsMap (scanCallRecord x).CallID
            (scanCallRecord x),
          didToCallMap := GoMap.store r.didToCallMap (scanCallRecord x).AssignedDID
            (scanCallRecord x).CallID }
      refine ⟨fun hc => h1 (consistent_store hc _ _ _),
        GoMap.keysKept_trans (GoMap.keysKept_store _ _ _) h2,
        GoMap.keysKept_trans (GoMap.keysKept_store _ _ _) h3⟩

theorem isUnusedDID_iff_mem_leaseRows {db : DB} {name did : String} :
    IsUnusedDID db name did ↔ did ∈ leaseRows db name := by
  rw [mem_leaseRows]
  unfold IsUnusedDID
  constructor
  · rintro ⟨d, hd, p, hp, h1, h2, h3, h4, h5⟩
    refine ⟨d, hd, p, hp, h1, h2, h3, ?_, h4⟩
    by_cases hn : name = ""
    · exact Or.inl hn
    · exact Or.inr (h5 hn)
  · rintro ⟨d, hd, p, hp, h1, h2, h3, h4, h5⟩
    refine ⟨d, hd, p, hp, h1, h2, h3, h5, ?_⟩
    intro hn
    rcases h4 with h4 | h4
    · exact absurd h4 hn
    · exact h4

theorem hasUnusedDID_iff_leaseRows_ne_nil {db : DB} {name : String} :
    HasUnusedDID db name ↔ leaseRows db name ≠ [] := by
  constructor
  · rintro ⟨d, hd, p, hp, h2, h3, h4, h5⟩
    have : d.DID ∈ leaseRows db name :=
      isUnusedDID_iff_mem_leaseRows.mp ⟨d, hd, p, hp, rfl, h2, h3, h4, h5⟩
    intro hnil
    rw [hnil] at this
    cases this
  · intro h
    obtain ⟨x, hx⟩ := List.exists_mem_of_ne_nil _ h
    obtain ⟨d, hd, p, hp, _, h2, h3, h4, h5⟩ := isUnusedDID_iff_mem_leaseRows.mpr hx
    exact ⟨d, hd, p, hp, h2, h3, h4, h5⟩

/-! ## C9: what `GetAvailableDID` returns -/

/-- Counterexample to C9.  On the store of scenario A the DID 15551230000 of the
active provider `p1` is unused, yet `GetAvailableDID("p1")` fails when its query
fails: any error of the query is wrapped and returned.  On the store
`exampleDBTwoRows` the method returns 15551230000, of which one row is in use: the
lease query finds the other row of the same DID. -/
theorem getAvailableDID_iff_unused_active_counterexample :
    (∃ d ∈ exampleDB.dids, ∃ p ∈ exampleDB.providers, d.ProviderID = p.ID ∧
      d.InUse = false ∧ p.Active = true ∧ p.Name = "p1") ∧
    Manager.GetAvailableDID exampleDB 0 true "p1" =
      .error (.noAvailableDIDs .queryError) ∧
    Manager.GetAvailableDID exampleDBTwoRows 0 false "p1" = .ok "15551230000" ∧
    (∃ d ∈ exampleDBTwoRows.dids, d.DID = "15551230000" ∧ d.InUse = true) := by
  refine ⟨?_, by decide, by decide, ?_⟩
  · exact ⟨⟨1, "15551230000", 1, "p1", false, none, ""⟩, by decide, exampleP1, by decide,
      by decide, by decide, by decide, by decide⟩
  · exact ⟨⟨1, "15551230000", 1, "p1", true, some "8005551234", ""⟩, by decide,
      by decide, by decide⟩

/-- C9, amended.  `GetAvailableDID(providerName)` succeeds if and only if its query is
answered and some DID row has `in_use = false` and belongs to an active provider
(named `providerName` when that is not empty).  Every DID it returns is the DID of
such a row; where no two rows of `dids` carry the same DID and the keys of the schema
are unique, every row of the returned DID is unused and belongs to an active provider
(of that name).  With the query answered and no such row it fails with the wrapped
`sql.ErrNoRows`; with the query failing it fails with the wrapped error of the
query. -/
theorem getAvailableDID_iff_unused_active (db : DB) (rand : Nat) (fails : Bool)
    (providerName : String) :
    ((∃ did, Manager.GetAvailableDID db rand fails providerName = .ok did) ↔
        fails = false ∧ HasUnusedDID db providerName) ∧
    (∀ did, Manager.GetAvailableDID db rand fails providerName = .ok did →
        IsUnusedDID db providerName did ∧
        ((db.dids.map fun d => d.DID).Nodup → db.UniqueKeys →
          ∀ d ∈ db.dids, d.DID = did →
            d.InUse = false ∧
            ∀ p ∈ db.providers, p.ID = d.ProviderID →
              p.Active = true ∧ (providerName ≠ "" → p.Name = providerName))) ∧
    (fails = false → ¬ HasUnusedDID db providerName →
        Manager.GetAvailableDID db rand fails providerName =
          .error (.noAvailableDIDs .sqlNoRows)) ∧
    (fails = true →
        Manager.GetAvailableDID db rand fails providerName =
          .error (.noAvailableDIDs .queryError)) := by
  refine ⟨⟨?_, ?_⟩, ?_, ?_, ?_⟩
  · rintro ⟨did, h⟩
    have hmem := getAvailableDID_ok_mem h
    refine ⟨getAvailableDID_ok_answered h, ?_⟩
    apply hasUnusedDID_iff_leaseRows_ne_nil.mpr
    intro hnil
    rw [hnil] at hmem
    cases hmem
  · rintro ⟨hf, h⟩
    rw [hf]
    exact getAvailableDID_of_ne_nil rand (hasUnusedDID_iff_leaseRows_ne_nil.mp h)
  · intro did h
    have hunused := isUnusedDID_iff_mem_leaseRows.mpr (getAvailableDID_ok_mem h)
    refine ⟨hunused, ?_⟩
    intro hnodup hk d hd hdid
    obtain ⟨d0, hd0, p0, hp0, h1, h2, h3, h4, h5⟩ := hunused
    have hdd : d0 = d := List.inj_on_of_nodup_map hnodup hd0 hd (h1.trans hdid.symm)
    subst hdd
    refine ⟨h3, ?_⟩
    intro p hp hpid
    have hpp : p0 = p := provider_eq_of_id hk hp0 hp (h2.symm.trans hpid.symm)
    subst hpp
    exact ⟨h4, h5⟩
  · intro hf h
    rw [hf]
    apply getAvailableDID_of_nil
    by_contra hne
    exact h (hasUnusedDID_iff_leaseRows_ne_nil.mpr hne)
  · intro hf
    rw [hf]
    exact getAvailableDID_of_fails db rand providerName

/-- Witness of C9 amended on the store of scenario A: the answered lease scoped to `p1`
returns 15551230000, whose one row is unused and belongs to the active provider
`p1`. -/
theorem getAvailableDID_iff_unused_active_witness :
    Manager.GetAvailableDID exampleDB 0 false "p1" = .ok "15551230000" ∧
    (exampleDB.dids.map fun d => d.DID).Nodup ∧ exampleDB.UniqueKeys ∧
    (IsUnusedDID exampleDB "p1" "15551230000" ∧
      ((exampleDB.dids.map fun d => d.DID).Nodup → exampleDB.UniqueKeys →
        ∀ d ∈ exampleDB.dids, d.DID = "15551230000" →
          d.InUse = false ∧
          ∀ p ∈ exampleDB.providers, p.ID = d.ProviderID →
            p.Active = true ∧ ("p1" ≠ "" → p.Name = "p1"))) :=
  ⟨by decide, by decide, by decide,
   (getAvailableDID_iff_unused_active exampleDB 0 false "p1").2.1 "15551230000"
     (by decide)⟩

/-! ## C8: the single fallback of `ProcessIncomingCall` -/

theorem selectProvider_listed (r : Router) (mapOrder : Nat) (dnis : String) :
    (r.providerManager.providers = [] → r.selectProvider mapOrder dnis = "") ∧
    (r.providerManager.providers ≠ [] →
      ∃ entry ∈ r.providerManager.providers,
        r.selectProvider mapOrder dnis = entry.2.Name) := by
  unfold Router.selectProvider Manager.ListProviders
  constructor
  · intro h
    rw [h]
    rfl
  · intro h
    cases hrot : r.providerManager.providers.rotate mapOrder with
    | nil => exact absurd (List.rotate_eq_nil_iff.mp hrot) h
    | cons entry rest =>
      refine ⟨entry, ?_, rfl⟩
      have : entry ∈ r.providerManager.providers.rotate mapOrder := by
        rw [hrot]
        exact List.mem_cons_self _ _
      exact List.mem_rotate.mp this

/-- Counterexample to C8, on the store `exampleDB3`: the selected provider `p1` has no
unused DID, the active provider `p2` has the unused DID 15551230001, and the call
fails with the "no available DIDs" error when the any-provider lease query fails. -/
theorem processIncomingCall_fallback_counterexample :
    exampleRouter3.selectProvider exampleEnvRetryFails.mapOrder "8005551234" = "p1" ∧
    leaseRows exampleRouter3.db "p1" = [] ∧
    leaseRows exampleRouter3.db "" = ["15551230001"] ∧
    exampleRouter3.ProcessIncomingCall exampleEnvRetryFails "call-1" "7135550000"
        "8005551234" =
      (.error (.noAvailableDIDs (.noAvailableDIDs .queryError)), exampleRouter3) := by
  decide

/-- C8, amended.  The first lease of `ProcessIncomingCall` is scoped to the provider
`selectProvider` returns: a provider of the manager, or none when the manager holds
no provider.  When that query is answered and the selected provider has an unused DID
and the mark is written, the call succeeds with such a DID.  On any error of the first
lease (no unused DID of the selected provider, or a failing query) the lease is
retried once for any provider: when some active provider has an unused DID, that
query is answered and the mark is written, the call succeeds with the DID of an active
provider that the any-provider lease returns.  When no active provider has an unused
DID the call returns the "no available DIDs" error, wrapped once by the manager and
once by the router, and whenever the call fails the router, its maps and the store
are unchanged. -/
theorem processIncomingCall_fallback (r : Router) (env : Env) (callID ani dnis : String) :
    ((r.providerManager.providers = [] → r.selectProvider env.mapOrder dnis = "") ∧
      (r.providerManager.providers ≠ [] →
        ∃ entry ∈ r.providerManager.providers,
          r.selectProvider env.mapOrder dnis = entry.2.Name)) ∧
    (env.leaseFails = false → HasUnusedDID r.db (r.selectProvider env.mapOrder dnis) →
      env.markFails = false →
      ∃ resp r', r.ProcessIncomingCall env callID ani dnis = (.ok resp, r') ∧
        IsUnusedDID r.db (r.selectProvider env.mapOrder dnis) resp.DIDAssigned ∧
        Manager.GetAvailableDID r.db env.rand1 false (r.selectProvider env.mapOrder dnis) =
          .ok resp.DIDAssigned) ∧
    ((env.leaseFails = true ∨ ¬ HasUnusedDID r.db (r.selectProvider env.mapOrder dnis)) →
      HasUnusedDID r.db "" → env.retryFails = false → env.markFails = false →
      ∃ resp r', r.ProcessIncomingCall env callID ani dnis = (.ok resp, r') ∧
        IsUnusedDID r.db "" resp.DIDAssigned ∧
        Manager.GetAvailableDID r.db env.rand2 false "" = .ok resp.DIDAssigned) ∧
    (¬ HasUnusedDID r.db "" →
      r.ProcessIncomingCall env callID ani dnis =
        (.error (.noAvailableDIDs (.noAvailableDIDs
          (if env.retryFails then .queryError else .sqlNoRows))), r)) ∧
    (∀ e, (r.ProcessIncomingCall env callID ani dnis).1 = .error e →
      (r.ProcessIncomingCall env callID ani dnis).2 = r) := by
  refine ⟨selectProvider_listed r env.mapOrder dnis, ?_, ?_, ?_, ?_⟩
  · intro hl hsel hm
    obtain ⟨x, hx⟩ := getAvailableDID_of_ne_nil env.rand1
      (hasUnusedDID_iff_leaseRows_ne_nil.mp hsel)
    have hd : r.leaseDID env dnis = .ok x := by
      unfold Router.leaseDID
      rw [hl, hx]
    exact ⟨_, _, processIncomingCall_of_lease_ok hd hm,
      isUnusedDID_iff_mem_leaseRows.mpr (getAvailableDID_ok_mem hx), hx⟩
  · intro hfirst hany hr hm
    obtain ⟨x, hx⟩ := getAvailableDID_of_ne_nil env.rand2
      (hasUnusedDID_iff_leaseRows_ne_nil.mp hany)
    have hd : r.leaseDID env dnis = .ok x := by
      unfold Router.leaseDID
      rcases hfirst with hl | hsel
      · rw [hl, getAvailableDID_of_fails, hr, hx]
      · have hnil : leaseRows r.db (r.selectProvider env.mapOrder dnis) = [] := by
          by_contra hne
          exact hsel (hasUnusedDID_iff_leaseRows_ne_nil.mpr hne)
        cases hl : env.leaseFails with
        | true => rw [getAvailableDID_of_fails, hr, hx]
        | false => rw [getAvailableDID_of_nil _ hnil, hr, hx]
    exact ⟨_, _, processIncomingCall_of_lease_ok hd hm,
      isUnusedDID_iff_mem_leaseRows.mpr (getAvailableDID_ok_mem hx), hx⟩
  · intro hnone
    apply processIncomingCall_of_lease_error
    apply leaseDID_of_nil
    by_contra hne
    exact hnone (hasUnusedDID_iff_leaseRows_ne_nil.mpr hne)
  · intro e he
    exact processIncomingCall_error_unchanged he

/-- Witness of C8 amended.  On `exampleRouter3` the provider `p1` is selected and has
no unused DID, `p2` has one, and the call is given the DID of `p2`.  On
`exampleRouter4`, where both providers have an unused DID, the map iteration starting
at `p2` selects `p2` and the call is given the DID of `p2`. -/
theorem processIncomingCall_fallback_witness :
    HasUnusedDID exampleDB3 "" ∧ ¬ HasUnusedDID exampleDB3 "p1" ∧
    (∃ resp r', exampleRouter3.ProcessIncomingCall (Env.reliable 0) "call-1"
        "7135550000" "8005551234" = (.ok resp, r') ∧
      IsUnusedDID exampleRouter3.db "" resp.DIDAssigned ∧
      Manager.GetAvailableDID exampleRouter3.db (Env.reliable 0).rand2 false "" =
        .ok resp.DIDAssigned) ∧
    (exampleRouter3.ProcessIncomingCall (Env.reliable 0) "call-1" "7135550000"
        "8005551234").1 =
      .ok (Router.incomingResponse "8005551234" "15551230001" "p2") ∧
    exampleRouter4.selectProvider exampleEnvSecond.mapOrder "8005551234" = "p2" ∧
    (∃ resp r', exampleRouter4.ProcessIncomingCall exampleEnvSecond "call-1"
        "7135550000" "8005551234" = (.ok resp, r') ∧
      IsUnusedDID exampleRouter4.db
        (exampleRouter4.selectProvider exampleEnvSecond.mapOrder "8005551234")
        resp.DIDAssigned ∧
      Manager.GetAvailableDID exampleRouter4.db exampleEnvSecond.rand1 false
        (exampleRouter4.selectProvider exampleEnvSecond.mapOrder "8005551234") =
        .ok resp.DIDAssigned) ∧
    (exampleRouter4.ProcessIncomingCall exampleEnvSecond "call-1" "7135550000"
        "8005551234").1 =
      .ok (Router.incomingResponse "8005551234" "15551230001" "p2") := by
  have hany : HasUnusedDID exampleDB3 "" :=
    hasUnusedDID_iff_leaseRows_ne_nil.mpr (by decide)
  have hnone : ¬ HasUnusedDID exampleDB3 "p1" := fun h =>
    hasUnusedDID_iff_leaseRows_ne_nil.mp h (by decide)
  have hsel : HasUnusedDID exampleRouter4.db
      (exampleRouter4.selectProvider exampleEnvSecond.mapOrder "8005551234") :=
    hasUnusedDID_iff_leaseRows_ne_nil.mpr (by decide)
  exact ⟨hany, hnone,
    (processIncomingCall_fallback exampleRouter3 (Env.reliable 0) "call-1" "7135550000"
      "8005551234").2.2.1 (Or.inr hnone) hany rfl rfl,
    by decide, by decide,
    (processIncomingCall_fallback exampleRouter4 exampleEnvSecond "call-1" "7135550000"
      "8005551234").2.1 rfl hsel rfl,
    by decide⟩

/-! ## C4: the response of `ProcessIncomingCall` -/

/-- C4 fails on the code.  On the store of scenario A the DID 15551230000 is owned by
`p1`: the resolving query has the one row `(1, "p1")`, and with that query answered
the call of scenario A is answered with trunk `trunk-p1`.  When the resolving query
fails, the error of its `Scan` is dropped: the same call still succeeds, with
`TrunkName` and `NextHop` "trunk-" and an empty provider name, the DID is marked, and
the call record is stored with provider id 0 and no provider name.  On the store
`exampleDBTwoOwners`, where the inactive `p1` and the active `p2` each hold a row of
the DID, the lease can only come from the row of `p2`, and the response names
`trunk-p1`. -/
theorem processIncomingCall_response_unresolved :
    providerRows exampleRouter.db "15551230000" = [(1, "p1")] ∧
    (exampleRouter.ProcessIncomingCall (Env.reliable 0) "call-1" "7135550000"
        "8005551234").1 =
      .ok ⟨"success", "15551230000", "trunk-p1", "8005551234", "15551230000", "p1",
        "trunk-p1"⟩ ∧
    (exampleRouter.ProcessIncomingCall exampleEnvResolveFails "call-1" "7135550000"
        "8005551234").1 =
      .ok ⟨"success", "15551230000", "trunk-", "8005551234", "15551230000", "",
        "trunk-"⟩ ∧
    ((exampleRouter.ProcessIncomingCall exampleEnvResolveFails "call-1" "7135550000"
        "8005551234").2.db.dids.map fun d => (d.DID, d.InUse)) =
      [("15551230000", true)] ∧
    ((exampleRouter.ProcessIncomingCall exampleEnvResolveFails "call-1" "7135550000"
        "8005551234").2.db.call_records.map
        fun c => (c.CallID, c.AssignedDID, c.ProviderID, c.ProviderName, c.Status)) =
      [("call-1", "15551230000", 0, "", .ACTIVE)] ∧
    leaseRows exampleRouterTwoOwners.db "p1" = [] ∧
    leaseRows exampleRouterTwoOwners.db "" = ["15551230000"] ∧
    (exampleRouterTwoOwners.ProcessIncomingCall (Env.reliable 0) "call-1" "7135550000"
        "8005551234").1 =
      .ok ⟨"success", "15551230000", "trunk-p1", "8005551234", "15551230000", "p1",
        "trunk-p1"⟩ := by
  refine ⟨by decide, by decide, by decide, by decide, by decide, by decide, by decide,
    by decide⟩

/-! ## C5: the round trip -/

/-- Counterexample to C5: the leased DID is " 15551230000", with a leading blank.
`ProcessIncomingCall` succeeds and assigns it; the following `ProcessReturnCall` trims
the DID, finds neither a map entry nor a call record for "15551230000", and fails; the
call stays ACTIVE. -/
theorem processReturnCall_round_trip_counterexample :
    (exampleRouterBlank.ProcessIncomingCall (Env.reliable 0) "call-1" "7135550000"
        "8005551234").1 =
      .ok (Router.incomingResponse "8005551234" " 15551230000" "p1") ∧
    (((exampleRouterBlank.ProcessIncomingCall (Env.reliable 0) "call-1" "7135550000"
        "8005551234").2).ProcessReturnCall (Env.reliable 5) "anything" " 15551230000").1 =
      .error (.noActiveCall "15551230000") ∧
    ((((exampleRouterBlank.ProcessIncomingCall (Env.reliable 0) "call-1" "7135550000"
        "8005551234").2).ProcessReturnCall (Env.reliable 5) "anything"
        " 15551230000").2.db.call_records.map fun c => (c.CallID, c.Status)) =
      [("call-1", .ACTIVE)] := by
  decide

/-- C5, amended.  If `ProcessIncomingCall(callID, ani, dnis)` succeeds and assigns a
DID `d` without leading or trailing white space, a following `ProcessReturnCall(ani2,
d)` succeeds with `ANIToSend = ani` and `DNISToSend = dnis`; if moreover the insert of
the call record and the status update are written, afterwards the store holds call
`callID` and its status is RETURNED. -/
theorem processReturnCall_round_trip (r r1 : Router) (env env2 : Env)
    (callID ani dnis ani2 : String) (resp : CallResponse)
    (h : r.ProcessIncomingCall env callID ani dnis = (.ok resp, r1))
    (htrim : TrimSpace resp.DIDAssigned = resp.DIDAssigned) :
    (∃ resp2, (r1.ProcessReturnCall env2 ani2 resp.DIDAssigned).1 = .ok resp2 ∧
      resp2.ANIToSend = ani ∧ resp2.DNISToSend = dnis) ∧
    (env.storeFails = false → env2.updateFails = false →
      (∃ c ∈ (r1.ProcessReturnCall env2 ani2 resp.DIDAssigned).2.db.call_records,
        c.CallID = callID) ∧
      ∀ c ∈ (r1.ProcessReturnCall env2 ani2 resp.DIDAssigned).2.db.call_records,
        c.CallID = callID → c.Status = .RETURNED) := by
  obtain ⟨d, hl, hm⟩ := processIncomingCall_ok_inv h
  rw [processIncomingCall_of_lease_ok hl hm] at h
  injection h with h1 h2
  injection h1 with h1
  subst h1
  change TrimSpace d = d at htrim
  have hdid : GoMap.lookup r1.didToCallMap d = some callID := by
    rw [← h2]; exact GoMap.lookup_store_self _ _ _
  have hrec : GoMap.lookup r1.activeCallsMap callID
      = some (r.newCallRecord env callID ani dnis d) := by
    rw [← h2]; exact GoMap.lookup_store_self _ _ _
  have hfind : r1.findCallByDID env2 (TrimSpace d) = .ok (callID, r1) := by
    rw [htrim]; exact findCallByDID_of_hit hdid
  have hret := @processReturnCall_of_found _ _ _ ani2 _ _ _ hfind hrec
  change (∃ resp2, (r1.ProcessReturnCall env2 ani2 d).1 = .ok resp2 ∧ _) ∧
    (_ → _ → (∃ c ∈ (r1.ProcessReturnCall env2 ani2 d).2.db.call_records, _) ∧
      ∀ c ∈ (r1.ProcessReturnCall env2 ani2 d).2.db.call_records, _)
  rw [hret]
  refine ⟨⟨_, rfl, rfl, rfl⟩, ?_⟩
  intro hs hu
  simp only [hu, Bool.false_eq_true, if_false]
  constructor
  · obtain ⟨c0, hc0, hc0id⟩ := upsertedCalls_has r.db.call_records
      (r.newCallRecord env callID ani dnis d)
    have hc0' : c0 ∈ r1.db.call_records := by
      rw [← h2]
      simpa [hs] using hc0
    obtain ⟨c2, hc2, hc2id⟩ := restatedCalls_has env2.now callID .RETURNED hc0'
    exact ⟨c2, hc2, hc2id.trans hc0id⟩
  · intro c hc hcid
    exact restatedCalls_status hc hcid

/-- Witness of C5 amended, scenario B: after scenario A, `ProcessReturnCall("anything",
"15551230000")` returns the original pair and the call is RETURNED. -/
theorem processReturnCall_round_trip_witness :
    TrimSpace "15551230000" = "15551230000" ∧
    (∃ resp2, ((exampleRouter.ProcessIncomingCall (Env.reliable 0) "call-1" "7135550000"
        "8005551234").2.ProcessReturnCall (Env.reliable 5) "anything" "15551230000").1 =
        .ok resp2 ∧ resp2.ANIToSend = "7135550000" ∧ resp2.DNISToSend = "8005551234") ∧
    (((exampleRouter.ProcessIncomingCall (Env.reliable 0) "call-1" "7135550000"
        "8005551234").2.ProcessReturnCall (Env.reliable 5) "anything"
        "15551230000").2.db.call_records.map fun c => (c.CallID, c.Status)) =
      [("call-1", .RETURNED)] :=
  ⟨by decide,
   (processReturnCall_round_trip exampleRouter
      (exampleRouter.ProcessIncomingCall (Env.reliable 0) "call-1" "7135550000"
        "8005551234").2
      (Env.reliable 0) (Env.reliable 5) "call-1" "7135550000" "8005551234" "anything"
      (Router.incomingResponse "8005551234" "15551230000" "p1") (by decide)
      (by decide)).1,
   by decide⟩

/-! ## C7: a call id that already has a record -/

/-- Counterexample to C7: call "call-1" is recorded (ACTIVE, DID 15551230000) and a
second DID is free.  `ProcessIncomingCall("call-1", "7135559999", "8005559999")`
succeeds with DID 15551230001; the in-memory record of "call-1" is replaced, the
second DID is marked in use, and the stored row keeps its DID and original numbers. -/
theorem processIncomingCall_duplicate_counterexample :
    (exampleRouter2A.db.call_records.map fun c => (c.CallID, c.AssignedDID, c.Status)) =
      [("call-1", "15551230000", .ACTIVE)] ∧
    (GoMap.lookup exampleRouter2A.activeCallsMap "call-1").map
        (fun c => (c.OriginalANI, c.AssignedDID)) = some ("7135550000", "15551230000") ∧
    (exampleRouter2A.db.dids.map fun d => (d.DID, d.InUse)) =
      [("15551230000", true), ("15551230001", false)] ∧
    (exampleRouter2A.ProcessIncomingCall (Env.reliable 1) "call-1" "7135559999"
        "8005559999").1 =
      .ok (Router.incomingResponse "8005559999" "15551230001" "p1") ∧
    (GoMap.lookup (exampleRouter2A.ProcessIncomingCall (Env.reliable 1) "call-1"
        "7135559999" "8005559999").2.activeCallsMap "call-1").map
        (fun c => (c.OriginalANI, c.AssignedDID)) = some ("7135559999", "15551230001") ∧
    ((exampleRouter2A.ProcessIncomingCall (Env.reliable 1) "call-1" "7135559999"
        "8005559999").2.db.dids.map fun d => (d.DID, d.InUse)) =
      [("15551230000", true), ("15551230001", true)] ∧
    ((exampleRouter2A.ProcessIncomingCall (Env.reliable 1) "call-1" "7135559999"
        "8005559999").2.db.call_records.map
        fun c => (c.CallID, c.OriginalANI, c.AssignedDID, c.Status)) =
      [("call-1", "7135550000", "15551230000", .ACTIVE)] := by
  decide

/-- C7, amended.  `ProcessIncomingCall` does not reject a call id that already has a
record.  It returns an error only when no DID can be leased (none is unused, or the
any-provider lease query fails) or the mark fails, and then changes nothing.  When an
unused DID of an active provider exists, the any-provider lease query is answered and
the mark is written it succeeds: the new record replaces `activeCallsMap[callID]`, the
leased DID is mapped to `callID` and marked in use, and, the insert being written,
every stored row of `callID` gets status ACTIVE and the provider resolved for the new
DID, keeping all its other columns. -/
theorem processIncomingCall_existing_callID (r : Router) (env : Env)
    (callID ani dnis : String) (hex : ∃ c ∈ r.db.call_records, c.CallID = callID) :
    (∀ e, (r.ProcessIncomingCall env callID ani dnis).1 = .error e →
      (r.ProcessIncomingCall env callID ani dnis).2 = r ∧
        (e = .execError ∨ ¬ HasUnusedDID r.db "" ∨ env.retryFails = true)) ∧
    (HasUnusedDID r.db "" → env.retryFails = false → env.markFails = false →
      ∃ resp, (r.ProcessIncomingCall env callID ani dnis).1 = .ok resp ∧
        GoMap.lookup (r.ProcessIncomingCall env callID ani dnis).2.activeCallsMap callID =
          some (r.newCallRecord env callID ani dnis resp.DIDAssigned) ∧
        GoMap.lookup (r.ProcessIncomingCall env callID ani dnis).2.didToCallMap
          resp.DIDAssigned = some callID ∧
        (∀ d ∈ (r.ProcessIncomingCall env callID ani dnis).2.db.dids,
          d.DID = resp.DIDAssigned → d.InUse = true) ∧
        (env.storeFails = false →
          (r.ProcessIncomingCall env callID ani dnis).2.db.call_records =
            r.db.call_records.map fun c =>
              if c.CallID = callID then
                { c with Status := .ACTIVE,
                         ProviderID :=
                          (Router.resolveProvider r.db env.resolveFails
                            resp.DIDAssigned).1,
                         ProviderName :=
                          (Router.resolveProvider r.db env.resolveFails
                            resp.DIDAssigned).2 }
              else c)) := by
  constructor
  · intro e he
    refine ⟨processIncomingCall_error_unchanged he, ?_⟩
    cases hl : r.leaseDID env dnis with
    | error e' =>
      right
      cases hr : env.retryFails with
      | true => exact Or.inr rfl
      | false =>
        left
        intro hany
        obtain ⟨d, hd⟩ := leaseDID_of_ne_nil env dnis
          (hasUnusedDID_iff_leaseRows_ne_nil.mp hany) hr
        rw [hl] at hd
        cases hd
    | ok d =>
      left
      cases hm : env.markFails with
      | true =>
        rw [processIncomingCall_of_mark_fails hl hm] at he
        injection he with he
        exact he.symm
      | false =>
        rw [processIncomingCall_of_lease_ok hl hm] at he
        cases he
  · intro hany hr hm
    obtain ⟨d, hd⟩ := leaseDID_of_ne_nil env dnis
      (hasUnusedDID_iff_leaseRows_ne_nil.mp hany) hr
    rw [processIncomingCall_of_lease_ok hd hm]
    refine ⟨_, rfl, GoMap.lookup_store_self _ _ _, GoMap.lookup_store_self _ _ _, ?_, ?_⟩
    · intro x hx hxd
      change x.DID = d at hxd
      obtain ⟨x0, _, rfl⟩ := List.mem_map.mp hx
      by_cases h0 : x0.DID = d
      · simp [h0]
      · simp only [h0, if_false] at hxd
    · intro hs
      simp only [hs, Bool.false_eq_true, if_false]
      exact upsertedCalls_of_any hex

/-- Witness of C7 amended: "call-1" is on record and a second DID is free; the second
call with the same id succeeds. -/
theorem processIncomingCall_existing_callID_witness :
    (∃ c ∈ exampleRouter2A.db.call_records, c.CallID = "call-1") ∧
    HasUnusedDID exampleRouter2A.db "" ∧
    ∃ resp, (exampleRouter2A.ProcessIncomingCall (Env.reliable 1) "call-1" "7135559999"
        "8005559999").1 = .ok resp ∧
      GoMap.lookup (exampleRouter2A.ProcessIncomingCall (Env.reliable 1) "call-1"
        "7135559999" "8005559999").2.activeCallsMap "call-1" =
        some (exampleRouter2A.newCallRecord (Env.reliable 1) "call-1" "7135559999"
          "8005559999" resp.DIDAssigned) ∧
      GoMap.lookup (exampleRouter2A.ProcessIncomingCall (Env.reliable 1) "call-1"
        "7135559999" "8005559999").2.didToCallMap resp.DIDAssigned = some "call-1" ∧
      (∀ d ∈ (exampleRouter2A.ProcessIncomingCall (Env.reliable 1) "call-1" "7135559999"
          "8005559999").2.db.dids, d.DID = resp.DIDAssigned → d.InUse = true) ∧
      ((Env.reliable 1).storeFails = false →
        (exampleRouter2A.ProcessIncomingCall (Env.reliable 1) "call-1" "7135559999"
          "8005559999").2.db.call_records =
          exampleRouter2A.db.call_records.map fun c =>
            if c.CallID = "call-1" then
              { c with Status := .ACTIVE,
                       ProviderID :=
                        (Router.resolveProvider exampleRouter2A.db
                          (Env.reliable 1).resolveFails resp.DIDAssigned).1,
                       ProviderName :=
                        (Router.resolveProvider exampleRouter2A.db
                          (Env.reliable 1).resolveFails resp.DIDAssigned).2 }
            else c) :=
  have hany : HasUnusedDID exampleRouter2A.db "" :=
    hasUnusedDID_iff_leaseRows_ne_nil.mpr (by decide)
  ⟨by decide, hany,
   (processIncomingCall_existing_callID exampleRouter2A (Env.reliable 1) "call-1"
      "7135559999" "8005559999" (by decide)).2 hany rfl rfl⟩

/-! ## C10: which call a return leg matches -/

/-- C10 fails on the code.  A run from a new router: scenario A at time 0, a sweep at
time 601 that fails "call-1" and frees its DID, then `ProcessReturnCall` on the DID at
time 700.  The stored call is FAILED and started 700 seconds ago, and
`getCallRecordByDID`, the lookup of the same method in the store, refuses it; a router
constructed on that store answers "no active call for DID".  The running router still
finds the DID in `didToCallMap`, whose entries are never removed, answers with the
original pair of the failed call and sets the stored status to RETURNED. -/
theorem processReturnCall_matches_failed_call :
    (exampleRouterSwept.db.call_records.map
        fun c => (c.CallID, c.AssignedDID, c.Status, c.StartTime)) =
      [("call-1", "15551230000", .FAILED, 0)] ∧
    (exampleRouterSwept.db.dids.map fun d => (d.DID, d.InUse)) =
      [("15551230000", false)] ∧
    Router.getCallRecordByDID exampleRouterSwept.db 700 false "15551230000" =
      .error .sqlNoRows ∧
    ((NewRouter exampleRouterSwept.db exampleManager (Env.reliable 700)).ProcessReturnCall
        (Env.reliable 700) "anything" "15551230000").1 =
      .error (.noActiveCall "15551230000") ∧
    GoMap.lookup exampleRouterSwept.didToCallMap "15551230000" = some "call-1" ∧
    (exampleRouterSwept.ProcessReturnCall (Env.reliable 700) "anything"
        "15551230000").1 =
      .ok ⟨"success", "", "trunk-s4", "7135550000", "8005551234", "", ""⟩ ∧
    ((exampleRouterSwept.ProcessReturnCall (Env.reliable 700) "anything"
        "15551230000").2.db.call_records.map
        fun c => (c.CallID, c.AssignedDID, c.Status, c.StartTime)) =
      [("call-1", "15551230000", .RETURNED, 0)] := by
  refine ⟨by decide, by decide, by decide, by decide, by decide, by decide, by decide⟩

/-! ## C6: call state transitions -/

theorem CallState.mayBecome_self (a : CallState) : a.mayBecome a = true := by
  simp [CallState.mayBecome]

theorem CallState.mayBecome_returned {a : CallState} (h : a.nonTerminal = true) :
    a.mayBecome .RETURNED = true := by
  cases a <;> simp_all [CallState.mayBecome, CallState.nonTerminal, CallState.rank]

theorem CallState.mayBecome_of_terminal {a b : CallState} (h : a.nonTerminal = false)
    (hm : a.mayBecome b = true) : b = a := by
  cases a <;> cases b <;> simp_all [CallState.mayBecome, CallState.nonTerminal]

theorem eq_of_mem_zip_self {α : Type} {l : List α} {a b : α} (h : (a, b) ∈ l.zip l) :
    a = b ∧ a ∈ l := by
  induction l with
  | nil => simp at h
  | cons x rest ih =>
    simp only [List.zip_cons_cons, List.mem_cons, Prod.mk.injEq] at h
    rcases h with ⟨h1, h2⟩ | h
    · subst h1 h2
      exact ⟨rfl, List.mem_cons_self _ _⟩
    · exact ⟨(ih h).1, List.mem_cons_of_mem _ (ih h).2⟩

theorem zip_append_self {α : Type} (l extra : List α) : l.zip (l ++ extra) = l.zip l := by
  induction l with
  | nil => simp
  | cons a rest ih => simp [ih]

theorem statusMonotone_map {l : List CallRecord} {f : CallRecord → CallRecord}
    (h : ∀ c ∈ l, (f c).CallID = c.CallID ∧ c.Status.mayBecome (f c).Status = true) :
    StatusMonotone l (l.map f) = true := by
  unfold StatusMonotone
  simp only [List.length_map, le_refl, decide_True, Bool.true_and, List.all_eq_true,
    Bool.and_eq_true, decide_eq_true_eq]
  intro cc hcc
  rw [List.zip_map_right, List.mem_map] at hcc
  obtain ⟨⟨a, b⟩, hab, rfl⟩ := hcc
  obtain ⟨heq, hmem⟩ := eq_of_mem_zip_self hab
  subst heq
  exact h a hmem

theorem statusMonotone_append (l extra : List CallRecord) :
    StatusMonotone l (l ++ extra) = true := by
  unfold StatusMonotone
  simp only [List.length_append, Nat.le_add_right, decide_True, Bool.true_and,
    List.all_eq_true, Bool.and_eq_true, decide_eq_true_eq]
  intro cc hcc
  rw [zip_append_self] at hcc
  obtain ⟨a, b⟩ := cc
  obtain ⟨heq, _⟩ := eq_of_mem_zip_self hcc
  subst heq
  exact ⟨rfl, CallState.mayBecome_self _⟩

theorem statusMonotone_refl (l : List CallRecord) : StatusMonotone l l = true := by
  simpa using statusMonotone_append l []

/-- Counterexample to C6, on runs from a new router.  First run: scenario A at time 0,
a sweep at time 601 (the call is FAILED), `ProcessReturnCall` at time 700: the call
moves from FAILED to RETURNED.  Second run: the call of scenario A, its return leg
(the call is RETURNED), then `ProcessIncomingCall` with the same call id: the call
moves from RETURNED back to ACTIVE. -/
theorem callStatus_monotone_counterexample :
    (exampleRouterSwept.db.call_records.map fun c => (c.CallID, c.Status)) =
      [("call-1", .FAILED)] ∧
    ((exampleRouterSwept.ProcessReturnCall (Env.reliable 700) "anything"
        "15551230000").2.db.call_records.map fun c => (c.CallID, c.Status)) =
      [("call-1", .RETURNED)] ∧
    StatusMonotone exampleRouterSwept.db.call_records
      (exampleRouterSwept.ProcessReturnCall (Env.reliable 700) "anything"
        "15551230000").2.db.call_records = false ∧
    (exampleRouter2Returned.db.call_records.map fun c => (c.CallID, c.Status)) =
      [("call-1", .RETURNED)] ∧
    ((exampleRouter2Returned.ProcessIncomingCall (Env.reliable 6) "call-1" "7135550000"
        "8005551234").2.db.call_records.map fun c => (c.CallID, c.Status)) =
      [("call-1", .ACTIVE)] ∧
    StatusMonotone exampleRouter2Returned.db.call_records
      (exampleRouter2Returned.ProcessIncomingCall (Env.reliable 6) "call-1" "7135550000"
        "8005551234").2.db.call_records = false := by
  decide

/-- C6, amended.  The code has no transition guard; what holds is this.  A sweep
moves no call record backward and leaves terminal records alone.
`ProcessIncomingCall` with a call id that is not yet in the store changes the status
of no stored record.  `ProcessReturnCall`, given unique call ids, moves no record
backward provided the call id that `didToCallMap` holds for the DID, if any, is
non-terminal in the store.  `updateCallStatus` writes the status it is given, so it is
monotonic exactly when that status is one the stored status may become. -/
theorem callStatus_monotone :
    (∀ (r : Router) (env : Env),
      StatusMonotone r.db.call_records (r.cleanupStaleCalls env).db.call_records = true) ∧
    (∀ (r : Router) (env : Env) (callID ani dnis : String),
      (∀ c ∈ r.db.call_records, c.CallID ≠ callID) →
      StatusMonotone r.db.call_records
        (r.ProcessIncomingCall env callID ani dnis).2.db.call_records = true) ∧
    (∀ (r : Router) (env : Env) (ani2 did : String), r.db.UniqueKeys →
      (∀ callID, GoMap.lookup r.didToCallMap (TrimSpace did) = some callID →
        ∀ c ∈ r.db.call_records, c.CallID = callID → c.Status.nonTerminal = true) →
      StatusMonotone r.db.call_records
        (r.ProcessReturnCall env ani2 did).2.db.call_records = true) ∧
    (∀ (db db2 : DB) (now : Int) (callID : String) (status : CallState),
      Router.updateCallStatus db false now callID status = .ok db2 →
      ((∀ c ∈ db.call_records, c.CallID = callID → c.Status.mayBecome status = true) →
        StatusMonotone db.call_records db2.call_records = true) ∧
      ∀ c ∈ db2.call_records, c.CallID = callID → c.Status = status) := by
  refine ⟨?_, ?_, ?_, ?_⟩
  · intro r env
    rw [cleanupStaleCalls_call_records]
    cases env.sweepFails
    · simp only [Bool.false_eq_true, if_false]
      apply statusMonotone_map
      intro c _
      by_cases hst : c.stale env.now = true
      · rw [if_pos hst]
        refine ⟨rfl, ?_⟩
        simp only [CallRecord.stale, Bool.and_eq_true, Bool.or_eq_true,
          decide_eq_true_eq] at hst
        rcases hst.1 with h | h <;> rw [h] <;> rfl
      · rw [if_neg hst]
        exact ⟨rfl, CallState.mayBecome_self _⟩
    · simp only [if_true]
      exact statusMonotone_refl _
  · intro r env callID ani dnis hfresh
    cases hl : r.leaseDID env dnis with
    | error e =>
      rw [processIncomingCall_of_lease_error hl]
      exact statusMonotone_refl _
    | ok d =>
      cases hm : env.markFails with
      | true =>
        rw [processIncomingCall_of_mark_fails hl hm]
        exact statusMonotone_refl _
      | false =>
        rw [processIncomingCall_of_lease_ok hl hm]
        cases env.storeFails
        · simp only [Bool.false_eq_true, if_false]
          rw [@upsertedCalls_of_fresh _ (r.newCallRecord env callID ani dnis d)
            hfresh]
          exact statusMonotone_append _ _
        · simp only [if_true]
          exact statusMonotone_refl _
  · intro r env ani2 did hk hhit
    cases hf : r.findCallByDID env (TrimSpace did) with
    | error e =>
      rw [processReturnCall_of_not_found hf]
      exact statusMonotone_refl _
    | ok found =>
      obtain ⟨callID, r1⟩ := found
      rw [processReturnCall_db_of_found hf]
      cases env.updateFails
      · simp only [Bool.false_eq_true, if_false]
        have hnt : ∀ c ∈ r.db.call_records, c.CallID = callID →
            c.Status.nonTerminal = true := by
          rcases (findCallByDID_ok hf).2 with hhit' | ⟨_, c0, hc0, hc0id, _, hc0nt, _⟩
          · exact hhit callID hhit'
          · intro c hc hcid
            have : c = c0 := List.inj_on_of_nodup_map hk.2.2 hc hc0 (hcid.trans hc0id.symm)
            rw [this]
            exact hc0nt
        apply statusMonotone_map
        intro c hc
        by_cases hcid : c.CallID = callID
        · rw [if_pos hcid]
          exact ⟨rfl, CallState.mayBecome_returned (hnt c hc hcid)⟩
        · rw [if_neg hcid]
          exact ⟨rfl, CallState.mayBecome_self _⟩
      · simp only [if_true]
        exact statusMonotone_refl _
  · intro db db2 now callID status h
    simp only [Router.updateCallStatus, Bool.false_eq_true, if_false] at h
    injection h with h
    subst h
    constructor
    · intro hmay
      apply statusMonotone_map
      intro c hc
      by_cases hcid : c.CallID = callID
      · rw [if_pos hcid]
        exact ⟨rfl, hmay c hc hcid⟩
      · rw [if_neg hcid]
        exact ⟨rfl, CallState.mayBecome_self _⟩
    · intro c hc hcid
      exact restatedCalls_status hc hcid

/-- Witness of C6 amended: the sweep after scenario A, the call of scenario A itself
(a new call id), and its return leg (the mapped call is ACTIVE in the store). -/
theorem callStatus_monotone_witness :
    StatusMonotone exampleRouterA.db.call_records
      (exampleRouterA.cleanupStaleCalls (Env.reliable 601)).db.call_records = true ∧
    (∀ c ∈ exampleRouter.db.call_records, c.CallID ≠ "call-1") ∧
    StatusMonotone exampleRouter.db.call_records
      (exampleRouter.ProcessIncomingCall (Env.reliable 0) "call-1" "7135550000"
        "8005551234").2.db.call_records = true ∧
    exampleRouterA.db.UniqueKeys ∧
    StatusMonotone exampleRouterA.db.call_records
      (exampleRouterA.ProcessReturnCall (Env.reliable 5) "anything"
        "15551230000").2.db.call_records = true :=
  ⟨callStatus_monotone.1 exampleRouterA (Env.reliable 601),
   by decide,
   callStatus_monotone.2.1 exampleRouter (Env.reliable 0) "call-1" "7135550000"
     "8005551234" (by decide),
   by decide,
   callStatus_monotone.2.2.1 exampleRouterA (Env.reliable 5) "anything" "15551230000"
     (by decide)
     (fun _ _ c hc _ =>
       (by decide : ∀ c ∈ exampleRouterA.db.call_records, c.Status.nonTerminal = true)
         c hc)⟩

/-! ## C1: the DID-lease invariant -/

/-- Counterexample to C1, four cases in which the invariant holds before the operation
and fails after it.  (1) `ProcessIncomingCall` with the call id of a recorded call: a
second DID is marked in use while the stored row keeps the first.  (2)
`ProcessReturnCall` on the DID of a call the sweep has failed: the call becomes
RETURNED while its DID stays free.  (3) `cleanupStaleCalls` at time 1030 after the
run `exampleRouterReleased`: the DID of "call-1", failed 30 seconds earlier, is freed
again although "call-2" holds it.  (4) `ProcessIncomingCall` with a new call id when
a free DID has two references: the DID is in use with three references. -/
theorem leaseInvariant_counterexample :
    (LeaseInvariant exampleRouter2A.db ∧
      ¬ LeaseInvariant (exampleRouter2A.ProcessIncomingCall (Env.reliable 1) "call-1"
        "7135559999" "8005559999").2.db) ∧
    (LeaseInvariant exampleRouterSwept.db ∧
      ¬ LeaseInvariant (exampleRouterSwept.ProcessReturnCall (Env.reliable 700)
        "anything" "15551230000").2.db) ∧
    (LeaseInvariant exampleRouterReleased.db ∧
      ¬ LeaseInvariant (exampleRouterReleased.cleanupStaleCalls (Env.reliable 1030)).db) ∧
    (LeaseInvariant exampleRouterTwoRefs.db ∧
      ¬ LeaseInvariant (exampleRouterTwoRefs.ProcessIncomingCall (Env.reliable 5)
        "call-1" "7135550000" "8005551234").2.db) := by
  decide

theorem CallRecord.nonTerminal_of_stale {c : CallRecord} {now : Int}
    (h : c.stale now = true) : c.Status.nonTerminal = true := by
  simp only [CallRecord.stale, Bool.and_eq_true, Bool.or_eq_true, decide_eq_true_eq] at h
  rcases h.1 with h | h <;> rw [h] <;> rfl

/-- References after the sweep, for a DID none of whose calls is stale. -/
theorem nonTerminalRefs_swept_eq {db db2 : DB} {now : Int} {did : String}
    (hrec : db2.call_records = sweptCalls db.call_records now)
    (h : ∀ c ∈ db.call_records, c.AssignedDID = did → ¬ c.stale now = true) :
    nonTerminalRefs db2 did = nonTerminalRefs db did := by
  apply nonTerminalRefs_eq_of_map (f := fun c =>
    if c.stale now then { c with Status := .FAILED, EndTime := some now } else c) hrec
  · intro c hc hd
    rw [if_neg (h c hc hd)]
    exact ⟨hd, rfl⟩
  · intro c _ hd
    by_cases hst : c.stale now = true
    · rw [if_pos hst]; exact hd
    · rw [if_neg hst]; exact hd

/-- References after the sweep, for a DID all of whose non-terminal calls are stale. -/
theorem nonTerminalRefs_swept_zero {db db2 : DB} {now : Int} {did : String}
    (hrec : db2.call_records = sweptCalls db.call_records now)
    (h : ∀ c ∈ db.call_records, c.AssignedDID = did → c.Status.nonTerminal = true →
      c.stale now = true) :
    nonTerminalRefs db2 did = 0 := by
  unfold nonTerminalRefs
  rw [hrec, sweptCalls, List.countP_map, List.countP_eq_zero]
  intro c hc
  simp only [Function.comp_apply]
  by_cases hst : c.stale now = true
  · rw [if_pos hst]
    simp [CallState.nonTerminal]
  · rw [if_neg hst]
    intro hp
    simp only [Bool.and_eq_true, decide_eq_true_eq] at hp
    exact hst (h c hc hp.1 hp.2)

/-- A DID is released exactly when one of its calls was stale or had just failed. -/
theorem released_iff {records : List CallRecord} {now : Int} {did : String} :
    (sweptCalls records now).any
        (fun cr => decide (did = cr.AssignedDID) && cr.justFailed now) = true ↔
      ∃ c ∈ records, c.AssignedDID = did ∧ (c.stale now = true ∨ c.justFailed now = true) := by
  rw [List.any_eq_true]
  constructor
  · rintro ⟨cr, hcr, hp⟩
    obtain ⟨c, hc, rfl⟩ := List.mem_map.mp hcr
    simp only [Bool.and_eq_true, decide_eq_true_eq] at hp
    by_cases hst : c.stale now = true
    · rw [if_pos hst] at hp
      exact ⟨c, hc, hp.1.symm, Or.inl hst⟩
    · rw [if_neg hst] at hp
      exact ⟨c, hc, hp.1.symm, Or.inr hp.2⟩
  · rintro ⟨c, hc, hd, hor⟩
    refine ⟨_, List.mem_map.mpr ⟨c, hc, rfl⟩, ?_⟩
    simp only [Bool.and_eq_true, decide_eq_true_eq]
    by_cases hst : c.stale now = true
    · rw [if_pos hst]
      refine ⟨hd.symm, ?_⟩
      simp [CallRecord.justFailed]
    · rw [if_neg hst]
      rcases hor with h | h
      · exact absurd h hst
      · exact ⟨hd.symm, h⟩

/-- C1, amended.  The invariant is taken in the form of the data model: a DID in use
has exactly one non-terminal call record referencing it, a DID not in use has none.
It is preserved by `ProcessIncomingCall` when the call id has no record in the store
and the insert of the call record is written; by `ProcessReturnCall`, given unique
call ids, when the call id that `didToCallMap` holds for the DID, if any, is
non-terminal in the store; and by `cleanupStaleCalls` when the release is written and
no call that failed within the last minute shares its DID with a non-terminal call. -/
theorem leaseInvariant_preserved :
    (∀ (r : Router) (env : Env) (callID ani dnis : String),
      LeaseInvariantStrict r.db → (∀ c ∈ r.db.call_records, c.CallID ≠ callID) →
      env.storeFails = false →
      LeaseInvariantStrict (r.ProcessIncomingCall env callID ani dnis).2.db) ∧
    (∀ (r : Router) (env : Env) (ani2 did : String),
      LeaseInvariantStrict r.db → r.db.UniqueKeys →
      (∀ callID, GoMap.lookup r.didToCallMap (TrimSpace did) = some callID →
        ∀ c ∈ r.db.call_records, c.CallID = callID → c.Status.nonTerminal = true) →
      LeaseInvariantStrict (r.ProcessReturnCall env ani2 did).2.db) ∧
    (∀ (r : Router) (env : Env),
      LeaseInvariantStrict r.db → env.releaseFails = false →
      (∀ c ∈ r.db.call_records, c.justFailed env.now = true →
        ∀ c2 ∈ r.db.call_records, c2.AssignedDID = c.AssignedDID →
          c2.Status.nonTerminal = false) →
      LeaseInvariantStrict (r.cleanupStaleCalls env).db) := by
  refine ⟨?_, ?_, ?_⟩
  · intro r env callID ani dnis hinv hfresh hs
    cases hl : r.leaseDID env dnis with
    | error e => rw [processIncomingCall_of_lease_error hl]; exact hinv
    | ok d =>
      cases hm : env.markFails with
      | true => rw [processIncomingCall_of_mark_fails hl hm]; exact hinv
      | false =>
        rw [processIncomingCall_of_lease_ok hl hm]
        simp only [hs, Bool.false_eq_true, if_false]
        rw [@upsertedCalls_of_fresh _ (r.newCallRecord env callID ani dnis d) hfresh]
        -- the leased DID is free, hence referenced by no non-terminal record
        obtain ⟨row0, hrow0, _, _, hd0, _, hfree0, _, _⟩ :=
          mem_leaseRows.mp (leaseDID_ok_mem_any hl)
        have hzero : nonTerminalRefs r.db d = 0 := by
          rw [← hd0]; exact (hinv row0 hrow0).2 hfree0
        have hrefs : ∀ x : String,
            nonTerminalRefs
              { r.db with
                dids := markedDIDs r.db.dids d dnis,
                call_records := r.db.call_records ++
                  [{ r.newCallRecord env callID ani dnis d with
                      ID := nextID (r.db.call_records.map fun c => c.ID),
                      EndTime := none, Duration := 0 }] } x =
            nonTerminalRefs r.db x + if d = x then 1 else 0 := by
          intro x
          rw [@nonTerminalRefs_append r.db _ _ _ rfl]
          simp [Router.newCallRecord, CallState.nonTerminal]
        intro row hrow
        rw [hrefs]
        obtain ⟨row1, hrow1, rfl⟩ := List.mem_map.mp hrow
        by_cases hd : row1.DID = d
        · simp only [hd, if_true]
          rw [hzero]
          simp
        · have hd' : ¬ d = row1.DID := fun h => hd h.symm
          simp only [hd, if_false, hd', Nat.add_zero]
          exact hinv row1 hrow1
  · intro r env ani2 did hinv hk hhit
    cases hf : r.findCallByDID env (TrimSpace did) with
    | error e => rw [processReturnCall_of_not_found hf]; exact hinv
    | ok found =>
      obtain ⟨callID, r1⟩ := found
      rw [processReturnCall_db_of_found hf]
      cases env.updateFails
      · simp only [Bool.false_eq_true, if_false]
        have hnt : ∀ c ∈ r.db.call_records, c.CallID = callID →
            c.Status.nonTerminal = true := by
          rcases (findCallByDID_ok hf).2 with hhit' | ⟨_, c0, hc0, hc0id, _, hc0nt, _⟩
          · exact hhit callID hhit'
          · intro c hc hcid
            have : c = c0 := List.inj_on_of_nodup_map hk.2.2 hc hc0 (hcid.trans hc0id.symm)
            rw [this]
            exact hc0nt
        have hrefs : ∀ x : String,
            nonTerminalRefs
              { r.db with
                call_records := restatedCalls r.db.call_records env.now callID .RETURNED } x =
            nonTerminalRefs r.db x := by
          intro x
          apply @nonTerminalRefs_eq_of_map r.db _ _ _ rfl
          · intro c hc hx
            by_cases hcid : c.CallID = callID
            · rw [if_pos hcid]
              exact ⟨hx, by rw [hnt c hc hcid]; rfl⟩
            · rw [if_neg hcid]
              exact ⟨hx, rfl⟩
          · intro c _ hx
            by_cases hcid : c.CallID = callID
            · rw [if_pos hcid]; exact hx
            · rw [if_neg hcid]; exact hx
        intro row hrow
        rw [hrefs]
        exact hinv row hrow
      · simp only [if_true]
        exact hinv
  · intro r env hinv hrel hno
    cases hsf : env.sweepFails with
    | true =>
      have : r.cleanupStaleCalls env = r := by
        unfold Router.cleanupStaleCalls
        simp [hsf]
      rw [this]
      exact hinv
    | false =>
      have hrec : (r.cleanupStaleCalls env).db.call_records =
          sweptCalls r.db.call_records env.now := by
        rw [cleanupStaleCalls_call_records, hsf]
        simp
      have hdids := cleanupStaleCalls_dids r env
      intro row2 hrow2
      by_cases hex : ∃ c ∈ r.db.call_records, c.stale env.now = true
      · rw [if_pos ⟨hsf, hrel, hex⟩] at hdids
        rw [hdids] at hrow2
        obtain ⟨row, hrow, rfl⟩ := List.mem_map.mp hrow2
        by_cases hreleased : (sweptCalls r.db.call_records env.now).any
            (fun cr => decide (row.DID = cr.AssignedDID) && cr.justFailed env.now) = true
        · rw [if_pos hreleased]
          obtain ⟨c1, hc1, hd1, hor⟩ := released_iff.mp hreleased
          have hzero : nonTerminalRefs (r.cleanupStaleCalls env).db row.DID = 0 := by
            apply nonTerminalRefs_swept_zero hrec
            intro c hc hd hnt
            by_contra hst
            rcases hor with h1 | h1
            · have htwo : 2 ≤ nonTerminalRefs r.db row.DID :=
                countP_two (q := fun c => c.stale env.now) hc1 hc
                  (by simp [hd1, CallRecord.nonTerminal_of_stale h1]) (by simp [hd, hnt])
                  h1 (by simpa using hst)
              have hle : nonTerminalRefs r.db row.DID ≤ 1 := by
                cases hu : row.InUse with
                | true => rw [(hinv row hrow).1 hu]
                | false => rw [(hinv row hrow).2 hu]; omega
              omega
            · have := hno c1 hc1 h1 c hc (hd.trans hd1.symm)
              rw [hnt] at this
              cases this
          exact ⟨fun h => (by cases h), fun _ => hzero⟩
        · rw [if_neg hreleased]
          have heq : nonTerminalRefs (r.cleanupStaleCalls env).db row.DID =
              nonTerminalRefs r.db row.DID := by
            apply nonTerminalRefs_swept_eq hrec
            intro c hc hd hst
            exact hreleased (released_iff.mpr ⟨c, hc, hd, Or.inl hst⟩)
          rw [heq]
          exact hinv row hrow
      · have hcond : ¬ (env.sweepFails = false ∧ env.releaseFails = false ∧
            ∃ c ∈ r.db.call_records, c.stale env.now = true) := fun h => hex h.2.2
        rw [if_neg hcond] at hdids
        rw [hdids] at hrow2
        have heq : nonTerminalRefs (r.cleanupStaleCalls env).db row2.DID =
            nonTerminalRefs r.db row2.DID := by
          apply nonTerminalRefs_swept_eq hrec
          intro c hc _ hst
          exact hex ⟨c, hc, hst⟩
        rw [heq]
        exact hinv row2 hrow2

/-- Witness of C1 amended: the call of scenario A on the new router, its return leg,
and the sweep at time 601. -/
theorem leaseInvariant_preserved_witness :
    LeaseInvariantStrict exampleRouter.db ∧
    LeaseInvariantStrict (exampleRouter.ProcessIncomingCall (Env.reliable 0) "call-1"
      "7135550000" "8005551234").2.db ∧
    LeaseInvariantStrict (exampleRouterA.ProcessReturnCall (Env.reliable 5) "anything"
      "15551230000").2.db ∧
    LeaseInvariantStrict (exampleRouterA.cleanupStaleCalls (Env.reliable 601)).db :=
  ⟨by decide,
   leaseInvariant_preserved.1 exampleRouter (Env.reliable 0) "call-1" "7135550000"
     "8005551234" (by decide) (by decide) rfl,
   leaseInvariant_preserved.2.1 exampleRouterA (Env.reliable 5) "anything" "15551230000"
     (by decide) (by decide)
     (fun _ _ c hc _ =>
       (by decide : ∀ c ∈ exampleRouterA.db.call_records, c.Status.nonTerminal = true)
         c hc),
   leaseInvariant_preserved.2.2 exampleRouterA (Env.reliable 601) (by decide) rfl
     (by decide)⟩

/-! ## C2: the mark of a leased DID -/

/-- Counterexample to C2, on the store of scenario A, whose pool is the one unused DID
15551230000.  `GetAvailableDID("p1")` returns it; the method issues only a SELECT, so
in the store it leaves behind the DID still has `in_use = false`; and of three calls
made one after the other all three succeed, with the same DID. -/
theorem getAvailableDID_marks_counterexample :
    PoolOfOne exampleDB "15551230000" ∧
    Manager.GetAvailableDID exampleDB 0 false "p1" = .ok "15551230000" ∧
    (exampleDB.dids.map fun d => (d.DID, d.InUse)) = [("15551230000", false)] ∧
    Manager.leaseSequence exampleDB [(0, false, "p1"), (0, false, "p1"), (0, false, "")] =
      [.ok "15551230000", .ok "15551230000", .ok "15551230000"] := by
  decide

theorem countP_succeeded_errors (l : List IncomingCall) (e : IncomingCall → Error) :
    (l.map fun c => (Except.error (e c) : Except Error CallResponse)).countP succeeded =
      0 := by
  rw [List.countP_eq_zero]
  intro x hx
  obtain ⟨_, _, rfl⟩ := List.mem_map.mp hx
  simp [succeeded]

/-- With a pool of one, at most one call of a sequence succeeds. -/
theorem runIncoming_at_most_one {r : Router} {did : String} (hpool : PoolOfOne r.db did)
    (calls : List IncomingCall) : (r.runIncoming calls).1.countP succeeded ≤ 1 := by
  induction calls generalizing r with
  | nil => simp [Router.runIncoming]
  | cons c rest ih =>
    unfold Router.runIncoming
    simp only [List.countP_cons]
    cases hres : (r.ProcessIncomingCall c.env c.callID c.ani c.dnis).1 with
    | error e =>
      rw [processIncomingCall_error_unchanged hres]
      have := ih hpool
      simp only [succeeded, Bool.false_eq_true, if_false]
      omega
    | ok resp =>
      have hstep : r.ProcessIncomingCall c.env c.callID c.ani c.dnis =
          (.ok resp, (r.ProcessIncomingCall c.env c.callID c.ani c.dnis).2) := by
        rw [← hres]
      have hempty := (pool_empty_after_incoming hpool hstep).2
      rw [runIncoming_of_empty_pool hempty, countP_succeeded_errors]
      simp [succeeded]

/-- C2, amended.  `GetAvailableDID` only selects; the mark is made by its caller
`ProcessIncomingCall` before that returns.  Whenever `ProcessIncomingCall` succeeds
with DID `d`, in the store it leaves behind `d` has a row and every row of `d` has
`in_use = true` with the dialed number as destination, so a `GetAvailableDID` made
afterwards with no release in between never returns `d`.  With a pool of exactly one
unused DID, of N sequential `ProcessIncomingCall` calls at most one succeeds; when the
any-provider lease query is answered and the mark is written, the first succeeds with
that DID and the other N-1 fail with the "no available DIDs" error. -/
theorem processIncomingCall_marks_before_returning :
    (∀ (r r2 : Router) (env : Env) (callID ani dnis : String) (resp : CallResponse),
      r.ProcessIncomingCall env callID ani dnis = (.ok resp, r2) →
      (∃ d ∈ r2.db.dids, d.DID = resp.DIDAssigned) ∧
      (∀ d ∈ r2.db.dids, d.DID = resp.DIDAssigned →
        d.InUse = true ∧ d.Destination = some dnis) ∧
      ∀ rand fails name,
        Manager.GetAvailableDID r2.db rand fails name ≠ .ok resp.DIDAssigned) ∧
    (∀ (r : Router) (did : String) (calls : List IncomingCall), PoolOfOne r.db did →
      (r.runIncoming calls).1.countP succeeded ≤ 1 ∧
      (calls ≠ [] →
        (∀ c ∈ calls, c.env.retryFails = false ∧ c.env.markFails = false) →
        (r.runIncoming calls).1.length = calls.length ∧
        (r.runIncoming calls).1.countP succeeded = 1 ∧
        (∃ resp, (r.runIncoming calls).1.head? = some (.ok resp) ∧
          resp.DIDAssigned = did) ∧
        ∀ x ∈ (r.runIncoming calls).1.tail,
          x = .error (.noAvailableDIDs (.noAvailableDIDs .sqlNoRows)))) := by
  constructor
  · intro r r2 env callID ani dnis resp h
    refine ⟨?_, ?_, ?_⟩
    · obtain ⟨d, hl, hm⟩ := processIncomingCall_ok_inv h
      obtain ⟨row, hrow, _, _, hd, _⟩ := mem_leaseRows.mp (leaseDID_ok_mem_any hl)
      rw [processIncomingCall_of_lease_ok hl hm] at h
      injection h with h1 h2
      injection h1 with h1
      subst h1 h2
      refine ⟨_, List.mem_map.mpr ⟨row, hrow, rfl⟩, ?_⟩
      rw [if_pos hd]
      exact hd
    · intro row2 hrow2 hd2
      obtain ⟨d, hl, hm⟩ := processIncomingCall_ok_inv h
      rw [processIncomingCall_of_lease_ok hl hm] at h
      injection h with h1 h2
      injection h1 with h1
      subst h1 h2
      change row2.DID = d at hd2
      obtain ⟨row, _, rfl⟩ := List.mem_map.mp hrow2
      by_cases hd : row.DID = d
      · rw [if_pos hd]
        exact ⟨rfl, rfl⟩
      · rw [if_neg hd] at hd2
        exact absurd hd2 hd
    · intro rand fails name hget
      exact (leaseRows_after_incoming h (getAvailableDID_ok_mem hget)).2 rfl
  · intro r did calls hpool
    refine ⟨runIncoming_at_most_one hpool calls, ?_⟩
    intro hne hmark
    cases calls with
    | nil => exact absurd rfl hne
    | cons c rest =>
      obtain ⟨d, hd⟩ := leaseDID_of_ne_nil c.env c.dnis hpool.1
        (hmark c (List.mem_cons_self _ _)).1
      have hstep := @processIncomingCall_of_lease_ok _ _ c.callID c.ani _ _ hd
        (hmark c (List.mem_cons_self _ _)).2
      have hempty := (pool_empty_after_incoming hpool hstep).2
      have hdid := (pool_empty_after_incoming hpool hstep).1
      unfold Router.runIncoming
      rw [hstep]
      simp only
      rw [runIncoming_of_empty_pool hempty]
      refine ⟨by simp, ?_, ⟨_, rfl, hdid⟩, ?_⟩
      · rw [List.countP_cons, countP_succeeded_errors]
        simp [succeeded]
      · intro x hx
        simp only [List.tail_cons] at hx
        obtain ⟨c2, hc2, rfl⟩ := List.mem_map.mp hx
        rw [(hmark c2 (List.mem_cons_of_mem _ hc2)).1]
        rfl

/-- Witness of C2 amended, on the store of scenario A: the call of scenario A marks
the DID, and of three calls in sequence the first succeeds and two fail. -/
theorem processIncomingCall_marks_before_returning_witness :
    (exampleRouterA.db.dids.map fun d => (d.DID, d.InUse, d.Destination)) =
      [("15551230000", true, some "8005551234")] ∧
    (∀ rand fails name, Manager.GetAvailableDID exampleRouterA.db rand fails name ≠
      .ok (Router.incomingResponse "8005551234" "15551230000" "p1").DIDAssigned) ∧
    PoolOfOne exampleRouter.db "15551230000" ∧
    (exampleRouter.runIncoming
      [exampleCall 0 "call-1", exampleCall 1 "call-2", exampleCall 2 "call-3"]).1.countP
      succeeded = 1 :=
  ⟨by decide,
   (processIncomingCall_marks_before_returning.1 exampleRouter exampleRouterA
      (Env.reliable 0) "call-1" "7135550000" "8005551234"
      (Router.incomingResponse "8005551234" "15551230000" "p1") (by decide)).2.2,
   by decide,
   ((processIncomingCall_marks_before_returning.2 exampleRouter "15551230000"
      [exampleCall 0 "call-1", exampleCall 1 "call-2", exampleCall 2 "call-3"]
      (by decide)).2 (by decide) (by decide)).2.1⟩

/-! ## C3: concurrent leases -/

/-- Counterexample to C3, on the store of scenario A, whose pool is the one unused DID
15551230000.  Two concurrent callers of `GetAvailableDID`: whichever of them the
scheduler serves first, both calls succeed and both are granted the same DID. -/
theorem getAvailableDID_concurrent_counterexample :
    PoolOfOne exampleDB "15551230000" ∧
    Manager.runConcurrent exampleDB ["p1", ""] [(0, 0, false), (0, 0, false)] =
      ([("p1", .ok "15551230000"), ("", .ok "15551230000")], []) ∧
    Manager.runConcurrent exampleDB ["p1", ""] [(1, 0, false), (0, 0, false)] =
      ([("", .ok "15551230000"), ("p1", .ok "15551230000")], []) := by
  decide

theorem countP_succeeded_of_errors {l : List (Caller × Except Error CallResponse)}
    (h : ∀ x ∈ l, succeeded x.2 = false) :
    l.countP (fun x => succeeded x.2) = 0 := by
  rw [List.countP_eq_zero]
  intro x hx
  rw [h x hx]
  simp

/-- With a pool of one, at most one of the concurrent callers succeeds. -/
theorem runConcurrent_at_most_one {r : Router} {did : String} (hpool : PoolOfOne r.db did)
    (turns : List Turn) (blocked : List Caller) :
    (r.runConcurrent blocked turns).1.countP (fun x => succeeded x.2) ≤ 1 := by
  induction turns generalizing r blocked with
  | nil => simp [Router.runConcurrent]
  | cons t ts ih =>
    unfold Router.runConcurrent
    cases hb : blocked[t.pick % blocked.length]? with
    | none => simp
    | some c =>
      simp only [List.countP_cons]
      cases hres : (r.ProcessIncomingCall t.env c.callID c.ani c.dnis).1 with
      | error e =>
        rw [processIncomingCall_error_unchanged hres]
        have := ih hpool (blocked.eraseIdx (t.pick % blocked.length))
        have h0 : succeeded (c, (Except.error e : Except Error CallResponse)).2 = false :=
          rfl
        rw [h0]
        simp only [Bool.false_eq_true, if_false]
        omega
      | ok resp =>
        have hstep : r.ProcessIncomingCall t.env c.callID c.ani c.dnis =
            (.ok resp, (r.ProcessIncomingCall t.env c.callID c.ani c.dnis).2) := by
          rw [← hres]
        have hempty := (pool_empty_after_incoming hpool hstep).2
        rw [countP_succeeded_of_errors (runConcurrent_errors_of_empty_pool hempty _ _)]
        have h1 : succeeded (c, (Except.ok resp : Except Error CallResponse)).2 = true :=
          rfl
        rw [h1]
        simp

/-- C3, amended.  Leasing is exclusive at the level of `ProcessIncomingCall`, which
selects and marks the DID inside one critical section of the router mutex.  Under N
concurrent `ProcessIncomingCall` calls against a pool of exactly one unused DID, in
every order in which the scheduler grants the mutex at most one call succeeds; when
every caller is served, the any-provider lease query is answered and the mark is
written, all N calls return, exactly one succeeds, with that DID, and the other N-1
fail with the "no available DIDs" error. -/
theorem processIncomingCall_concurrent_exclusive (r : Router) (did : String)
    (blocked : List Caller) (turns : List Turn) (hpool : PoolOfOne r.db did) :
    (r.runConcurrent blocked turns).1.countP (fun x => succeeded x.2) ≤ 1 ∧
    (blocked ≠ [] → blocked.length ≤ turns.length →
      (∀ t ∈ turns, t.env.retryFails = false ∧ t.env.markFails = false) →
      (r.runConcurrent blocked turns).2.2 = [] ∧
      ((r.runConcurrent blocked turns).1.map Prod.fst).Perm blocked ∧
      (r.runConcurrent blocked turns).1.countP (fun x => succeeded x.2) = 1 ∧
      (∀ x ∈ (r.runConcurrent blocked turns).1, ∀ resp, x.2 = .ok resp →
        resp.DIDAssigned = did) ∧
      ∀ x ∈ (r.runConcurrent blocked turns).1, succeeded x.2 = false →
        x.2 = .error (.noAvailableDIDs (.noAvailableDIDs .sqlNoRows))) := by
  refine ⟨runConcurrent_at_most_one hpool turns blocked, ?_⟩
  intro hne hlen hmark
  cases turns with
  | nil =>
    simp only [List.length_nil, Nat.le_zero, List.length_eq_zero] at hlen
    exact absurd hlen hne
  | cons t ts =>
    have hpos : 0 < blocked.length := List.length_pos.mpr hne
    have hlt : t.pick % blocked.length < blocked.length := Nat.mod_lt _ hpos
    have hb : blocked[t.pick % blocked.length]? = some blocked[t.pick % blocked.length] :=
      List.getElem?_eq_getElem hlt
    obtain ⟨d, hd⟩ := leaseDID_of_ne_nil t.env blocked[t.pick % blocked.length].dnis hpool.1
      (hmark t (List.mem_cons_self _ _)).1
    have hstep := @processIncomingCall_of_lease_ok _ _
      blocked[t.pick % blocked.length].callID blocked[t.pick % blocked.length].ani _ _ hd
      (hmark t (List.mem_cons_self _ _)).2
    obtain ⟨hdid, hempty⟩ := pool_empty_after_incoming hpool hstep
    have hlen2 : (blocked.eraseIdx (t.pick % blocked.length)).length ≤ ts.length := by
      rw [List.length_eraseIdx_of_lt hlt]
      simp only [List.length_cons] at hlen
      omega
    obtain ⟨_, h2, h3, h4'⟩ := runConcurrent_of_empty_pool hempty ts
      (blocked.eraseIdx (t.pick % blocked.length)) hlen2
    have h4 := h4' (fun t2 ht2 => (hmark t2 (List.mem_cons_of_mem _ ht2)).1)
    have h4s : ∀ x ∈ (Router.runConcurrent
        (r.ProcessIncomingCall t.env blocked[t.pick % blocked.length].callID
          blocked[t.pick % blocked.length].ani blocked[t.pick % blocked.length].dnis).2
        (blocked.eraseIdx (t.pick % blocked.length)) ts).1, succeeded x.2 = false :=
      runConcurrent_errors_of_empty_pool (by rw [hstep]; exact hempty) _ _
    unfold Router.runConcurrent
    rw [hb]
    simp only
    rw [hstep]
    refine ⟨h2, ?_, ?_, ?_, ?_⟩
    · simp only [List.map_cons]
      exact (h3.cons _).trans (cons_eraseIdx_perm hb)
    · rw [hstep] at h4s
      rw [List.countP_cons, countP_succeeded_of_errors h4s]
      simp [succeeded]
    · intro x hx resp hresp
      rcases List.mem_cons.mp hx with hx | hx
      · rw [hx] at hresp
        injection hresp with hresp
        rw [← hresp]
        exact hdid
      · rw [h4 x hx] at hresp
        cases hresp
    · intro x hx hfail
      rcases List.mem_cons.mp hx with hx | hx
      · rw [hx] at hfail
        simp [succeeded] at hfail
      · exact h4 x hx

/-- Witness of C3 amended, on the store of scenario A: three concurrent callers, the
scheduler serving the third, then the first, then the second; one call succeeds. -/
theorem processIncomingCall_concurrent_exclusive_witness :
    PoolOfOne exampleRouter.db "15551230000" ∧
    (exampleRouter.runConcurrent
      [⟨"call-1", "7135550001", "8005551234"⟩, ⟨"call-2", "7135550002", "8005551234"⟩,
       ⟨"call-3", "7135550003", "8005551234"⟩]
      [⟨2, Env.reliable 0⟩, ⟨0, Env.reliable 0⟩, ⟨0, Env.reliable 1⟩]).1.map
        (fun x => (x.1.callID, succeeded x.2)) =
      [("call-3", true), ("call-1", false), ("call-2", false)] ∧
    (exampleRouter.runConcurrent
      [⟨"call-1", "7135550001", "8005551234"⟩, ⟨"call-2", "7135550002", "8005551234"⟩,
       ⟨"call-3", "7135550003", "8005551234"⟩]
      [⟨2, Env.reliable 0⟩, ⟨0, Env.reliable 0⟩, ⟨0, Env.reliable 1⟩]).1.countP
        (fun x => succeeded x.2) = 1 :=
  ⟨by decide, by decide,
   ((processIncomingCall_concurrent_exclusive exampleRouter "15551230000"
      [⟨"call-1", "7135550001", "8005551234"⟩, ⟨"call-2", "7135550002", "8005551234"⟩,
       ⟨"call-3", "7135550003", "8005551234"⟩]
      [⟨2, Env.reliable 0⟩, ⟨0, Env.reliable 0⟩, ⟨0, Env.reliable 1⟩]
      (by decide)).2 (by decide) (by decide) (by decide)).2.2.1⟩

/-! ## C11: what one sweep changes -/

/-- C11.  When its first `UPDATE` is written, one sweep at time `now` keeps every call
record at its place, sets to FAILED with `end_time = now` exactly the records whose
status is ACTIVE or FORWARDED and whose `start_time` is more than 10 minutes before
`now`, changing no other column of them, and leaves every other record as it is. -/
theorem cleanupStaleCalls_sweep (r : Router) (env : Env) (hs : env.sweepFails = false) :
    (r.cleanupStaleCalls env).db.call_records.length = r.db.call_records.length ∧
    ∀ (i : Nat) (c : CallRecord), r.db.call_records[i]? = some c →
      (((c.Status = .ACTIVE ∨ c.Status = .FORWARDED) ∧ c.StartTime < env.now - 600) →
        (r.cleanupStaleCalls env).db.call_records[i]? =
          some { c with Status := .FAILED, EndTime := some env.now }) ∧
      (¬ ((c.Status = .ACTIVE ∨ c.Status = .FORWARDED) ∧ c.StartTime < env.now - 600) →
        (r.cleanupStaleCalls env).db.call_records[i]? = some c) := by
  rw [cleanupStaleCalls_call_records, hs]
  simp only [Bool.false_eq_true, if_false]
  unfold sweptCalls
  refine ⟨List.length_map _ _, ?_⟩
  intro i c hc
  rw [List.getElem?_map, hc]
  have hiff : c.stale env.now = true ↔
      ((c.Status = .ACTIVE ∨ c.Status = .FORWARDED) ∧ c.StartTime < env.now - 600) := by
    simp [CallRecord.stale]
  constructor
  · intro h
    simp only [Option.map_some']
    rw [if_pos (hiff.mpr h)]
  · intro h
    simp only [Option.map_some']
    rw [if_neg (fun hst => h (hiff.mp hst))]

/-- Witness of C11: the sweep at time 601 after scenario A fails "call-1", which
started at time 0. -/
theorem cleanupStaleCalls_sweep_witness :
    exampleRouterA.db.call_records[0]? =
      some ⟨1, "call-1", "7135550000", "8005551234", "15551230000", 1, "p1", .ACTIVE, 0,
        none, 0, "/var/spool/asterisk/recordings/call-1.wav"⟩ ∧
    (exampleRouterA.cleanupStaleCalls (Env.reliable 601)).db.call_records[0]? =
      some ⟨1, "call-1", "7135550000", "8005551234", "15551230000", 1, "p1", .FAILED, 0,
        some 601, 0, "/var/spool/asterisk/recordings/call-1.wav"⟩ :=
  ⟨by decide,
   ((cleanupStaleCalls_sweep exampleRouterA (Env.reliable 601) rfl).2 0
      ⟨1, "call-1", "7135550000", "8005551234", "15551230000", 1, "p1", .ACTIVE, 0,
        none, 0, "/var/spool/asterisk/recordings/call-1.wav"⟩ (by decide)).1
      (by decide)⟩

/-! ## C12: which DIDs the sweep releases -/

/-- C12, the code at the failing input.  Before the sweep at time 1030, "call-1" is
already FAILED (by the sweep at time 1000) and "call-2" is ACTIVE on the same DID
15551230000, which is in use.  The sweep fails only "call-3"; its release clears
`in_use` of 15551230000 as well, the DID of a call that this sweep did not fail and
that the non-terminal "call-2" references. -/
theorem cleanupStaleCalls_releases_held_DID :
    (exampleRouterReleased.db.call_records.map
        fun c => (c.CallID, c.AssignedDID, c.Status, c.EndTime)) =
      [("call-1", "15551230000", .FAILED, some 1000),
       ("call-3", "15551230001", .ACTIVE, none),
       ("call-2", "15551230000", .ACTIVE, none)] ∧
    (exampleRouterReleased.db.dids.map fun d => (d.DID, d.InUse)) =
      [("15551230000", true), ("15551230001", true)] ∧
    ((exampleRouterReleased.cleanupStaleCalls (Env.reliable 1030)).db.call_records.map
        fun c => (c.CallID, c.AssignedDID, c.Status, c.EndTime)) =
      [("call-1", "15551230000", .FAILED, some 1000),
       ("call-3", "15551230001", .FAILED, some 1030),
       ("call-2", "15551230000", .ACTIVE, none)] ∧
    ((exampleRouterReleased.cleanupStaleCalls (Env.reliable 1030)).db.dids.map
        fun d => (d.DID, d.InUse)) =
      [("15551230000", false), ("15551230001", false)] := by
  decide

/-! ## C13: a reclaimed DID is leasable again -/

theorem getAvailableDID_of_mem {db : DB} {name x : String} (h : x ∈ leaseRows db name) :
    ∃ rand, Manager.GetAvailableDID db rand false name = .ok x := by
  obtain ⟨i, hi, hx⟩ := List.getElem_of_mem h
  refine ⟨i, ?_⟩
  unfold Manager.GetAvailableDID
  rw [if_neg (by decide)]
  simp only [Nat.mod_eq_of_lt hi, List.getElem?_eq_getElem hi, hx]

/-- C13.  Let the store hold an ACTIVE call record with `start_time` more than 10
minutes before `now` and `assigned_did = d`, where `d` has a row owned by an active
provider.  After a sweep whose two `UPDATE`s are written the record is FAILED with
`end_time = now`, every row of `d` has `in_use = false` and no destination, and
an answered `GetAvailableDID` can return `d`, both unscoped and scoped to that
provider. -/
theorem cleanupStaleCalls_reclaims (r : Router) (env : Env) (c : CallRecord) (row : DID)
    (p : Provider) (hs : env.sweepFails = false) (hr : env.releaseFails = false)
    (hc : c ∈ r.db.call_records) (hact : c.Status = .ACTIVE)
    (hold : c.StartTime < env.now - 600) (hrow : row ∈ r.db.dids)
    (hdid : row.DID = c.AssignedDID) (hp : p ∈ r.db.providers)
    (hown : row.ProviderID = p.ID) (hactive : p.Active = true) :
    (∀ i : Nat, r.db.call_records[i]? = some c →
      (r.cleanupStaleCalls env).db.call_records[i]? =
        some { c with Status := .FAILED, EndTime := some env.now }) ∧
    (∃ d ∈ (r.cleanupStaleCalls env).db.dids, d.DID = c.AssignedDID) ∧
    (∀ d ∈ (r.cleanupStaleCalls env).db.dids, d.DID = c.AssignedDID →
      d.InUse = false ∧ d.Destination = none) ∧
    (∃ rand, Manager.GetAvailableDID (r.cleanupStaleCalls env).db rand false "" =
      .ok c.AssignedDID) ∧
    (∃ rand, Manager.GetAvailableDID (r.cleanupStaleCalls env).db rand false p.Name =
      .ok c.AssignedDID) := by
  have hstale : c.stale env.now = true := by
    simp [CallRecord.stale, hact, hold]
  have hdids : (r.cleanupStaleCalls env).db.dids =
      releasedDIDs r.db.dids (sweptCalls r.db.call_records env.now) env.now := by
    rw [cleanupStaleCalls_dids, if_pos ⟨hs, hr, c, hc, hstale⟩]
  have hrel : ∀ d : DID, d.DID = c.AssignedDID →
      (sweptCalls r.db.call_records env.now).any
        (fun cr => decide (d.DID = cr.AssignedDID) && cr.justFailed env.now) = true := by
    intro d hd
    exact released_iff.mpr ⟨c, hc, hd.symm, Or.inl hstale⟩
  have hrow2 : ({ row with InUse := false, Destination := none } : DID) ∈
      (r.cleanupStaleCalls env).db.dids := by
    rw [hdids]
    refine List.mem_map.mpr ⟨row, hrow, ?_⟩
    rw [if_pos (hrel row hdid)]
  have hmem : ∀ name, (name = "" ∨ p.Name = name) →
      c.AssignedDID ∈ leaseRows (r.cleanupStaleCalls env).db name := by
    intro name hname
    refine mem_leaseRows.mpr ⟨_, hrow2, p, ?_, hdid, hown, rfl, hname, hactive⟩
    rw [cleanupStaleCalls_providers]
    exact hp
  refine ⟨?_, ⟨_, hrow2, hdid⟩, ?_, getAvailableDID_of_mem (hmem "" (Or.inl rfl)),
    getAvailableDID_of_mem (hmem p.Name (Or.inr rfl))⟩
  · intro i hi
    rw [cleanupStaleCalls_call_records, hs]
    simp only [Bool.false_eq_true, if_false]
    unfold sweptCalls
    rw [List.getElem?_map, hi]
    simp only [Option.map_some']
    rw [if_pos hstale]
  · intro d hd hdd
    rw [hdids] at hd
    obtain ⟨d0, _, rfl⟩ := List.mem_map.mp hd
    by_cases h0 : (sweptCalls r.db.call_records env.now).any
        (fun cr => decide (d0.DID = cr.AssignedDID) && cr.justFailed env.now) = true
    · rw [if_pos h0]
      exact ⟨rfl, rfl⟩
    · rw [if_neg h0] at hdd
      exact absurd (hrel d0 hdd) h0

/-- Witness of C13, scenario D: the call of scenario A is ACTIVE and 11 minutes old at
time 660; after the sweep its DID is free and is leased again. -/
theorem cleanupStaleCalls_reclaims_witness :
    ((exampleRouterA.cleanupStaleCalls (Env.reliable 660)).db.call_records.map
        fun c => (c.CallID, c.Status, c.EndTime)) = [("call-1", .FAILED, some 660)] ∧
    ((exampleRouterA.cleanupStaleCalls (Env.reliable 660)).db.dids.map
        fun d => (d.DID, d.InUse, d.Destination)) = [("15551230000", false, none)] ∧
    (∃ rand, Manager.GetAvailableDID (exampleRouterA.cleanupStaleCalls
        (Env.reliable 660)).db rand false "" = .ok "15551230000") :=
  ⟨by decide, by decide,
   (cleanupStaleCalls_reclaims exampleRouterA (Env.reliable 660)
      ⟨1, "call-1", "7135550000", "8005551234", "15551230000", 1, "p1", .ACTIVE, 0,
        none, 0, "/var/spool/asterisk/recordings/call-1.wav"⟩
      ⟨1, "15551230000", 1, "p1", true, some "8005551234", ""⟩ exampleP1 rfl rfl
      (by decide) rfl (by decide) (by decide) rfl (by decide) rfl rfl).2.2.2.1⟩

/-! ## C14: restart recovery -/

/-- Counterexample to C14, on the store `exampleDBShared`, reached by a run of the
router, at time 1050.  The store holds the ACTIVE call "call-2", started at 1010 on
DID 15551230000, and the ACTIVE call "call-4", started at 1040 on the same DID.  In
the new router `didToCallMap` maps the DID to "call-4", not to "call-2", and
`ProcessReturnCall` on the DID returns the original ANI of "call-4".  The record
restored for "call-2" carries `ID` 0 where the stored row has `id` 3.  And on the
store left by scenario A, which holds the ACTIVE call "call-1" started at 0, a router
constructed at time 300 has both maps empty when the restoring query fails. -/
theorem newRouter_restores_counterexample :
    (exampleDBShared.call_records.map
        fun c => (c.ID, c.CallID, c.OriginalANI, c.AssignedDID, c.Status, c.StartTime)) =
      [(1, "call-1", "7135550001", "15551230000", .FAILED, 390),
       (2, "call-3", "7135550003", "15551230001", .FAILED, 410),
       (3, "call-2", "7135550002", "15551230000", .ACTIVE, 1010),
       (4, "call-4", "7135550004", "15551230000", .ACTIVE, 1040)] ∧
    GoMap.lookup (NewRouter exampleDBShared exampleManager2 (Env.reliable 1050)).didToCallMap
      "15551230000" = some "call-4" ∧
    ((NewRouter exampleDBShared exampleManager2 (Env.reliable 1050)).ProcessReturnCall
        (Env.reliable 1050) "anything" "15551230000").1 =
      .ok ⟨"success", "", "trunk-s4", "7135550004", "8005551234", "", ""⟩ ∧
    (GoMap.lookup (NewRouter exampleDBShared exampleManager2 (Env.reliable 1050)).activeCallsMap
        "call-2").map (fun c => (c.ID, c.CallID, c.OriginalANI)) =
      some (0, "call-2", "7135550002") ∧
    (exampleRouterA.db.call_records.map
        fun c => (c.CallID, c.AssignedDID, c.Status, c.StartTime)) =
      [("call-1", "15551230000", .ACTIVE, 0)] ∧
    (NewRouter exampleRouterA.db exampleManager exampleEnvRestoreFails).activeCallsMap =
      [] ∧
    (NewRouter exampleRouterA.db exampleManager exampleEnvRestoreFails).didToCallMap =
      [] := by
  refine ⟨by decide, by decide, by decide, by decide, by decide, by decide, by decide⟩

/-- C14, amended.  Let the store, with unique call ids, hold a non-terminal call
record with `start_time` within the last 10 minutes, call id `c` and DID `d`, and let
no other such record have the same DID.  When the restoring query is answered and the
`Scan` of the row of that record succeeds, in a newly constructed router
`activeCallsMap[c]` is that record on the nine columns the restoring query selects
(`ID`, `EndTime` and `Duration` keep their zero values) and `didToCallMap[d] = c`;
if `d` has no leading or trailing white space, `ProcessReturnCall(ani2, d)` then
succeeds and returns the record's original ANI and DNIS.  A call id or a DID that
belongs to no such record is in neither map, and when the restoring query fails both
maps are empty. -/
theorem newRouter_restores (db : DB) (pm : Manager) (env0 : Env) :
    (∀ c ∈ db.call_records, db.UniqueKeys →
      c.Status.nonTerminal = true → c.StartTime > env0.now - 600 →
      (∀ c2 ∈ db.call_records, c2.Status.nonTerminal = true →
        c2.StartTime > env0.now - 600 → c2.AssignedDID = c.AssignedDID →
        c2.CallID = c.CallID) →
      env0.restoreFails = false → c ∈ restoredRows db env0.now env0.scanFails →
      GoMap.lookup (NewRouter db pm env0).activeCallsMap c.CallID =
        some (scanCallRecord c) ∧
      GoMap.lookup (NewRouter db pm env0).didToCallMap c.AssignedDID = some c.CallID ∧
      (TrimSpace c.AssignedDID = c.AssignedDID → ∀ (env : Env) (ani2 : String),
        ∃ resp, ((NewRouter db pm env0).ProcessReturnCall env ani2 c.AssignedDID).1 =
            .ok resp ∧
          resp.ANIToSend = c.OriginalANI ∧ resp.DNISToSend = c.OriginalDNIS)) ∧
    (∀ callID, (∀ c2 ∈ db.call_records, c2.CallID = callID →
        ¬ (c2.Status.nonTerminal = true ∧ c2.StartTime > env0.now - 600)) →
      GoMap.lookup (NewRouter db pm env0).activeCallsMap callID = none) ∧
    (∀ did, (∀ c2 ∈ db.call_records, c2.AssignedDID = did →
        ¬ (c2.Status.nonTerminal = true ∧ c2.StartTime > env0.now - 600)) →
      GoMap.lookup (NewRouter db pm env0).didToCallMap did = none) ∧
    (env0.restoreFails = true →
      (NewRouter db pm env0).activeCallsMap = [] ∧
      (NewRouter db pm env0).didToCallMap = []) := by
  have hmemlive : ∀ x, x ∈ restoredRows db env0.now env0.scanFails →
      x ∈ db.call_records ∧ x.Status.nonTerminal = true ∧ x.StartTime > env0.now - 600 := by
    intro x hx
    obtain ⟨h1, h2⟩ := mem_restoredRows hx
    simp only [CallRecord.live, Bool.and_eq_true, decide_eq_true_eq] at h2
    exact ⟨h1, h2.1, h2.2⟩
  refine ⟨?_, ?_, ?_, ?_⟩
  · intro c hc hk hlive hrecent hsole hans hclive
    have hactive : GoMap.lookup (NewRouter db pm env0).activeCallsMap c.CallID =
        some (scanCallRecord c) := by
      unfold NewRouter
      rw [restoreActiveCalls_eq _ hans]
      apply GoMap.lookup_foldl_store (fun c => (scanCallRecord c).CallID) scanCallRecord
      · intro a ha hka
        have : a = c := List.inj_on_of_nodup_map hk.2.2 (hmemlive a ha).1 hc hka
        rw [this]
      · exact Or.inr ⟨c, hclive, rfl⟩
    have hdid : GoMap.lookup (NewRouter db pm env0).didToCallMap c.AssignedDID =
        some c.CallID := by
      unfold NewRouter
      rw [restoreActiveCalls_eq _ hans]
      apply GoMap.lookup_foldl_store (fun c => (scanCallRecord c).AssignedDID)
        (fun c => (scanCallRecord c).CallID)
      · intro a ha hka
        obtain ⟨h1, h2, h3⟩ := hmemlive a ha
        exact hsole a h1 h2 h3 hka
      · exact Or.inr ⟨c, hclive, rfl⟩
    refine ⟨hactive, hdid, ?_⟩
    intro htrim env ani2
    have hfind : (NewRouter db pm env0).findCallByDID env (TrimSpace c.AssignedDID) =
        .ok (c.CallID, NewRouter db pm env0) := by
      rw [htrim]
      exact findCallByDID_of_hit hdid
    rw [@processReturnCall_of_found _ _ _ ani2 _ _ _ hfind hactive]
    exact ⟨_, rfl, rfl, rfl⟩
  · intro callID hno
    unfold NewRouter
    cases hans : env0.restoreFails with
    | true =>
      rw [restoreActiveCalls_of_fails _ hans]
      rfl
    | false =>
      rw [restoreActiveCalls_eq _ hans]
      simp only
      rw [GoMap.lookup_foldl_store_none (fun c => (scanCallRecord c).CallID)
        scanCallRecord]
      · rfl
      · intro a ha hka
        obtain ⟨h1, h2, h3⟩ := hmemlive a ha
        exact hno a h1 hka ⟨h2, h3⟩
  · intro did hno
    unfold NewRouter
    cases hans : env0.restoreFails with
    | true =>
      rw [restoreActiveCalls_of_fails _ hans]
      rfl
    | false =>
      rw [restoreActiveCalls_eq _ hans]
      simp only
      rw [GoMap.lookup_foldl_store_none (fun c => (scanCallRecord c).AssignedDID)
        (fun c => (scanCallRecord c).CallID)]
      · rfl
      · intro a ha hka
        obtain ⟨h1, h2, h3⟩ := hmemlive a ha
        exact hno a h1 hka ⟨h2, h3⟩
  · intro hfail
    unfold NewRouter
    rw [restoreActiveCalls_of_fails _ hfail]
    exact ⟨rfl, rfl⟩

/-- Witness of C14 amended, scenario E: the store left by scenario A holds "call-1",
ACTIVE and 5 minutes old at time 300; a new router resolves its DID. -/
theorem newRouter_restores_witness :
    exampleRouterA.db.UniqueKeys ∧
    GoMap.lookup (NewRouter exampleRouterA.db exampleManager (Env.reliable 300)).didToCallMap
      "15551230000" = some "call-1" ∧
    (∃ resp, ((NewRouter exampleRouterA.db exampleManager (Env.reliable 300)).ProcessReturnCall
        (Env.reliable 300) "anything" "15551230000").1 = .ok resp ∧
      resp.ANIToSend = "7135550000" ∧ resp.DNISToSend = "8005551234") :=
  ⟨by decide,
   ((newRouter_restores exampleRouterA.db exampleManager (Env.reliable 300)).1
      ⟨1, "call-1", "7135550000", "8005551234", "15551230000", 1, "p1", .ACTIVE, 0,
        none, 0, "/var/spool/asterisk/recordings/call-1.wav"⟩
      (by decide) (by decide) rfl (by decide) (by decide) rfl (by decide)).2.1,
   ((newRouter_restores exampleRouterA.db exampleManager (Env.reliable 300)).1
      ⟨1, "call-1", "7135550000", "8005551234", "15551230000", 1, "p1", .ACTIVE, 0,
        none, 0, "/var/spool/asterisk/recordings/call-1.wav"⟩
      (by decide) (by decide) rfl (by decide) (by decide) rfl (by decide)).2.2 (by decide)
      (Env.reliable 300) "anything"⟩

/-! ## C15: store errors during record-keeping -/

/-- C15, the code at the failing input: scenario A with a failing insert of the call
record.  The lease succeeds, and `ProcessIncomingCall` returns the success response;
the DID is marked in use and mapped to the call in memory, and the store holds no
call record.  With a failing mark, in contrast, the error is returned and nothing
changes. -/
theorem processIncomingCall_store_error_dropped :
    exampleRouter.leaseDID exampleEnvStoreFails "8005551234" = .ok "15551230000" ∧
    Router.storeCallRecord exampleRouter.db exampleEnvStoreFails.storeFails
      (exampleRouter.newCallRecord (Env.reliable 0) "call-1" "7135550000" "8005551234"
        "15551230000") =
      .error .execError ∧
    (exampleRouter.ProcessIncomingCall exampleEnvStoreFails "call-1" "7135550000"
        "8005551234").1 =
      .ok ⟨"success", "15551230000", "trunk-p1", "8005551234", "15551230000", "p1",
        "trunk-p1"⟩ ∧
    (exampleRouter.ProcessIncomingCall exampleEnvStoreFails "call-1" "7135550000"
        "8005551234").2.db.call_records = [] ∧
    ((exampleRouter.ProcessIncomingCall exampleEnvStoreFails "call-1" "7135550000"
        "8005551234").2.db.dids.map fun d => (d.DID, d.InUse)) =
      [("15551230000", true)] ∧
    (exampleRouter.ProcessIncomingCall exampleEnvStoreFails "call-1" "7135550000"
        "8005551234").2.didToCallMap = [("15551230000", "call-1")] ∧
    exampleRouter.ProcessIncomingCall exampleEnvMarkFails "call-1" "7135550000"
        "8005551234" = (.error .execError, exampleRouter) := by
  decide

/-! ## C16: end time and duration of a terminal transition -/

/-- What `updateCallStatus` writes besides the status: for COMPLETED and FAILED the
end time `now` and the seconds since `start_time`; for the other states nothing. -/
theorem restatedCalls_end_time_duration (records : List CallRecord) (now : Int)
    (callID : String) (status : CallState) (i : Nat) (c : CallRecord)
    (hc : records[i]? = some c) (hcid : c.CallID = callID) :
    ∃ c2, (restatedCalls records now callID status)[i]? = some c2 ∧
      c2.Status = status ∧
      (status.terminal = true →
        c2.EndTime = some now ∧ c2.Duration = now - c.StartTime) ∧
      (status.terminal = false → c2.EndTime = c.EndTime ∧ c2.Duration = c.Duration) := by
  unfold restatedCalls
  rw [List.getElem?_map, hc]
  simp only [Option.map_some']
  rw [if_pos hcid]
  refine ⟨_, rfl, rfl, ?_, ?_⟩
  · intro h
    simp [h]
  · intro h
    simp [h]

/-- What the sweep writes into a stale record: status FAILED and the end time `now`;
the duration stays. -/
theorem sweptCalls_duration (records : List CallRecord) (now : Int) (i : Nat)
    (c : CallRecord) (hc : records[i]? = some c) :
    ∃ c2, (sweptCalls records now)[i]? = some c2 ∧ c2.Duration = c.Duration := by
  unfold sweptCalls
  rw [List.getElem?_map, hc]
  simp only [Option.map_some']
  by_cases hst : c.stale now = true
  · rw [if_pos hst]
    exact ⟨_, rfl, rfl⟩
  · rw [if_neg hst]
    exact ⟨_, rfl, rfl⟩

/-- C16, the code at the failing input: the call of scenario A, started at time 0, is
failed by the sweep at time 601.  The sweep stamps `end_time` 601 and leaves
`duration` 0, where `updateCallStatus` to FAILED at the same time sets `duration`
601. -/
theorem cleanupStaleCalls_leaves_duration :
    (exampleRouterA.db.call_records.map
        fun c => (c.CallID, c.Status, c.StartTime, c.EndTime, c.Duration)) =
      [("call-1", .ACTIVE, 0, none, 0)] ∧
    ((exampleRouterA.cleanupStaleCalls (Env.reliable 601)).db.call_records.map
        fun c => (c.CallID, c.Status, c.StartTime, c.EndTime, c.Duration)) =
      [("call-1", .FAILED, 0, some 601, 0)] ∧
    Router.updateCallStatus exampleRouterA.db false 601 "call-1" .FAILED =
      .ok ⟨exampleRouterA.db.providers, exampleRouterA.db.dids,
        [⟨1, "call-1", "7135550000", "8005551234", "15551230000", 1, "p1", .FAILED, 0,
          some 601, 601, "/var/spool/asterisk/recordings/call-1.wav"⟩]⟩ :=
  ⟨by decide, by decide, by decide⟩

/-! ## C17: correlation by DID alone -/

/-- C17.  `ProcessReturnCall(ani2, did)` and `ProcessReturnCall(ani2', did)`, run from
the same router and store in the same environment, give the same result, response or
error, and the same router: the same maps and the same store. -/
theorem processReturnCall_ignores_ani2 (r : Router) (env : Env) (ani2 ani2' did : String) :
    r.ProcessReturnCall env ani2 did = r.ProcessReturnCall env ani2' did := by
  unfold Router.ProcessReturnCall
  rfl

/-! ## C18: validation in `AddProvider` -/

/-- C18.  For a provider with an empty name or an empty host `AddProvider` returns the
"provider name and host are required" error and leaves the manager, with its provider
index, and the store as they are.  For a provider with both non-empty it never
returns that error, and it succeeds when the upsert is written. -/
theorem addProvider_validation (m : Manager) (db : DB) (fails : Bool) (updatedID : Int)
    (p : Provider) :
    ((p.Name = "" ∨ p.Host = "") →
      Manager.AddProvider m db fails updatedID p = (.error .nameAndHostRequired, m, db)) ∧
    (p.Name ≠ "" → p.Host ≠ "" →
      (Manager.AddProvider m db fails updatedID p).1 ≠ .error .nameAndHostRequired ∧
      (fails = false → (Manager.AddProvider m db fails updatedID p).1 = .ok ())) := by
  constructor
  · intro h
    unfold Manager.AddProvider
    rw [if_pos h]
  · intro hn hh
    have hv : ¬ (p.Name = "" ∨ p.Host = "") := fun h => h.elim hn hh
    unfold Manager.AddProvider
    rw [if_neg hv]
    cases fails
    · simp
    · simp

/-- Witness of C18: a provider without host is rejected and nothing changes; provider
`p1` passes the validation. -/
theorem addProvider_validation_witness :
    Manager.AddProvider exampleManager exampleDB false 0
      ⟨0, "p9", "", 0, "", "", "", "", [], 0, true, ""⟩ =
      (.error .nameAndHostRequired, exampleManager, exampleDB) ∧
    (Manager.AddProvider exampleManager exampleDB false 0 exampleP1).1 = .ok () :=
  ⟨(addProvider_validation exampleManager exampleDB false 0
      ⟨0, "p9", "", 0, "", "", "", "", [], 0, true, ""⟩).1 (Or.inr rfl),
   ((addProvider_validation exampleManager exampleDB false 0 exampleP1).2 (by decide)
      (by decide)).2 rfl⟩

/-! ## C19: defaults in `AddProvider` -/

theorem addProvider_of_valid {m : Manager} {db : DB} {updatedID : Int} {p : Provider}
    (hn : p.Name ≠ "") (hh : p.Host ≠ "") :
    Manager.AddProvider m db false updatedID p =
      (.ok (),
       { m with
          providers := GoMap.store m.providers p.Name
            ({ withDefaults p with
                ID := lastInsertId db.providers (withDefaults p) updatedID } : Provider) },
       { db with providers := upsertedProviders db.providers (withDefaults p) }) := by
  have hv : ¬ (p.Name = "" ∨ p.Host = "") := fun h => h.elim hn hh
  unfold Manager.AddProvider
  rw [if_neg hv]
  rfl

/-- C19.  For a provider with non-empty name and host whose upsert is written,
`AddProvider` succeeds and the provider stored under its name in the in-memory index
has port 5060 if the port was 0 and the given port otherwise, transport "udp" if the
transport was empty and the given one otherwise, codecs ulaw and alaw if there were
none and the given ones otherwise, and the given name, host, user name, password,
realm, channel limit, active flag and country.  The `providers` table holds a row of
that name with the same columns. -/
theorem addProvider_defaults (m : Manager) (db : DB) (updatedID : Int) (p : Provider)
    (hn : p.Name ≠ "") (hh : p.Host ≠ "") :
    (Manager.AddProvider m db false updatedID p).1 = .ok () ∧
    (∃ q, GoMap.lookup (Manager.AddProvider m db false updatedID p).2.1.providers p.Name =
        some q ∧
      q.Port = (if p.Port = 0 then 5060 else p.Port) ∧
      q.Transport = (if p.Transport = "" then "udp" else p.Transport) ∧
      q.Codecs = (if p.Codecs = [] then ["ulaw", "alaw"] else p.Codecs) ∧
      q.Name = p.Name ∧ q.Host = p.Host ∧ q.Username = p.Username ∧
      q.Password = p.Password ∧ q.Realm = p.Realm ∧ q.MaxChannels = p.MaxChannels ∧
      q.Active = p.Active ∧ q.Country = p.Country ∧
      ∃ row ∈ (Manager.AddProvider m db false updatedID p).2.2.providers,
        row.Name = p.Name ∧ q = { row with ID := q.ID }) := by
  have hcodecs : (withDefaults p).Codecs =
      (if p.Codecs = [] then ["ulaw", "alaw"] else p.Codecs) := by
    unfold withDefaults
    cases p.Codecs <;> simp
  rw [addProvider_of_valid hn hh]
  refine ⟨rfl, _, GoMap.lookup_store_self _ _ _, rfl, rfl, hcodecs, rfl, rfl, rfl, rfl,
    rfl, rfl, rfl, rfl, ?_⟩
  unfold upsertedProviders
  by_cases hany : db.providers.any (fun q => decide (q.Name = (withDefaults p).Name)) = true
  · rw [if_pos hany]
    obtain ⟨q0, hq0, hname⟩ := List.any_eq_true.mp hany
    have hname : q0.Name = (withDefaults p).Name := by simpa using hname
    refine ⟨_, List.mem_map.mpr ⟨q0, hq0, rfl⟩, ?_, ?_⟩
    · rw [if_pos hname]
      rfl
    · rw [if_pos hname]
  · rw [if_neg hany]
    exact ⟨_, List.mem_append_right _ (List.mem_singleton.mpr rfl), rfl, rfl⟩

/-- Witness of C19: a provider given with port 0, no transport and no codecs is stored
with the three defaults; its other fields are as given. -/
theorem addProvider_defaults_witness :
    GoMap.lookup (Manager.AddProvider ⟨[], []⟩ ⟨[], [], []⟩ false 0
        ⟨0, "p1", "10.0.0.1", 0, "u", "s", "r", "", [], 100, true, "US"⟩).2.1.providers
      "p1" = some ⟨1, "p1", "10.0.0.1", 5060, "u", "s", "r", "udp", ["ulaw", "alaw"], 100,
        true, "US"⟩ ∧
    (Manager.AddProvider ⟨[], []⟩ ⟨[], [], []⟩ false 0
        ⟨0, "p1", "10.0.0.1", 0, "u", "s", "r", "", [], 100, true, "US"⟩).1 = .ok () :=
  ⟨by decide,
   (addProvider_defaults ⟨[], []⟩ ⟨[], [], []⟩ 0
      ⟨0, "p1", "10.0.0.1", 0, "u", "s", "r", "", [], 100, true, "US"⟩ (by decide)
      (by decide)).1⟩

/-! ## C20: re-submission of DIDs -/

/-- C20, the code at the failing input: provider `p1` is known and has no DID;
`AddDIDs("p1", ["15551230000"], "US")` is called twice and succeeds twice.  After the
first call the table holds one row of the DID and the in-memory list holds it once;
after the second the table holds two rows of it and the list holds it twice. -/
theorem addDIDs_resubmission_duplicates :
    exampleAddedOnce.1 = .ok () ∧ exampleAddedTwice.1 = .ok () ∧
    (exampleAddedOnce.2.2.dids.map fun d => (d.ID, d.DID, d.ProviderID)) =
      [(1, "15551230000", 1)] ∧
    GoMap.lookup exampleAddedOnce.2.1.providerDIDs "p1" = some ["15551230000"] ∧
    (exampleAddedTwice.2.2.dids.map fun d => (d.ID, d.DID, d.ProviderID)) =
      [(1, "15551230000", 1), (2, "15551230000", 1)] ∧
    GoMap.lookup exampleAddedTwice.2.1.providerDIDs "p1" =
      some ["15551230000", "15551230000"] :=
  ⟨by decide, by decide, by decide, by decide, by decide, by decide⟩

/-! ## C21: `AddDIDs` for unknown and for known providers -/

/-- C21.  For a provider name that is no key of the in-memory provider index `AddDIDs`
returns the "provider not found" error and leaves the manager, with its DID lists, and
the store as they are.  For a known provider the call succeeds when the insert is
written, that is when the `Exec` does not fail, `dids` is not empty and the provider
id is in the `providers` table; and whenever the call succeeds, the in-memory DID list
of the provider is the previous list followed by `dids`, the lists of the other
providers and the provider index are unchanged, and the table holds the previous rows
followed by one row for each of `dids`. -/
theorem addDIDs_unknown_or_appends (m : Manager) (db : DB) (fails : Bool)
    (providerName : String) (dids : List String) (country : String) :
    (GoMap.lookup m.providers providerName = none →
      Manager.AddDIDs m db fails providerName dids country =
        (.error (.providerNotFound providerName), m, db)) ∧
    (∀ provider, GoMap.lookup m.providers providerName = some provider →
      (fails = false → dids ≠ [] → (∃ q ∈ db.providers, q.ID = provider.ID) →
        (Manager.AddDIDs m db fails providerName dids country).1 = .ok ()) ∧
      ((Manager.AddDIDs m db fails providerName dids country).1 = .ok () →
        GoMap.lookup (Manager.AddDIDs m db fails providerName dids country).2.1.providerDIDs
            providerName =
          some ((GoMap.lookup m.providerDIDs providerName).getD [] ++ dids) ∧
        (∀ other, providerName ≠ other →
          GoMap.lookup (Manager.AddDIDs m db fails providerName dids
              country).2.1.providerDIDs other =
            GoMap.lookup m.providerDIDs other) ∧
        (Manager.AddDIDs m db fails providerName dids country).2.1.providers =
          m.providers ∧
        (Manager.AddDIDs m db fails providerName dids country).2.2.dids =
          insertedDIDs db.dids provider country dids)) := by
  constructor
  · intro h
    unfold Manager.AddDIDs
    rw [h]
  · intro provider h
    unfold Manager.AddDIDs
    rw [h]
    simp only
    constructor
    · intro hf hne hfk
      have hany : db.providers.any (fun q => decide (q.ID = provider.ID)) = true := by
        obtain ⟨q, hq, hid⟩ := hfk
        exact List.any_eq_true.mpr ⟨q, hq, by simpa using hid⟩
      have hemp : dids.isEmpty = false := by
        cases dids with
        | nil => exact absurd rfl hne
        | cons _ _ => rfl
      rw [hf, hemp, hany]
      rfl
    · intro hok
      split at hok
      · cases hok
      · next hcond =>
        rw [if_neg hcond]
        exact ⟨GoMap.lookup_store_self _ _ _,
          fun other hne => GoMap.lookup_store_ne _ _ hne, rfl, rfl⟩

/-- Witness of C21: the unknown provider "p9" is refused and nothing changes; for the
known provider `p1`, whose list is empty, the list after the call is the added DID. -/
theorem addDIDs_unknown_or_appends_witness :
    Manager.AddDIDs exampleManagerNoDIDs exampleDBNoDIDs false "p9" ["15551230000"] "US" =
      (.error (.providerNotFound "p9"), exampleManagerNoDIDs, exampleDBNoDIDs) ∧
    (Manager.AddDIDs exampleManagerNoDIDs exampleDBNoDIDs false "p1" ["15551230000"]
      "US").1 = .ok () ∧
    GoMap.lookup (Manager.AddDIDs exampleManagerNoDIDs exampleDBNoDIDs false "p1"
        ["15551230000"] "US").2.1.providerDIDs "p1" =
      some ((GoMap.lookup exampleManagerNoDIDs.providerDIDs "p1").getD [] ++
        ["15551230000"]) :=
  ⟨(addDIDs_unknown_or_appends exampleManagerNoDIDs exampleDBNoDIDs false "p9"
      ["15551230000"] "US").1 (by decide),
   ((addDIDs_unknown_or_appends exampleManagerNoDIDs exampleDBNoDIDs false "p1"
      ["15551230000"] "US").2 exampleP1 (by decide)).1 rfl (by decide) (by decide),
   (((addDIDs_unknown_or_appends exampleManagerNoDIDs exampleDBNoDIDs false "p1"
      ["15551230000"] "US").2 exampleP1 (by decide)).2 (by decide)).1⟩

/-! ## C22: the two maps stay consistent -/

theorem findCallByDID_error {r : Router} {env : Env} {did : String} {e : Error}
    (h : r.findCallByDID env did = .error e) : e = .noActiveCall did := by
  unfold Router.findCallByDID at h
  split at h
  · cases h
  · split at h
    · injection h with h
      exact h.symm
    · cases h

theorem cleanupStaleCalls_maps (r : Router) (env : Env) :
    (r.cleanupStaleCalls env).activeCallsMap = r.activeCallsMap ∧
    (r.cleanupStaleCalls env).didToCallMap = r.didToCallMap := by
  constructor
  · unfold Router.cleanupStaleCalls
    cases env.sweepFails <;> simp only [Bool.false_eq_true, if_true, if_false]
    split
    · split <;> rfl
    · rfl
  · unfold Router.cleanupStaleCalls
    cases env.sweepFails <;> simp only [Bool.false_eq_true, if_true, if_false]
    split
    · split <;> rfl
    · rfl

/-- C22.  In every router reachable from a newly constructed one through
`restoreActiveCalls`, `ProcessIncomingCall`, `ProcessReturnCall`, sweeps and changes
of the store by other code, every call id that `didToCallMap` holds is a key of
`activeCallsMap`, so `ProcessReturnCall` never dereferences a missing record; and no
operation removes a key from either map. -/
theorem maps_stay_consistent (r : Router) (h : r.Reachable) :
    r.Consistent ∧
    (∀ (env : Env) (ani2 did : String),
      (r.ProcessReturnCall env ani2 did).1 ≠ .error .nilDereference) ∧
    (∀ r2, Router.Step r r2 →
      GoMap.KeysKept r.activeCallsMap r2.activeCallsMap ∧
      GoMap.KeysKept r.didToCallMap r2.didToCallMap) := by
  -- what one operation does to the two maps
  have hstep : ∀ r r2 : Router, Router.Step r r2 →
      (r.Consistent → r2.Consistent) ∧
      GoMap.KeysKept r.activeCallsMap r2.activeCallsMap ∧
      GoMap.KeysKept r.didToCallMap r2.didToCallMap := by
    intro r r2 hs
    cases hs with
    | restore env => exact restoreActiveCalls_maps r env
    | incoming env callID ani dnis =>
      rcases processIncomingCall_maps r env callID ani dnis with ⟨h1, h2⟩ | ⟨d, rec, h1, h2⟩
      · refine ⟨fun hc => ?_, ?_, ?_⟩
        · intro did cid hl
          rw [h2] at hl
          rw [h1]
          exact hc did cid hl
        · rw [h1]; exact GoMap.keysKept_refl _
        · rw [h2]; exact GoMap.keysKept_refl _
      · refine ⟨fun hc => ?_, ?_, ?_⟩
        · intro did cid hl
          rw [h2] at hl
          rw [h1]
          exact consistent_store hc callID d rec did cid hl
        · rw [h1]; exact GoMap.keysKept_store _ _ _
        · rw [h2]; exact GoMap.keysKept_store _ _ _
    | returned env ani2 did =>
      cases hf : r.findCallByDID env (TrimSpace did) with
      | error e =>
        rw [processReturnCall_of_not_found hf]
        exact ⟨fun hc => hc, GoMap.keysKept_refl _, GoMap.keysKept_refl _⟩
      | ok found =>
        obtain ⟨callID, r1⟩ := found
        obtain ⟨h1, h2, _⟩ := @processReturnCall_maps_of_found _ _ _ ani2 _ _ hf
        rcases findCallByDID_maps hf with ⟨h3, h4, _⟩ | ⟨rec, h3, h4⟩
        · refine ⟨fun hc => ?_, ?_, ?_⟩
          · intro d cid hl
            rw [h2, h4] at hl
            rw [h1, h3]
            exact hc d cid hl
          · rw [h1, h3]; exact GoMap.keysKept_refl _
          · rw [h2, h4]; exact GoMap.keysKept_refl _
        · refine ⟨fun hc => ?_, ?_, ?_⟩
          · intro d cid hl
            rw [h2, h4] at hl
            rw [h1, h3]
            exact consistent_store hc callID (TrimSpace did) rec d cid hl
          · rw [h1, h3]; exact GoMap.keysKept_store _ _ _
          · rw [h2, h4]; exact GoMap.keysKept_store _ _ _
    | sweep env =>
      obtain ⟨h1, h2⟩ := cleanupStaleCalls_maps r env
      refine ⟨fun hc => ?_, ?_, ?_⟩
      · intro d cid hl
        rw [h2] at hl
        rw [h1]
        exact hc d cid hl
      · rw [h1]; exact GoMap.keysKept_refl _
      · rw [h2]; exact GoMap.keysKept_refl _
    | outside db pm =>
      exact ⟨fun hc => hc, GoMap.keysKept_refl _, GoMap.keysKept_refl _⟩
  -- consistency of every reachable router
  have hcons : r.Consistent := by
    induction h with
    | new db pm env =>
      unfold NewRouter
      apply (restoreActiveCalls_maps _ env).1
      intro did cid hl
      cases hl
    | step _ hs ih => exact (hstep _ _ hs).1 ih
  refine ⟨hcons, ?_, fun r2 hs => (hstep r r2 hs).2⟩
  intro env ani2 did hnil
  cases hf : r.findCallByDID env (TrimSpace did) with
  | error e =>
    rw [processReturnCall_of_not_found hf] at hnil
    injection hnil with hnil
    rw [findCallByDID_error hf] at hnil
    cases hnil
  | ok found =>
    obtain ⟨callID, r1⟩ := found
    obtain ⟨_, _, h3⟩ := @processReturnCall_maps_of_found _ _ _ ani2 _ _ hf
    have hnone := h3.mp hnil
    rcases findCallByDID_maps hf with ⟨h4, _, h5⟩ | ⟨rec, h4, _⟩
    · obtain ⟨rec, hrec⟩ := hcons _ _ h5
      rw [h4, hrec] at hnone
      cases hnone
    · rw [h4, GoMap.lookup_store_self] at hnone
      cases hnone

/-- Witness of C22: the router after scenario A is reachable; its DID is mapped to
"call-1", which is a key of `activeCallsMap`, and the return leg finds the record. -/
theorem maps_stay_consistent_witness :
    exampleRouterA.Reachable ∧ exampleRouterA.Consistent ∧
    exampleRouterA.didToCallMap = [("15551230000", "call-1")] ∧
    (GoMap.lookup exampleRouterA.activeCallsMap "call-1").isSome = true ∧
    (exampleRouterA.ProcessReturnCall (Env.reliable 5) "anything" "15551230000").1 ≠
      .error .nilDereference :=
  have hreach : exampleRouterA.Reachable :=
    Router.Reachable.step (Router.Reachable.new exampleDB exampleManager (Env.reliable 0))
      (Router.Step.incoming exampleRouter (Env.reliable 0) "call-1" "7135550000"
        "8005551234")
  ⟨hreach, (maps_stay_consistent exampleRouterA hreach).1, by decide, by decide,
   (maps_stay_consistent exampleRouterA hreach).2.1 (Env.reliable 5) "anything"
     "15551230000"⟩

end RouterProduction
